import Mathlib

/-!
terraform-provider-jira: client, scope classifier and Read entry points

A shallow embedding of `internal/client/client.go`, `internal/issuetype/scope.go`
and the `Read` entry points of `internal/resources` and `internal/datasources`,
followed by the properties proved about them.

Conventions of the embedding:

* Go `int` is `Int`; where the code multiplies into an `int64` the product is
  wrapped explicitly.
* A decoded JSON document is a `JVal`; a Go `map[string]interface{}` is a
  `GoMap`, whose `none` is the nil map.
* Everything outside the repository (the HTTP server, the order in which the
  runtime walks a map, Unicode case folding) is a field of `World`.
* `doRequest` recurses on HTTP 429 without a bound, so it takes a fuel
  argument and returns `none` when the fuel runs out.
-/

namespace Jira

/-! ## JSON values and Go maps -/

/-- A JSON document as `encoding/json` sees it. A number carries the only two
things the code can observe about it: `int64`, the value `strconv.ParseInt`
gives for the literal (`none` for a literal with a fraction or exponent, or one
outside the `int64` range), and `text`, what `%v` prints for it once it is a
`float64`. Object members are kept in document order, duplicates included. -/
inductive JVal where
  | null
  | bool (b : Bool)
  | num (int64 : Option Int) (text : String)
  | str (s : String)
  | arr (items : List JVal)
  | obj (members : List (String × JVal))

/-- Members of a non-nil Go map, in decoding order: a later member with the
same key overrides an earlier one. -/
abbrev Members := List (String × JVal)

/-- A Go `map[string]interface{}`; `none` is the nil map. -/
abbrev GoMap := Option Members

/-- The comma-ok lookup on the members: the last member with the key wins. -/
def Members.get? : Members → String → Option JVal
  | [], _ => none
  | (k, v) :: rest, key =>
    match Members.get? rest key with
    | some w => some w
    | none => if k = key then some v else none

/-- The comma-ok lookup `v, ok := m[key]`; a nil map has no keys. -/
def GoMap.get? (m : GoMap) (key : String) : Option JVal :=
  match m with
  | none => none
  | some ms => Members.get? ms key

/-- The map after `m[key] = v` (on a non-nil map), or a fresh one-entry map. -/
def GoMap.set (m : GoMap) (key : String) (v : JVal) : GoMap :=
  match m with
  | none => some [(key, v)]
  | some ms => some (ms ++ [(key, v)])

/-- The map holds an entry under `key`. -/
def GoMap.HasKey (m : GoMap) (key : String) : Prop :=
  ∃ ms v, m = some ms ∧ (key, v) ∈ ms

/-! ## internal/issuetype/scope.go -/

/-- The function `IsProjectScoped`: `_, hasScope := issueType["scope"]; return hasScope`. -/
def IsProjectScoped (issueType : GoMap) : Bool :=
  (GoMap.get? issueType "scope").isSome

/-! ## internal/client/client.go: errors -/

/-- The struct `APIError`. `Errors` is a Go map, kept as an association list with
distinct keys in insertion order. -/
structure APIError where
  StatusCode : Int
  ErrorMessages : List String
  Errors : List (String × String)

/-- A Go `error` value that is not nil: either a `*APIError` or an error built
by `fmt.Errorf`, of which only the text matters. -/
inductive GoError where
  | api (e : APIError)
  | plain (text : String)

/-- The function `IsNotFound`: the type assertion `err.(*APIError)` fails on nil and on every
error that is not a `*APIError`. `none` is the nil error. -/
def IsNotFound (err : Option GoError) : Bool :=
  match err with
  | some (.api apiErr) => decide (apiErr.StatusCode = 404)
  | _ => false

/-! ## The world outside the repository -/

/-- The client configuration (`Client`, without the `http.Client`). -/
structure Client where
  BaseURL : String
  Email : String
  APIToken : String

/-- What `doRequest` hands to `HTTPClient.Do`: method, full URL, the basic-auth
pair and the payload that `json.Marshal` encodes (`none` for a nil body). The
`Content-Type` and `Accept` headers are constant and left out. -/
structure Request where
  method : String
  url : String
  user : String
  password : String
  body : Option JVal

/-- An HTTP response as `doRequest` reads it: `retryAfter` is
`resp.Header.Get("Retry-After")` (empty when the header is absent),
`readError` is the error of `io.ReadAll`, `body` the bytes read and `json` the
outcome of the syntax pass of `encoding/json` over them (`Except.error` with
the library's message when the body is not JSON). -/
structure Response where
  StatusCode : Int
  retryAfter : String
  readError : Option String
  body : String
  json : Except String JVal

/-- What happens to one attempt: `http.NewRequest` rejects it, `HTTPClient.Do`
fails, or the server answers. -/
inductive Reply where
  | invalid (cause : String)
  | failed (cause : String)
  | answered (resp : Response)

/-- Everything the code depends on and does not define: the server (its answer
may depend on the requests made so far), the entry at which the runtime starts
a `range` over a map, and the representative of a rune under Unicode simple
case folding (`strings.EqualFold`, and the key matching of `encoding/json`). -/
structure World where
  server : List Request → Request → Reply
  pick : Nat
  fold : Char → Char

/-- The observable effects of the client so far: the requests handed to
`HTTPClient.Do`, oldest first, and the arguments of `time.Sleep` in
nanoseconds. -/
structure Net where
  sent : List Request
  slept : List Int

/-- No request made, no sleep taken. -/
def Net.start : Net := { sent := [], slept := [] }

/-! ## Library functions the client calls -/

/-- The function `strings.EqualFold`, given the folding of single runes. -/
def EqualFold (fold : Char → Char) (s t : String) : Bool :=
  s.toList.map fold == t.toList.map fold

/-- The value of a decimal digit. -/
def digitVal (c : Char) : Option Nat :=
  if 48 ≤ c.toNat ∧ c.toNat ≤ 57 then some (c.toNat - 48) else none

/-- The number written by a list of decimal digits, most significant first. -/
def parseDigits : List Char → Nat → Option Nat
  | [], acc => some acc
  | c :: cs, acc =>
    match digitVal c with
    | some d => parseDigits cs (acc * 10 + d)
    | none => none

/-- The function `strconv.Atoi` on a 64-bit platform: an optional sign, then at least one
decimal digit and nothing else; a value outside `int64` is an error. -/
def Atoi (s : String) : Option Int :=
  match s.toList with
  | [] => none
  | c :: cs =>
    if c = '-' then
      if cs = [] then none
      else match parseDigits cs 0 with
        | some n => if n ≤ 2 ^ 63 then some (-(n : Int)) else none
        | none => none
    else if c = '+' then
      if cs = [] then none
      else match parseDigits cs 0 with
        | some n => if n < 2 ^ 63 then some (n : Int) else none
        | none => none
    else match parseDigits (c :: cs) 0 with
      | some n => if n < 2 ^ 63 then some (n : Int) else none
      | none => none

/-- Two's-complement wrap of an integer into `int64`. -/
def wrapInt64 (x : Int) : Int :=
  (x + 2 ^ 63) % 2 ^ 64 - 2 ^ 63

/-- The product `time.Duration(seconds) * time.Second`: an `int64` product, in
nanoseconds. -/
def secondsDuration (seconds : Int) : Int :=
  wrapInt64 (seconds * 1000000000)

/-- The text `fmt.Sprintf("%d", n)`. -/
def fmtD (n : Int) : String :=
  toString n

/-- Decoding a JSON value into a Go `string` that currently holds `old`: a
JSON string replaces it; `null` and every value of another kind leave it. -/
def decodeString (old : String) : JVal → String
  | .str s => s
  | _ => old

/-- Decoding a JSON array into a `[]string` that currently holds `old`:
element `i` is decoded into the slot `i` of the slice, a new slot starting
empty. -/
def decodeStrings : List String → List JVal → List String
  | _, [] => []
  | old, item :: items => decodeString (old.headD "") item :: decodeStrings old.tail items

/-- The assignment `m[k] = v` on a `map[string]string` kept as an association list. -/
def setEntry (m : List (String × String)) (k v : String) : List (String × String) :=
  if m.any (fun p => p.1 == k) then m.map (fun p => if p.1 = k then (k, v) else p)
  else m ++ [(k, v)]

/-! ## internal/client/client.go: requests -/

/-- One member of a JSON object decoded into an `APIError`. `StatusCode` has
no `json` tag, so it is a field like the other two and is matched by its name;
a key matches a field when the two are equal under case folding. A value of
the wrong kind leaves the field as it is (the type error is dropped with the
rest of the result of `json.Unmarshal`). -/
def decodeAPIErrorMember (fold : Char → Char) (e : APIError) (key : String) (v : JVal) : APIError :=
  if EqualFold fold key "StatusCode" then
    match v with
    | .num (some n) _ => { e with StatusCode := n }
    | _ => e
  else if EqualFold fold key "errorMessages" then
    match v with
    | .arr items => { e with ErrorMessages := decodeStrings e.ErrorMessages items }
    | .null => { e with ErrorMessages := [] }
    | _ => e
  else if EqualFold fold key "errors" then
    match v with
    | .obj members =>
      { e with Errors := members.foldl (fun m kv => setEntry m kv.1 (decodeString "" kv.2)) e.Errors }
    | .null => { e with Errors := [] }
    | _ => e
  else e

/-- The call `_ = json.Unmarshal(respBody, apiErr)`: a body that is not JSON, or is not
a JSON object, leaves `apiErr` untouched. -/
def unmarshalAPIError (fold : Char → Char) (apiErr : APIError) (json : Except String JVal) : APIError :=
  match json with
  | .ok (.obj members) => members.foldl (fun e kv => decodeAPIErrorMember fold e kv.1 kv.2) apiErr
  | _ => apiErr

/-- The method `(*APIError).Error`. `pick` is where the runtime starts the `range` over
`Errors`; the loop returns at its first entry. -/
def APIError.Error (e : APIError) (pick : Nat) : String :=
  match e.ErrorMessages with
  | m :: _ => "JIRA API error (HTTP " ++ fmtD e.StatusCode ++ "): " ++ m
  | [] =>
    match e.Errors[pick % e.Errors.length]? with
    | some (k, v) => "JIRA API error (HTTP " ++ fmtD e.StatusCode ++ "): " ++ k ++ ": " ++ v
    | none => "JIRA API error (HTTP " ++ fmtD e.StatusCode ++ ")"

/-- The call `err.Error()` on a non-nil error. -/
def GoError.Error (err : GoError) (pick : Nat) : String :=
  match err with
  | .api e => e.Error pick
  | .plain text => text

/-- A destination `result` of `doRequest`: the value the variable holds before
the call, and `json.Unmarshal` into it. -/
structure Dest (α : Type) where
  zero : α
  decode : JVal → Except String α

/-- The outcome of a client call: the error (`none` is nil), the decoded
destination when the body was decoded into it, and the effects so far. -/
structure Outcome (α : Type) where
  err : Option GoError
  value : Option α
  net : Net

/-- The request `doRequest` hands to `HTTPClient.Do`: the URL is the base URL
followed by the path, the credentials are those of the client. -/
def Client.request (c : Client) (method path : String) (body : Option JVal) : Request :=
  { method := method, url := c.BaseURL ++ path, user := c.Email, password := c.APIToken,
    body := body }

/-- The first half of the block of `doRequest` for a status outside
[200,300): the `APIError` built with the status of the response, after the
body, when there is one, has been decoded into it. -/
def decodedError (w : World) (resp : Response) : APIError :=
  if resp.body ≠ "" then
    unmarshalAPIError w.fold
      { StatusCode := resp.StatusCode, ErrorMessages := [], Errors := [] } resp.json
  else { StatusCode := resp.StatusCode, ErrorMessages := [], Errors := [] }

/-- The second half of that block: when the text of the decoded error is the
bare `JIRA API error (HTTP <status>)` and the body is not empty, the error
returned is a `fmt.Errorf` carrying the raw body instead of the `APIError`. -/
def responseError (w : World) (resp : Response) : GoError :=
  if (decodedError w resp).Error w.pick = "JIRA API error (HTTP " ++ fmtD resp.StatusCode ++ ")"
      ∧ resp.body ≠ "" then
    .plain ("JIRA API error (HTTP " ++ fmtD resp.StatusCode ++ "): " ++ resp.body)
  else .api (decodedError w resp)

/-- The method `Client.doRequest`. The payload is a JSON value, so
`json.Marshal` cannot fail. The recursion on HTTP 429 consumes one unit of
fuel per attempt; `none` means the fuel ran out before the call returned.
After an error the destination is not read by any caller and is reported as
not decoded. -/
def doRequest {α : Type} (w : World) (c : Client) (method path : String) (body : Option JVal)
    (result : Option (Dest α)) : Nat → Net → Option (Outcome α)
  | 0, _ => none
  | fuel + 1, net =>
    match w.server net.sent (c.request method path body) with
    | .invalid cause =>
      some { err := some (.plain ("failed to create request: " ++ cause)), value := none, net := net }
    | .failed cause =>
      some { err := some (.plain ("request failed: " ++ cause)), value := none,
             net := { net with sent := net.sent ++ [c.request method path body] } }
    | .answered resp =>
      if resp.StatusCode = 429 then
        match Atoi resp.retryAfter with
        | some seconds =>
          doRequest w c method path body result fuel
            { sent := net.sent ++ [c.request method path body],
              slept := net.slept ++ [secondsDuration seconds] }
        | none =>
          some { err := some (.plain ("rate limited by JIRA API, retry after: " ++ resp.retryAfter)),
                 value := none,
                 net := { net with sent := net.sent ++ [c.request method path body] } }
      else
        match resp.readError with
        | some cause =>
          some { err := some (.plain ("failed to read response body: " ++ cause)), value := none,
                 net := { net with sent := net.sent ++ [c.request method path body] } }
        | none =>
          if resp.StatusCode < 200 ∨ resp.StatusCode ≥ 300 then
            some { err := some (responseError w resp), value := none,
                   net := { net with sent := net.sent ++ [c.request method path body] } }
          else
            match result with
            | some dest =>
              if resp.body ≠ "" then
                match resp.json >>= dest.decode with
                | .error cause =>
                  some { err := some (.plain ("failed to unmarshal response: " ++ cause)),
                         value := none,
                         net := { net with sent := net.sent ++ [c.request method path body] } }
                | .ok v =>
                  some { err := none, value := some v,
                         net := { net with sent := net.sent ++ [c.request method path body] } }
              else
                some { err := none, value := none,
                       net := { net with sent := net.sent ++ [c.request method path body] } }
            | none =>
              some { err := none, value := none,
                     net := { net with sent := net.sent ++ [c.request method path body] } }

/-- The method `Client.Get`. -/
def Client.Get {α : Type} (w : World) (c : Client) (path : String) (result : Option (Dest α))
    (fuel : Nat) (net : Net) : Option (Outcome α) :=
  doRequest w c "GET" path none result fuel net

/-- The method `Client.Post`. -/
def Client.Post {α : Type} (w : World) (c : Client) (path : String) (body : Option JVal)
    (result : Option (Dest α)) (fuel : Nat) (net : Net) : Option (Outcome α) :=
  doRequest w c "POST" path body result fuel net

/-- The method `Client.Put`. -/
def Client.Put {α : Type} (w : World) (c : Client) (path : String) (body : Option JVal)
    (result : Option (Dest α)) (fuel : Nat) (net : Net) : Option (Outcome α) :=
  doRequest w c "PUT" path body result fuel net

/-- The method `Client.Delete`: no payload and no destination. -/
def Client.Delete (w : World) (c : Client) (path : String) (fuel : Nat) (net : Net) :
    Option (Outcome Unit) :=
  doRequest w c "DELETE" path none none fuel net

/-! ## Values of the plugin framework and of `fmt` -/

/-- A value of the plugin framework (`types.String`, `types.List`,
`types.Map`): null, unknown, or known. -/
inductive Tf (α : Type) where
  | null
  | unknown
  | value (v : α)

/-- A `types.String`. -/
abbrev TfString := Tf String

/-- The method `ValueString`: the empty string for a null or unknown value. -/
def Tf.ValueString : Tf String → String
  | .value s => s
  | _ => ""

/-- The method `IsNull`. -/
def Tf.IsNull {α : Type} : Tf α → Bool
  | .null => true
  | _ => false

/-- The method `IsUnknown`. -/
def Tf.IsUnknown {α : Type} : Tf α → Bool
  | .unknown => true
  | _ => false

/-- The assignment `m[k] = v` on a map printed by `%v`, kept sorted by key the
way `fmt` prints it. -/
def insertSorted (k v : String) : List (String × String) → List (String × String)
  | [] => [(k, v)]
  | (k', v') :: rest =>
    if k.toList < k'.toList then (k, v) :: (k', v') :: rest
    else if k = k' then (k, v) :: rest
    else (k', v') :: insertSorted k v rest

mutual
/-- The text `fmt.Sprintf("%v", x)` gives for a decoded JSON value: `<nil>`
for null, the elements of a slice between brackets, the entries of a map as
`map[k:v ...]` in key order. -/
def fmtJ : JVal → String
  | .null => "<nil>"
  | .bool b => if b then "true" else "false"
  | .num _ text => text
  | .str s => s
  | .arr items => "[" ++ " ".intercalate (fmtItems items) ++ "]"
  | .obj members =>
    "map[" ++ " ".intercalate
      (((fmtMembers members).foldl (fun m kv => insertSorted kv.1 kv.2 m) []).map
        (fun kv => kv.1 ++ ":" ++ kv.2)) ++ "]"
termination_by structural x => x
/-- The texts of the elements of a slice. -/
def fmtItems : List JVal → List String
  | [] => []
  | x :: xs => fmtJ x :: fmtItems xs
termination_by structural x => x
/-- The entries of a map with the texts of their values. -/
def fmtMembers : List (String × JVal) → List (String × String)
  | [] => []
  | (k, v) :: rest => (k, fmtJ v) :: fmtMembers rest
termination_by structural x => x
end

/-- The text `fmt.Sprintf("%v", x)` gives for an `interface{}`; `none` is the
nil interface, which a missing map key yields. -/
def fmtV : Option JVal → String
  | none => "<nil>"
  | some v => fmtJ v

/-- The type assertion `x.(string)`. -/
def asString : Option JVal → Option String
  | some (.str s) => some s
  | _ => none

/-- The type assertion `x.(bool)`. -/
def asBool : Option JVal → Option Bool
  | some (.bool b) => some b
  | _ => none

/-- The type assertion `x.(map[string]interface{})`. -/
def asMap : Option JVal → Option Members
  | some (.obj members) => some members
  | _ => none

/-- The type assertion `x.([]interface{})`. -/
def asSlice : Option JVal → Option (List JVal)
  | some (.arr items) => some items
  | _ => none

/-- The upper-case hexadecimal digit of a value below 16. -/
def hexDigit (n : Nat) : Char :=
  if n < 10 then Char.ofNat (48 + n) else Char.ofNat (55 + n)

/-- The characters `url.QueryEscape` leaves alone: ASCII letters and digits
and `-`, `_`, `.`, `~`. -/
def isUnreserved (c : Char) : Bool :=
  (48 ≤ c.toNat ∧ c.toNat ≤ 57) ∨ (65 ≤ c.toNat ∧ c.toNat ≤ 90) ∨ (97 ≤ c.toNat ∧ c.toNat ≤ 122)
    ∨ c = '-' ∨ c = '_' ∨ c = '.' ∨ c = '~'

/-- The escape of one character by `url.QueryEscape`: a space becomes `+`, any
other reserved character the `%XX` of each byte of its UTF-8 encoding. -/
def escapeChar (c : Char) : List Char :=
  if isUnreserved c then [c]
  else if c = ' ' then ['+']
  else (String.utf8EncodeChar c).flatMap
    (fun b => ['%', hexDigit (b.toNat / 16), hexDigit (b.toNat % 16)])

/-- The function `url.QueryEscape`. -/
def QueryEscape (s : String) : String :=
  String.mk (s.toList.flatMap escapeChar)

/-- The method `Encode` of a `url.Values` holding the single pair `key`,
`value`. -/
def encodeQuery (key value : String) : String :=
  QueryEscape key ++ "=" ++ QueryEscape value

/-- The kind of a JSON value as `encoding/json` names it in a type error. -/
def jsonKind : JVal → String
  | .null => "null"
  | .bool _ => "bool"
  | .num _ _ => "number"
  | .str _ => "string"
  | .arr _ => "array"
  | .obj _ => "object"

/-- Decoding one JSON value into a `map[string]interface{}` slot that is nil:
an object fills it, `null` leaves it nil, any other value is a type error. -/
def decodeMap (v : JVal) : Except String GoMap :=
  match v with
  | .obj members => .ok (some members)
  | .null => .ok none
  | other =>
    .error ("json: cannot unmarshal " ++ jsonKind other
      ++ " into Go value of type map[string]interface \x7b\x7d")

/-- Decoding one JSON value into a nil `[]map[string]interface{}`. -/
def decodeMaps (v : JVal) : Except String (List GoMap) :=
  match v with
  | .arr items => items.mapM decodeMap
  | .null => .ok []
  | other =>
    .error ("json: cannot unmarshal " ++ jsonKind other
      ++ " into Go value of type []map[string]interface \x7b\x7d")

/-- The destination `&result` for `var result map[string]interface{}`. -/
def mapDest : Dest GoMap :=
  { zero := none, decode := decodeMap }

/-- The destination `&result` for `var result []map[string]interface{}`. -/
def mapsDest : Dest (List GoMap) :=
  { zero := [], decode := decodeMaps }

/-- The outcome of a `Read` entry point: the record is removed from the state
(`resp.State.RemoveResource`), one error diagnostic is added
(`resp.Diagnostics.AddError`), the record is stored (`resp.State.Set`), or an
unchecked type assertion fails and the call panics. -/
inductive Result (σ : Type) where
  | removed
  | failed (summary detail : String)
  | stored (state : σ)
  | panicked

/-! ## internal/resources: the Read entry points

Each `Read` starts from the state record the framework decoded
(`req.State.Get` without error diagnostics) and ends in a `Result`. -/

/-- The state of an issue type (`IssueTypeResourceModel`). -/
structure IssueTypeResourceModel where
  ID : TfString
  Name : TfString
  Description : TfString
  Type_ : TfString

/-- The method `IssueTypeResource.Read`. -/
def IssueTypeResource.Read (w : World) (c : Client) (state : IssueTypeResourceModel)
    (fuel : Nat) (net : Net) : Option (Result IssueTypeResourceModel × Net) :=
  match Client.Get w c ("/rest/api/3/issuetype/" ++ state.ID.ValueString) (some mapDest) fuel net with
  | none => none
  | some out =>
    match out.err with
    | some err =>
      if IsNotFound (some err) then some (.removed, out.net)
      else some (.failed "Error reading issue type" (err.Error w.pick), out.net)
    | none =>
      let result : GoMap := out.value.getD mapDest.zero
      let state := { state with Name := .value (fmtV (result.get? "name")) }
      let state :=
        match asString (result.get? "description") with
        | some desc => if desc ≠ "" then { state with Description := .value desc } else state
        | none => state
      let state :=
        match asBool (result.get? "subtask") with
        | some true => { state with Type_ := .value "subtask" }
        | _ => { state with Type_ := .value "standard" }
      some (.stored state, out.net)

/-- The state of an automation rule (`AutomationRuleResourceModel`). -/
structure AutomationRuleResourceModel where
  ID : TfString
  Name : TfString
  State : TfString
  RuleJSON : TfString

/-- The method `AutomationRuleResource.Read`. -/
def AutomationRuleResource.Read (w : World) (c : Client) (state : AutomationRuleResourceModel)
    (fuel : Nat) (net : Net) : Option (Result AutomationRuleResourceModel × Net) :=
  match Client.Get w c ("/rest/v1/rule/" ++ state.ID.ValueString) (some mapDest) fuel net with
  | none => none
  | some out =>
    match out.err with
    | some err =>
      if IsNotFound (some err) then some (.removed, out.net)
      else some (.failed "Error reading automation rule" (err.Error w.pick), out.net)
    | none =>
      let result : GoMap := out.value.getD mapDest.zero
      let state :=
        match asString (result.get? "name") with
        | some name => { state with Name := .value name }
        | none => state
      let state :=
        match asString (result.get? "state") with
        | some ruleState => { state with State := .value ruleState }
        | none => state
      some (.stored state, out.net)

/-- The state of a custom field (`CustomFieldResourceModel`). -/
structure CustomFieldResourceModel where
  ID : TfString
  Name : TfString
  Description : TfString
  Type_ : TfString
  SearchKey : TfString

/-- The loop of `CustomFieldResource.Read` over the listed fields: the state
updated from the first field whose id is the stored one, `none` when no field
has it (`found` stays false). -/
def CustomFieldResource.scan (state : CustomFieldResourceModel) :
    List GoMap → Option CustomFieldResourceModel
  | [] => none
  | f :: rest =>
    if fmtV (GoMap.get? f "id") = state.ID.ValueString then
      let state := { state with Name := .value (fmtV (GoMap.get? f "name")) }
      let state :=
        match asString (GoMap.get? f "description") with
        | some desc => if desc ≠ "" then { state with Description := .value desc } else state
        | none => state
      let state :=
        match asMap (GoMap.get? f "schema") with
        | some schema =>
          match asString (Members.get? schema "custom") with
          | some ct => { state with Type_ := .value ct }
          | none => state
        | none => state
      some state
    else CustomFieldResource.scan state rest

/-- The method `CustomFieldResource.Read`: it lists every field and has no
not-found branch for the listing itself. -/
def CustomFieldResource.Read (w : World) (c : Client) (state : CustomFieldResourceModel)
    (fuel : Nat) (net : Net) : Option (Result CustomFieldResourceModel × Net) :=
  match Client.Get w c "/rest/api/3/field" (some mapsDest) fuel net with
  | none => none
  | some out =>
    match out.err with
    | some err => some (.failed "Error reading custom fields" (err.Error w.pick), out.net)
    | none =>
      let fields : List GoMap := out.value.getD mapsDest.zero
      match CustomFieldResource.scan state fields with
      | none => some (.removed, out.net)
      | some state => some (.stored state, out.net)

/-- The state of a group (`GroupResourceModel`). -/
structure GroupResourceModel where
  ID : TfString
  Name : TfString

/-- The method `GroupResource.Read`. -/
def GroupResource.Read (w : World) (c : Client) (state : GroupResourceModel)
    (fuel : Nat) (net : Net) : Option (Result GroupResourceModel × Net) :=
  match Client.Get w c ("/rest/api/3/group/bulk?" ++ encodeQuery "groupName" state.Name.ValueString)
      (some mapDest) fuel net with
  | none => none
  | some out =>
    match out.err with
    | some err =>
      if IsNotFound (some err) then some (.removed, out.net)
      else some (.failed "Error reading group" (err.Error w.pick), out.net)
    | none =>
      let result : GoMap := out.value.getD mapDest.zero
      match asSlice (result.get? "values") with
      | some (first :: _) =>
        match asMap (some first) with
        | none => some (.panicked, out.net)
        | some group =>
          let state := { state with Name := .value (fmtV (Members.get? group "name")) }
          let state :=
            match asString (Members.get? group "groupId") with
            | some groupId => { state with ID := .value groupId }
            | none => state
          some (.stored state, out.net)
      | _ => some (.removed, out.net)

/-- The state of a group membership (`GroupMembershipResourceModel`). -/
structure GroupMembershipResourceModel where
  ID : TfString
  GroupName : TfString
  AccountID : TfString

/-- The loop of `GroupMembershipResource.Read` over `values`: `some true` when
an entry has the account id, `some false` when none has, `none` when an entry
before the match is not an object (the type assertion panics). -/
def GroupMembershipResource.scan (accountID : String) : List JVal → Option Bool
  | [] => some false
  | v :: rest =>
    match asMap (some v) with
    | none => none
    | some member =>
      if fmtV (Members.get? member "accountId") = accountID then some true
      else GroupMembershipResource.scan accountID rest

/-- The method `GroupMembershipResource.Read`. -/
def GroupMembershipResource.Read (w : World) (c : Client) (state : GroupMembershipResourceModel)
    (fuel : Nat) (net : Net) : Option (Result GroupMembershipResourceModel × Net) :=
  match Client.Get w c ("/rest/api/3/group/member?" ++ encodeQuery "groupname" state.GroupName.ValueString)
      (some mapDest) fuel net with
  | none => none
  | some out =>
    match out.err with
    | some err =>
      if IsNotFound (some err) then some (.removed, out.net)
      else some (.failed "Error reading group membership" (err.Error w.pick), out.net)
    | none =>
      let result : GoMap := out.value.getD mapDest.zero
      match asSlice (result.get? "values") with
      | some values =>
        match GroupMembershipResource.scan state.AccountID.ValueString values with
        | none => some (.panicked, out.net)
        | some true => some (.stored state, out.net)
        | some false => some (.removed, out.net)
      | none => some (.removed, out.net)

/-- The state of an issue type scheme (`IssueTypeSchemeResourceModel`). -/
structure IssueTypeSchemeResourceModel where
  ID : TfString
  Name : TfString
  Description : TfString
  DefaultIssueTypeID : TfString
  IssueTypeIDs : Tf (List TfString)

/-- The loop of `IssueTypeSchemeResource.Read` over the mapping entries: the
`issueTypeId` of each, `none` when an entry is not an object (the type
assertion panics). -/
def IssueTypeSchemeResource.mappingIDs : List JVal → Option (List String)
  | [] => some []
  | v :: rest =>
    match asMap (some v) with
    | none => none
    | some item =>
      match IssueTypeSchemeResource.mappingIDs rest with
      | none => none
      | some ids => some (fmtV (Members.get? item "issueTypeId") :: ids)

/-- The call `types.ListValueFrom(ctx, types.StringType, ids)`: a nil slice
gives the null list. -/
def stringListValue (ids : List String) : Tf (List TfString) :=
  if ids = [] then .null else .value (ids.map Tf.value)

/-- The method `IssueTypeSchemeResource.Read`: one fetch of the scheme, then
one of its mapping, whose error is ignored. -/
def IssueTypeSchemeResource.Read (w : World) (c : Client) (state : IssueTypeSchemeResourceModel)
    (fuel : Nat) (net : Net) : Option (Result IssueTypeSchemeResourceModel × Net) :=
  match Client.Get w c ("/rest/api/3/issuetypescheme?id=" ++ state.ID.ValueString)
      (some mapDest) fuel net with
  | none => none
  | some out =>
    match out.err with
    | some err =>
      if IsNotFound (some err) then some (.removed, out.net)
      else some (.failed "Error reading issue type scheme" (err.Error w.pick), out.net)
    | none =>
      let result : GoMap := out.value.getD mapDest.zero
      let updated : Option IssueTypeSchemeResourceModel :=
        match asSlice (result.get? "values") with
        | some (first :: _) =>
          match asMap (some first) with
          | none => none
          | some scheme =>
            let state := { state with Name := .value (fmtV (Members.get? scheme "name")) }
            let state :=
              match asString (Members.get? scheme "description") with
              | some desc => if desc ≠ "" then { state with Description := .value desc } else state
              | none => state
            let state :=
              match asString (Members.get? scheme "defaultIssueTypeId") with
              | some ditID =>
                if ditID ≠ "" then { state with DefaultIssueTypeID := .value ditID } else state
              | none => state
            some state
        | _ => some state
      match updated with
      | none => some (.panicked, out.net)
      | some state =>
        match Client.Get w c
            ("/rest/api/3/issuetypescheme/mapping?issueTypeSchemeId=" ++ state.ID.ValueString)
            (some mapDest) fuel out.net with
        | none => none
        | some out2 =>
          match out2.err with
          | some _ => some (.stored state, out2.net)
          | none =>
            let itemsResult : GoMap := out2.value.getD mapDest.zero
            match asSlice (itemsResult.get? "values") with
            | some values =>
              match IssueTypeSchemeResource.mappingIDs values with
              | none => some (.panicked, out2.net)
              | some ids => some (.stored { state with IssueTypeIDs := stringListValue ids }, out2.net)
            | none => some (.stored state, out2.net)

/-- One element of `permissions` (`permissionGrantObjectType`). -/
structure PermissionGrant where
  permission : TfString
  holder_type : TfString
  holder_parameter : TfString

/-- The state of a permission scheme (`PermissionSchemeResourceModel`). -/
structure PermissionSchemeResourceModel where
  ID : TfString
  Name : TfString
  Description : TfString
  Permissions : Tf (List PermissionGrant)

/-- The loop of `PermissionSchemeResource.Read` over `permissions`: one grant
per entry, `none` when an entry is not an object (the type assertion
panics). -/
def PermissionSchemeResource.parseGrants : List JVal → Option (List PermissionGrant)
  | [] => some []
  | p :: rest =>
    match asMap (some p) with
    | none => none
    | some pMap =>
      let permission := fmtV (Members.get? pMap "permission")
      let holderType :=
        match asMap (Members.get? pMap "holder") with
        | some holder => fmtV (Members.get? holder "type")
        | none => ""
      let holderParam :=
        match asMap (Members.get? pMap "holder") with
        | some holder =>
          match Members.get? holder "parameter" with
          | some .null => ""
          | some param => fmtV (some param)
          | none => ""
        | none => ""
      match PermissionSchemeResource.parseGrants rest with
      | none => none
      | some grants =>
        some ({ permission := .value permission, holder_type := .value holderType,
                holder_parameter := .value holderParam } :: grants)

/-- The method `PermissionSchemeResource.Read`. -/
def PermissionSchemeResource.Read (w : World) (c : Client) (state : PermissionSchemeResourceModel)
    (fuel : Nat) (net : Net) : Option (Result PermissionSchemeResourceModel × Net) :=
  match Client.Get w c ("/rest/api/3/permissionscheme/" ++ state.ID.ValueString ++ "?expand=permissions")
      (some mapDest) fuel net with
  | none => none
  | some out =>
    match out.err with
    | some err =>
      if IsNotFound (some err) then some (.removed, out.net)
      else some (.failed "Error reading permission scheme" (err.Error w.pick), out.net)
    | none =>
      let result : GoMap := out.value.getD mapDest.zero
      let state := { state with Name := .value (fmtV (result.get? "name")) }
      let state :=
        match asString (result.get? "description") with
        | some desc => if desc ≠ "" then { state with Description := .value desc } else state
        | none => state
      match asSlice (result.get? "permissions") with
      | some (p :: rest) =>
        match PermissionSchemeResource.parseGrants (p :: rest) with
        | none => some (.panicked, out.net)
        | some grants => some (.stored { state with Permissions := .value grants }, out.net)
      | _ => some (.stored state, out.net)

/-- The state of a project (`ProjectResourceModel`). -/
structure ProjectResourceModel where
  ID : TfString
  Key : TfString
  Name : TfString
  Description : TfString
  ProjectTypeKey : TfString
  LeadAccountID : TfString
  AssigneeType : TfString
  IssueTypeSchemeID : TfString
  PermissionSchemeID : TfString
  WorkflowSchemeID : TfString

/-- The function `schemeIDFromResponse`. -/
def schemeIDFromResponse (result : GoMap) (key : String) : String :=
  match result.get? key with
  | none => ""
  | some .null => ""
  | some (.obj obj) =>
    match Members.get? obj "id" with
    | none => ""
    | some .null => ""
    | some id => fmtV (some id)
  | some v => fmtV (some v)

/-- The method `ProjectResource.Read`. -/
def ProjectResource.Read (w : World) (c : Client) (state : ProjectResourceModel)
    (fuel : Nat) (net : Net) : Option (Result ProjectResourceModel × Net) :=
  match Client.Get w c ("/rest/api/3/project/" ++ state.Key.ValueString) (some mapDest) fuel net with
  | none => none
  | some out =>
    match out.err with
    | some err =>
      if IsNotFound (some err) then some (.removed, out.net)
      else some (.failed "Error reading project" (err.Error w.pick), out.net)
    | none =>
      let result : GoMap := out.value.getD mapDest.zero
      let state := { state with ID := .value (fmtV (result.get? "id")) }
      let state := { state with Key := .value (fmtV (result.get? "key")) }
      let state := { state with Name := .value (fmtV (result.get? "name")) }
      let state :=
        match asString (result.get? "description") with
        | some desc => if desc ≠ "" then { state with Description := .value desc } else state
        | none => state
      let state := { state with ProjectTypeKey := .value (fmtV (result.get? "projectTypeKey")) }
      let state :=
        match asMap (result.get? "lead") with
        | some lead => { state with LeadAccountID := .value (fmtV (Members.get? lead "accountId")) }
        | none => state
      let state :=
        match asString (result.get? "assigneeType") with
        | some at_ => if at_ ≠ "" then { state with AssigneeType := .value at_ } else state
        | none => state
      let state :=
        if schemeIDFromResponse result "issueTypeScheme" ≠ "" then
          { state with IssueTypeSchemeID := .value (schemeIDFromResponse result "issueTypeScheme") }
        else state
      let state :=
        if schemeIDFromResponse result "permissionScheme" ≠ "" then
          { state with PermissionSchemeID := .value (schemeIDFromResponse result "permissionScheme") }
        else state
      let state :=
        if schemeIDFromResponse result "workflowScheme" ≠ "" then
          { state with WorkflowSchemeID := .value (schemeIDFromResponse result "workflowScheme") }
        else state
      some (.stored state, out.net)

/-- The state of a project component (`ProjectComponentResourceModel`). -/
structure ProjectComponentResourceModel where
  ID : TfString
  ProjectKey : TfString
  Name : TfString
  Description : TfString
  LeadAccountID : TfString
  AssigneeType : TfString

/-- The method `ProjectComponentResource.Read`. -/
def ProjectComponentResource.Read (w : World) (c : Client) (state : ProjectComponentResourceModel)
    (fuel : Nat) (net : Net) : Option (Result ProjectComponentResourceModel × Net) :=
  match Client.Get w c ("/rest/api/3/component/" ++ state.ID.ValueString) (some mapDest) fuel net with
  | none => none
  | some out =>
    match out.err with
    | some err =>
      if IsNotFound (some err) then some (.removed, out.net)
      else some (.failed "Error reading project component" (err.Error w.pick), out.net)
    | none =>
      let result : GoMap := out.value.getD mapDest.zero
      let state := { state with Name := .value (fmtV (result.get? "name")) }
      let state :=
        match asString (result.get? "description") with
        | some desc => if desc ≠ "" then { state with Description := .value desc } else state
        | none => state
      let state :=
        match asMap (result.get? "lead") with
        | some lead => { state with LeadAccountID := .value (fmtV (Members.get? lead "accountId")) }
        | none => state
      let state :=
        match asString (result.get? "assigneeType") with
        | some at_ => if at_ ≠ "" then { state with AssigneeType := .value at_ } else state
        | none => state
      some (.stored state, out.net)

/-- The state of a workflow scheme (`WorkflowSchemeResourceModel`). The
entries of `IssueTypeMappings` are kept in key order. -/
structure WorkflowSchemeResourceModel where
  ID : TfString
  Name : TfString
  Description : TfString
  DefaultWorkflow : TfString
  IssueTypeMappings : Tf (List (String × TfString))

/-- The method `WorkflowSchemeResource.Read`. -/
def WorkflowSchemeResource.Read (w : World) (c : Client) (state : WorkflowSchemeResourceModel)
    (fuel : Nat) (net : Net) : Option (Result WorkflowSchemeResourceModel × Net) :=
  match Client.Get w c ("/rest/api/3/workflowscheme/" ++ state.ID.ValueString) (some mapDest) fuel net with
  | none => none
  | some out =>
    match out.err with
    | some err =>
      if IsNotFound (some err) then some (.removed, out.net)
      else some (.failed "Error reading workflow scheme" (err.Error w.pick), out.net)
    | none =>
      let result : GoMap := out.value.getD mapDest.zero
      let state := { state with Name := .value (fmtV (result.get? "name")) }
      let state :=
        match asString (result.get? "description") with
        | some desc => if desc ≠ "" then { state with Description := .value desc } else state
        | none => state
      let state :=
        match asString (result.get? "defaultWorkflow") with
        | some dw => if dw ≠ "" then { state with DefaultWorkflow := .value dw } else state
        | none => state
      let state :=
        match asMap (result.get? "issueTypeMappings") with
        | some (kv :: itm) =>
          let mappings :=
            (fmtMembers (kv :: itm)).foldl (fun m e => insertSorted e.1 e.2 m) []
          { state with IssueTypeMappings := .value (mappings.map (fun e => (e.1, Tf.value e.2))) }
        | _ => state
      some (.stored state, out.net)

/-! ## internal/datasources: the Read entry points

Each `Read` starts from the configuration record the framework decoded
(`req.Config.Get` without error diagnostics). -/

/-- The configuration and result of the group data source
(`GroupDataSourceModel`). -/
structure GroupDataSourceModel where
  ID : TfString
  Name : TfString

/-- The method `GroupDataSource.Read`. -/
def GroupDataSource.Read (w : World) (c : Client) (config : GroupDataSourceModel)
    (fuel : Nat) (net : Net) : Option (Result GroupDataSourceModel × Net) :=
  let hasID := !config.ID.IsNull && !config.ID.IsUnknown && decide (config.ID.ValueString ≠ "")
  let hasName := !config.Name.IsNull && !config.Name.IsUnknown && decide (config.Name.ValueString ≠ "")
  if !hasID && !hasName then
    some (.failed "Missing input" "Either id or name must be specified.", net)
  else if hasID && hasName then
    some (.failed "Ambiguous input" "Specify only one of id or name.", net)
  else
    let notFound : Result GroupDataSourceModel :=
      if hasID then
        .failed "Group not found" ("No group with id '" ++ config.ID.ValueString ++ "' found.")
      else
        .failed "Group not found" ("No group with name '" ++ config.Name.ValueString ++ "' found.")
    let params :=
      if hasID then encodeQuery "groupId" config.ID.ValueString
      else encodeQuery "groupName" config.Name.ValueString
    match Client.Get w c ("/rest/api/3/group/bulk?" ++ params) (some mapDest) fuel net with
    | none => none
    | some out =>
      match out.err with
      | some err =>
        if IsNotFound (some err) then some (notFound, out.net)
        else some (.failed "Error reading group" (err.Error w.pick), out.net)
      | none =>
        let result : GoMap := out.value.getD mapDest.zero
        match asSlice (result.get? "values") with
        | some (first :: _) =>
          match asMap (some first) with
          | none => some (.panicked, out.net)
          | some group =>
            let config := { config with Name := .value (fmtV (Members.get? group "name")) }
            let config :=
              match asString (Members.get? group "groupId") with
              | some groupId =>
                if groupId ≠ "" then { config with ID := .value groupId }
                else { config with ID := .value (fmtV (Members.get? group "groupId")) }
              | none => { config with ID := .value (fmtV (Members.get? group "groupId")) }
            some (.stored config, out.net)
        | _ => some (notFound, out.net)

/-- The configuration and result of the issue type data source
(`IssueTypeDataSourceModel`). -/
structure IssueTypeDataSourceModel where
  ID : TfString
  Name : TfString
  Description : TfString
  Type_ : TfString

/-- The method `IssueTypeDataSource.selectGlobalIssueType`; the nil map is the
`nil` it returns when no candidate is kept. -/
def IssueTypeDataSource.selectGlobalIssueType (w : World) (c : Client) :
    List GoMap → Nat → Net → Option (GoMap × Net)
  | [], _, net => some (none, net)
  | it :: rest, fuel, net =>
    if IsProjectScoped it then
      IssueTypeDataSource.selectGlobalIssueType w c rest fuel net
    else
      match Client.Get w c ("/rest/api/3/issuetype/" ++ fmtV (GoMap.get? it "id"))
          (some mapDest) fuel net with
      | none => none
      | some out =>
        match out.err with
        | some _ => IssueTypeDataSource.selectGlobalIssueType w c rest fuel out.net
        | none =>
          let full : GoMap := out.value.getD mapDest.zero
          if !IsProjectScoped full then some (full, out.net)
          else IssueTypeDataSource.selectGlobalIssueType w c rest fuel out.net

/-- The tail of `IssueTypeDataSource.Read`, common to both lookups: the
result record filled from the issue type found. -/
def IssueTypeDataSource.fill (config : IssueTypeDataSourceModel) (issueType : GoMap) :
    IssueTypeDataSourceModel :=
  let config := { config with ID := .value (fmtV (issueType.get? "id")) }
  let config := { config with Name := .value (fmtV (issueType.get? "name")) }
  let config :=
    match asString (issueType.get? "description") with
    | some desc =>
      if desc ≠ "" then { config with Description := .value desc }
      else { config with Description := .value "" }
    | none => { config with Description := .value "" }
  match asBool (issueType.get? "subtask") with
  | some true => { config with Type_ := .value "subtask" }
  | _ => { config with Type_ := .value "standard" }

/-- The method `IssueTypeDataSource.Read`. -/
def IssueTypeDataSource.Read (w : World) (c : Client) (config : IssueTypeDataSourceModel)
    (fuel : Nat) (net : Net) : Option (Result IssueTypeDataSourceModel × Net) :=
  let hasID := !config.ID.IsNull && !config.ID.IsUnknown && decide (config.ID.ValueString ≠ "")
  let hasName := !config.Name.IsNull && !config.Name.IsUnknown && decide (config.Name.ValueString ≠ "")
  if !hasID && !hasName then
    some (.failed "Missing input" "Either id or name must be specified.", net)
  else if hasID && hasName then
    some (.failed "Ambiguous input" "Specify only one of id or name.", net)
  else if hasID then
    match Client.Get w c ("/rest/api/3/issuetype/" ++ config.ID.ValueString) (some mapDest) fuel net with
    | none => none
    | some out =>
      match out.err with
      | some err =>
        if IsNotFound (some err) then
          some (.failed "Issue type not found"
            ("No issue type with id '" ++ config.ID.ValueString ++ "' found."), out.net)
        else some (.failed "Error reading issue type" (err.Error w.pick), out.net)
      | none =>
        some (.stored (IssueTypeDataSource.fill config (out.value.getD mapDest.zero)), out.net)
  else
    match Client.Get w c "/rest/api/3/issuetype" (some mapsDest) fuel net with
    | none => none
    | some out =>
      match out.err with
      | some err => some (.failed "Error listing issue types" (err.Error w.pick), out.net)
      | none =>
        let issueTypes : List GoMap := out.value.getD mapsDest.zero
        let matches_ := issueTypes.filter
          (fun it => EqualFold w.fold (fmtV (GoMap.get? it "name")) config.Name.ValueString)
        if matches_.length = 0 then
          some (.failed "Issue type not found"
            ("No issue type with name '" ++ config.Name.ValueString ++ "' found."), out.net)
        else
          match IssueTypeDataSource.selectGlobalIssueType w c matches_ fuel out.net with
          | none => none
          | some (none, net2) =>
            some (.failed "Issue type not found"
              ("No global (classic) issue type with name '" ++ config.Name.ValueString
                ++ "' found; only project-scoped (next-gen) types exist."), net2)
          | some (issueType, net2) =>
            some (.stored (IssueTypeDataSource.fill config issueType), net2)

/-- The configuration and result of the issue type scheme data source
(`IssueTypeSchemeDataSourceModel`). -/
structure IssueTypeSchemeDataSourceModel where
  ID : TfString
  Name : TfString
  Description : TfString

/-- The loop of `IssueTypeSchemeDataSource.Read` over `values`: the first
scheme whose name is the wanted one up to case (`some (some s)`), `some none`
when there is none, `none` when an entry before it is not an object (the type
assertion panics). -/
def IssueTypeSchemeDataSource.find (fold : Char → Char) (wanted : String) :
    List JVal → Option (Option Members)
  | [] => some none
  | v :: rest =>
    match asMap (some v) with
    | none => none
    | some s =>
      if EqualFold fold (fmtV (Members.get? s "name")) wanted then some (some s)
      else IssueTypeSchemeDataSource.find fold wanted rest

/-- The tail of `IssueTypeSchemeDataSource.Read`, common to both lookups. -/
def IssueTypeSchemeDataSource.fill (config : IssueTypeSchemeDataSourceModel) (scheme : GoMap) :
    IssueTypeSchemeDataSourceModel :=
  let config := { config with ID := .value (fmtV (scheme.get? "id")) }
  let config := { config with Name := .value (fmtV (scheme.get? "name")) }
  match asString (scheme.get? "description") with
  | some desc =>
    if desc ≠ "" then { config with Description := .value desc }
    else { config with Description := .value "" }
  | none => { config with Description := .value "" }

/-- The method `IssueTypeSchemeDataSource.Read`. -/
def IssueTypeSchemeDataSource.Read (w : World) (c : Client) (config : IssueTypeSchemeDataSourceModel)
    (fuel : Nat) (net : Net) : Option (Result IssueTypeSchemeDataSourceModel × Net) :=
  let hasID := !config.ID.IsNull && !config.ID.IsUnknown && decide (config.ID.ValueString ≠ "")
  let hasName := !config.Name.IsNull && !config.Name.IsUnknown && decide (config.Name.ValueString ≠ "")
  if !hasID && !hasName then
    some (.failed "Missing input" "Either id or name must be specified.", net)
  else if hasID && hasName then
    some (.failed "Ambiguous input" "Specify only one of id or name.", net)
  else if hasID then
    match Client.Get w c ("/rest/api/3/issuetypescheme?id=" ++ config.ID.ValueString)
        (some mapDest) fuel net with
    | none => none
    | some out =>
      match out.err with
      | some err =>
        if IsNotFound (some err) then
          some (.failed "Issue type scheme not found"
            ("No issue type scheme with id '" ++ config.ID.ValueString ++ "' found."), out.net)
        else some (.failed "Error reading issue type scheme" (err.Error w.pick), out.net)
      | none =>
        let result : GoMap := out.value.getD mapDest.zero
        match asSlice (result.get? "values") with
        | some (first :: _) =>
          match asMap (some first) with
          | none => some (.panicked, out.net)
          | some scheme => some (.stored (IssueTypeSchemeDataSource.fill config (some scheme)), out.net)
        | _ =>
          some (.failed "Issue type scheme not found"
            ("No issue type scheme with id '" ++ config.ID.ValueString ++ "' found."), out.net)
  else
    match Client.Get w c "/rest/api/3/issuetypescheme" (some mapDest) fuel net with
    | none => none
    | some out =>
      match out.err with
      | some err => some (.failed "Error listing issue type schemes" (err.Error w.pick), out.net)
      | none =>
        let result : GoMap := out.value.getD mapDest.zero
        match asSlice (result.get? "values") with
        | none =>
          some (.failed "Error listing issue type schemes" "Invalid response: missing values.", out.net)
        | some values =>
          match IssueTypeSchemeDataSource.find w.fold config.Name.ValueString values with
          | none => some (.panicked, out.net)
          | some none =>
            some (.failed "Issue type scheme not found"
              ("No issue type scheme with name '" ++ config.Name.ValueString ++ "' found."), out.net)
          | some (some scheme) =>
            some (.stored (IssueTypeSchemeDataSource.fill config (some scheme)), out.net)

/-- The configuration and result of the permission scheme data source
(`PermissionSchemeDataSourceModel`). -/
structure PermissionSchemeDataSourceModel where
  ID : TfString
  Name : TfString
  Description : TfString

/-- Decoding one JSON value into a slot of type `map[string]interface{}` that
holds `old`: an object is decoded into the map the slot holds, which keeps its
entries and takes the members after them (a nil map is made first); `null`
sets the slot to nil; any other value is a type error. -/
def decodeMapInto (old : GoMap) (v : JVal) : Except String GoMap :=
  match v with
  | .obj members => .ok (some (old.getD [] ++ members))
  | .null => .ok none
  | other =>
    .error ("json: cannot unmarshal " ++ jsonKind other
      ++ " into Go value of type map[string]interface \x7b\x7d")

/-- Decoding the elements of a JSON array into a slice of maps: element `i` is
decoded into the slot `i` of the memory of the slice, `mem`, which holds what
an earlier decoding left there and nil past its end. -/
def decodeSlots : List GoMap → List JVal → Except String (List GoMap)
  | _, [] => .ok []
  | mem, item :: items =>
    match decodeMapInto (mem.headD none) item with
    | .error cause => .error cause
    | .ok m =>
      match decodeSlots mem.tail items with
      | .error cause => .error cause
      | .ok rest => .ok (m :: rest)

/-- A `[]map[string]interface{}` while it is decoded into: its elements, and
the slots of its memory past its length, which a truncation leaves as they
were (as of Go 1.21 growing the slice keeps them too). -/
structure SliceOfMaps where
  elems : List GoMap
  spare : List GoMap

/-- Decoding one JSON value into a `[]map[string]interface{}` that holds
`old`: an array is decoded slot by slot and the slice is cut to its length, an
empty array gives a fresh empty slice, `null` the nil slice; any other value
is a type error. -/
def decodeSliceInto (old : SliceOfMaps) (v : JVal) : Except String SliceOfMaps :=
  match v with
  | .arr [] => .ok { elems := [], spare := [] }
  | .arr (item :: items) =>
    match decodeSlots (old.elems ++ old.spare) (item :: items) with
    | .error cause => .error cause
    | .ok elems =>
      .ok { elems := elems, spare := (old.elems ++ old.spare).drop (item :: items).length }
  | .null => .ok { elems := [], spare := [] }
  | other =>
    .error ("json: cannot unmarshal " ++ jsonKind other
      ++ " into Go struct field .permissionSchemes of type []map[string]interface \x7b\x7d")

/-- Decoding a JSON value into the `wrapper` struct of
`PermissionSchemeDataSource.Read`, whose one field is tagged
`permissionSchemes`; the value is the field after the decoding. A member
that occurs again is decoded into the slice and the maps the field holds by
then. -/
def decodePermissionSchemes (fold : Char → Char) (v : JVal) : Except String (List GoMap) :=
  match v with
  | .obj members =>
    (members.foldlM
      (fun field kv =>
        if EqualFold fold kv.1 "permissionSchemes" then decodeSliceInto field kv.2
        else .ok field)
      ({ elems := [], spare := [] } : SliceOfMaps)).map (fun field => field.elems)
  | .null => .ok []
  | other =>
    .error ("json: cannot unmarshal " ++ jsonKind other
      ++ " into Go value of type struct \x7b PermissionSchemes []map[string]interface \x7b\x7d \x7d")

/-- The destination `&wrapper` of `PermissionSchemeDataSource.Read`. -/
def permissionSchemesDest (fold : Char → Char) : Dest (List GoMap) :=
  { zero := [], decode := decodePermissionSchemes fold }

/-- The tail of `PermissionSchemeDataSource.Read`, common to both lookups. -/
def PermissionSchemeDataSource.fill (config : PermissionSchemeDataSourceModel) (scheme : GoMap) :
    PermissionSchemeDataSourceModel :=
  let config := { config with ID := .value (fmtV (scheme.get? "id")) }
  let config := { config with Name := .value (fmtV (scheme.get? "name")) }
  match asString (scheme.get? "description") with
  | some desc =>
    if desc ≠ "" then { config with Description := .value desc }
    else { config with Description := .value "" }
  | none => { config with Description := .value "" }

/-- The method `PermissionSchemeDataSource.Read`. -/
def PermissionSchemeDataSource.Read (w : World) (c : Client) (config : PermissionSchemeDataSourceModel)
    (fuel : Nat) (net : Net) : Option (Result PermissionSchemeDataSourceModel × Net) :=
  let hasID := !config.ID.IsNull && !config.ID.IsUnknown && decide (config.ID.ValueString ≠ "")
  let hasName := !config.Name.IsNull && !config.Name.IsUnknown && decide (config.Name.ValueString ≠ "")
  if !hasID && !hasName then
    some (.failed "Missing input" "Either id or name must be specified.", net)
  else if hasID && hasName then
    some (.failed "Ambiguous input" "Specify only one of id or name.", net)
  else if hasID then
    match Client.Get w c ("/rest/api/3/permissionscheme/" ++ config.ID.ValueString)
        (some mapDest) fuel net with
    | none => none
    | some out =>
      match out.err with
      | some err =>
        if IsNotFound (some err) then
          some (.failed "Permission scheme not found"
            ("No permission scheme with id '" ++ config.ID.ValueString ++ "' found."), out.net)
        else some (.failed "Error reading permission scheme" (err.Error w.pick), out.net)
      | none =>
        some (.stored (PermissionSchemeDataSource.fill config (out.value.getD mapDest.zero)), out.net)
  else
    match Client.Get w c "/rest/api/3/permissionscheme" (some (permissionSchemesDest w.fold))
        fuel net with
    | none => none
    | some out =>
      match out.err with
      | some err => some (.failed "Error listing permission schemes" (err.Error w.pick), out.net)
      | none =>
        let schemes : List GoMap := out.value.getD (permissionSchemesDest w.fold).zero
        match schemes.find?
            (fun s => EqualFold w.fold (fmtV (GoMap.get? s "name")) config.Name.ValueString) with
        | some (some scheme) =>
          some (.stored (PermissionSchemeDataSource.fill config (some scheme)), out.net)
        | _ =>
          some (.failed "Permission scheme not found"
            ("No permission scheme with name '" ++ config.Name.ValueString ++ "' found."), out.net)

/-- The configuration and result of the workflow data source
(`WorkflowDataSourceModel`). -/
structure WorkflowDataSourceModel where
  Name : TfString
  Description : TfString
  Steps : Tf Int
  IsDefault : Tf Bool

/-- The method `WorkflowDataSource.Read`. The first element of `values` and
its `id` are asserted to be maps without a check: the call panics when either
is not. -/
def WorkflowDataSource.Read (w : World) (c : Client) (config : WorkflowDataSourceModel)
    (fuel : Nat) (net : Net) : Option (Result WorkflowDataSourceModel × Net) :=
  match Client.Get w c
      ("/rest/api/3/workflow/search?" ++ encodeQuery "workflowName" config.Name.ValueString)
      (some mapDest) fuel net with
  | none => none
  | some out =>
    match out.err with
    | some err => some (.failed "Error reading workflow" (err.Error w.pick), out.net)
    | none =>
      let result : GoMap := out.value.getD mapDest.zero
      match asSlice (result.get? "values") with
      | some (first :: _) =>
        match asMap (some first) with
        | none => some (.panicked, out.net)
        | some wf =>
          match asMap (Members.get? wf "id") with
          | none => some (.panicked, out.net)
          | some id =>
            let config := { config with Name := .value (fmtV (Members.get? id "name")) }
            let config :=
              match asString (Members.get? wf "description") with
              | some desc => { config with Description := .value desc }
              | none => { config with Description := .value "" }
            let config :=
              match asSlice (Members.get? wf "statuses") with
              | some statuses => { config with Steps := .value (statuses.length : Int) }
              | none => { config with Steps := .value 0 }
            let config :=
              match asBool (Members.get? wf "isDefault") with
              | some isDefault => { config with IsDefault := .value isDefault }
              | none => { config with IsDefault := .value false }
            some (.stored config, out.net)
      | _ =>
        some (.failed "Workflow not found"
          ("No workflow with name '" ++ config.Name.ValueString ++ "' found."), out.net)

/-! ## internal/resources: Create, Update and Delete entry points

Each entry point starts from the plan and state records the framework decoded
(`req.Plan.Get`, `req.State.Get` without error diagnostics). -/

/-- The method `Encode` of a `url.Values` in which every key has one value:
the pairs in key order, joined by `&`. -/
def encodeValues (params : List (String × String)) : String :=
  "&".intercalate
    ((params.foldl (fun m kv => insertSorted kv.1 kv.2 m) []).map
      (fun kv => QueryEscape kv.1 ++ "=" ++ QueryEscape kv.2))

/-- The method `Client.DeleteWithQuery`. -/
def Client.DeleteWithQuery (w : World) (c : Client) (path : String)
    (params : List (String × String)) (fuel : Nat) (net : Net) : Option (Outcome Unit) :=
  if params.length > 0 then
    doRequest w c "DELETE" (path ++ "?" ++ encodeValues params) none none fuel net
  else doRequest w c "DELETE" path none none fuel net

/-- The first loop of `findProjectScopedIssueTypeIDs`: the ids appended to
`idsToValidate` and the keys of `seen`, starting from the pair given. -/
def collectIDs : List String → List String × List String → List String × List String
  | [], acc => acc
  | id :: rest, (ids, seen) =>
    if id ∈ seen then collectIDs rest (ids, seen)
    else collectIDs rest (ids ++ [id], id :: seen)

/-- The slice `idsToValidate` of `findProjectScopedIssueTypeIDs` when its
second loop starts: the distinct ids in the order of their first occurrence,
then the default id when it is known, not yet seen and not empty. -/
def idsToValidate (issueTypeIDs : List String) (defaultIssueTypeID : TfString) : List String :=
  let collected := collectIDs issueTypeIDs ([], [])
  if !defaultIssueTypeID.IsNull && !defaultIssueTypeID.IsUnknown then
    if defaultIssueTypeID.ValueString ∉ collected.2 ∧ defaultIssueTypeID.ValueString ≠ "" then
      collected.1 ++ [defaultIssueTypeID.ValueString]
    else collected.1
  else collected.1

/-- The second loop of `findProjectScopedIssueTypeIDs`: each id is fetched in
turn; the first error ends the call with that error, a scoped payload appends
the id to `invalid`. -/
def validateIDs (w : World) (c : Client) :
    List String → List String → Nat → Net → Option (Except GoError (List String) × Net)
  | [], invalid, _, net => some (.ok invalid, net)
  | id :: rest, invalid, fuel, net =>
    match Client.Get w c ("/rest/api/3/issuetype/" ++ id) (some mapDest) fuel net with
    | none => none
    | some out =>
      match out.err with
      | some err => some (.error err, out.net)
      | none =>
        if IsProjectScoped (out.value.getD mapDest.zero) then
          validateIDs w c rest (invalid ++ [id]) fuel out.net
        else validateIDs w c rest invalid fuel out.net

/-- The method `IssueTypeSchemeResource.findProjectScopedIssueTypeIDs`. -/
def IssueTypeSchemeResource.findProjectScopedIssueTypeIDs (w : World) (c : Client)
    (issueTypeIDs : List String) (defaultIssueTypeID : TfString) (fuel : Nat) (net : Net) :
    Option (Except GoError (List String) × Net) :=
  validateIDs w c (idsToValidate issueTypeIDs defaultIssueTypeID) [] fuel net

/-- The call `plan.IssueTypeIDs.ElementsAs(ctx, &issueTypeIDs, false)`: a null
list gives the nil slice; an unknown list, or a null or unknown element, gives
an error diagnostic of the framework (`none`). -/
def elementsAsStrings : Tf (List TfString) → Option (List String)
  | .null => some []
  | .unknown => none
  | .value elems =>
    elems.mapM (fun e => match e with
      | .value s => some s
      | _ => none)

/-- The payload of the POST of `IssueTypeSchemeResource.Create`, members in the
order in which the code sets them; a nil `issueTypeIDs` is encoded as `null`. -/
def IssueTypeSchemeResource.createBody (plan : IssueTypeSchemeResourceModel)
    (issueTypeIDs : List String) : JVal :=
  .obj ([("name", .str plan.Name.ValueString),
         ("issueTypeIds",
           match plan.IssueTypeIDs with
           | .value _ => .arr (issueTypeIDs.map JVal.str)
           | _ => .null)]
    ++ (if !plan.Description.IsNull && !plan.Description.IsUnknown then
          [("description", .str plan.Description.ValueString)] else [])
    ++ (if !plan.DefaultIssueTypeID.IsNull && !plan.DefaultIssueTypeID.IsUnknown then
          [("defaultIssueTypeId", .str plan.DefaultIssueTypeID.ValueString)] else []))

/-- The id that `IssueTypeSchemeResource.Create` stores for a creation
response: `issueTypeSchemeId` when the response has that key, else `id` when
it has that one, else the planned value. -/
def IssueTypeSchemeResource.createdID (plan : IssueTypeSchemeResourceModel) (result : GoMap) :
    TfString :=
  match result.get? "issueTypeSchemeId" with
  | some id => .value (fmtV (some id))
  | none =>
    match result.get? "id" with
    | some id => .value (fmtV (some id))
    | none => plan.ID

/-- The end of `IssueTypeSchemeResource.Create`, from the answer to the POST. -/
def IssueTypeSchemeResource.created (w : World) (plan : IssueTypeSchemeResourceModel)
    (out : Outcome GoMap) : Result IssueTypeSchemeResourceModel × Net :=
  match out.err with
  | some err => (.failed "Error creating issue type scheme" (err.Error w.pick), out.net)
  | none =>
    (.stored { plan with ID := IssueTypeSchemeResource.createdID plan (out.value.getD mapDest.zero) },
      out.net)

/-- The method `IssueTypeSchemeResource.Create`. The text of the framework
diagnostic for a list that cannot be converted is abbreviated. -/
def IssueTypeSchemeResource.Create (w : World) (c : Client) (plan : IssueTypeSchemeResourceModel)
    (fuel : Nat) (net : Net) : Option (Result IssueTypeSchemeResourceModel × Net) :=
  match elementsAsStrings plan.IssueTypeIDs with
  | none => some (.failed "Value Conversion Error" "cannot build a value of type []string", net)
  | some issueTypeIDs =>
    match IssueTypeSchemeResource.findProjectScopedIssueTypeIDs w c issueTypeIDs
        plan.DefaultIssueTypeID fuel net with
    | none => none
    | some (.error err, net1) =>
      some (.failed "Error validating issue types for issue type scheme" (err.Error w.pick), net1)
    | some (.ok invalidIssueTypeIDs, net1) =>
      if invalidIssueTypeIDs.length > 0 then
        some (.failed "Invalid issue types for classic issue type scheme"
          ("Issue type IDs " ++ ", ".intercalate invalidIssueTypeIDs
            ++ " are project-scoped (next-gen/team-managed) and cannot be used in jira_issue_type_scheme. Use global issue type IDs instead."),
          net1)
      else
        match Client.Post w c "/rest/api/3/issuetypescheme"
            (some (IssueTypeSchemeResource.createBody plan issueTypeIDs)) (some mapDest)
            fuel net1 with
        | none => none
        | some out => some (IssueTypeSchemeResource.created w plan out)

/-- The id that `AutomationRuleResource.Create` stores for a creation
response: `id` when the response has that key, else `ruleUuid` when it has
that one, else the planned value. -/
def AutomationRuleResource.createdID (plan : AutomationRuleResourceModel) (result : GoMap) :
    TfString :=
  match result.get? "id" with
  | some id => .value (fmtV (some id))
  | none =>
    match result.get? "ruleUuid" with
    | some ruleUuid => .value (fmtV (some ruleUuid))
    | none => plan.ID

/-- The method `AutomationRuleResource.Create`. `ruleJSON` is the outcome of
the syntax pass of `encoding/json` over `plan.RuleJSON.ValueString()`. A rule
that is the JSON `null` leaves `ruleBody` nil, and the assignment of its name
panics. The error of the activation call is discarded (`_ =`). -/
def AutomationRuleResource.Create (w : World) (c : Client) (plan : AutomationRuleResourceModel)
    (ruleJSON : Except String JVal) (fuel : Nat) (net : Net) :
    Option (Result AutomationRuleResourceModel × Net) :=
  match ruleJSON >>= decodeMap with
  | .error cause => some (.failed "Error parsing rule_json" cause, net)
  | .ok none => some (.panicked, net)
  | .ok (some ruleBody) =>
    match Client.Post w c "/rest/v1/rule"
        (some (.obj (ruleBody ++ [("name", .str plan.Name.ValueString)]))) (some mapDest)
        fuel net with
    | none => none
    | some out =>
      match out.err with
      | some err => some (.failed "Error creating automation rule" (err.Error w.pick), out.net)
      | none =>
        let plan := { plan with
          ID := AutomationRuleResource.createdID plan (out.value.getD mapDest.zero) }
        if plan.State.ValueString = "ENABLED" then
          match Client.Put w c ("/rest/v1/rule/" ++ plan.ID.ValueString ++ "/state")
              (some (.obj [("state", .str "ENABLED")])) (none : Option (Dest Unit))
              fuel out.net with
          | none => none
          | some activation => some (.stored plan, activation.net)
        else some (.stored plan, out.net)

/-- The method `AutomationRuleResource.Delete`: the error diagnostic it adds,
if any (`none` when it adds none and the framework drops the record), and the
effects. The warning it logs is left out. -/
def AutomationRuleResource.Delete (w : World) (c : Client) (state : AutomationRuleResourceModel)
    (fuel : Nat) (net : Net) : Option (Option (String × String) × Net) :=
  match Client.Put w c ("/rest/v1/rule/" ++ state.ID.ValueString ++ "/state")
      (some (.obj [("state", .str "DISABLED")])) (none : Option (Dest Unit)) fuel net with
  | none => none
  | some out =>
    match out.err with
    | some err => some (some ("Error disabling automation rule", err.Error w.pick), out.net)
    | none => some (none, out.net)

/-- The method `GroupResource.Create`. -/
def GroupResource.Create (w : World) (c : Client) (plan : GroupResourceModel)
    (fuel : Nat) (net : Net) : Option (Result GroupResourceModel × Net) :=
  match Client.Post w c "/rest/api/3/group" (some (.obj [("name", .str plan.Name.ValueString)]))
      (some mapDest) fuel net with
  | none => none
  | some out =>
    match out.err with
    | some err => some (.failed "Error creating group" (err.Error w.pick), out.net)
    | none =>
      match asString ((out.value.getD mapDest.zero).get? "groupId") with
      | some groupId => some (.stored { plan with ID := .value groupId }, out.net)
      | none => some (.stored { plan with ID := .value plan.Name.ValueString }, out.net)

/-- The method `GroupResource.Update`: the group named in the state is deleted,
then a group with the planned name is created. -/
def GroupResource.Update (w : World) (c : Client) (plan state : GroupResourceModel)
    (fuel : Nat) (net : Net) : Option (Result GroupResourceModel × Net) :=
  match Client.DeleteWithQuery w c "/rest/api/3/group" [("groupname", state.Name.ValueString)]
      fuel net with
  | none => none
  | some deleted =>
    match deleted.err with
    | some err =>
      some (.failed "Error deleting old group during rename" (err.Error w.pick), deleted.net)
    | none =>
      match Client.Post w c "/rest/api/3/group"
          (some (.obj [("name", .str plan.Name.ValueString)])) (some mapDest)
          fuel deleted.net with
      | none => none
      | some out =>
        match out.err with
        | some err =>
          some (.failed "Error creating new group during rename" (err.Error w.pick), out.net)
        | none =>
          match asString ((out.value.getD mapDest.zero).get? "groupId") with
          | some groupId => some (.stored { plan with ID := .value groupId }, out.net)
          | none => some (.stored plan, out.net)

/-- The method `GroupMembershipResource.Create`: the id stored is
`fmt.Sprintf("%s/%s", group name, account id)`. -/
def GroupMembershipResource.Create (w : World) (c : Client) (plan : GroupMembershipResourceModel)
    (fuel : Nat) (net : Net) : Option (Result GroupMembershipResourceModel × Net) :=
  match Client.Post w c
      ("/rest/api/3/group/user?" ++ encodeValues [("groupname", plan.GroupName.ValueString)])
      (some (.obj [("accountId", .str plan.AccountID.ValueString)])) (none : Option (Dest Unit))
      fuel net with
  | none => none
  | some out =>
    match out.err with
    | some err => some (.failed "Error adding user to group" (err.Error w.pick), out.net)
    | none =>
      some (.stored { plan with
        ID := .value (plan.GroupName.ValueString ++ "/" ++ plan.AccountID.ValueString) }, out.net)

/-- The method `GroupMembershipResource.Update`: it reads neither the plan nor
the state and calls no method of the client. -/
def GroupMembershipResource.Update (_w : World) (_c : Client)
    (_plan _state : GroupMembershipResourceModel) (_fuel : Nat) (net : Net) :
    Option (Result GroupMembershipResourceModel × Net) :=
  some (.failed "Unexpected update"
    "Group membership does not support in-place updates. Both group_name and account_id require replacement.",
    net)

/-- The function `strconv.ParseInt(s, 10, 64)`: in base 10 and for 64 bits it
accepts the texts `strconv.Atoi` accepts, with the same values. -/
def ParseInt64 (s : String) : Option Int :=
  Atoi s

/-- The payload of the first PUT of `ProjectResource.Update`, members in the
order in which the code sets them. -/
def ProjectResource.updateBody (plan : ProjectResourceModel) : JVal :=
  .obj ([("key", .str plan.Key.ValueString),
         ("name", .str plan.Name.ValueString),
         ("projectTypeKey", .str plan.ProjectTypeKey.ValueString),
         ("leadAccountId", .str plan.LeadAccountID.ValueString)]
    ++ (if !plan.Description.IsNull && !plan.Description.IsUnknown then
          [("description", .str plan.Description.ValueString)] else [])
    ++ (if !plan.AssigneeType.IsNull && !plan.AssigneeType.IsUnknown then
          [("assigneeType", .str plan.AssigneeType.ValueString)] else []))

/-- The end of `ProjectResource.Update`, from the block that assigns the
workflow scheme on. -/
def ProjectResource.Update.workflowScheme (w : World) (c : Client) (plan : ProjectResourceModel)
    (fuel : Nat) (net : Net) : Option (Result ProjectResourceModel × Net) :=
  if !plan.WorkflowSchemeID.IsNull && !plan.WorkflowSchemeID.IsUnknown then
    match Client.Put w c "/rest/api/3/workflowscheme/project"
        (some (.obj [("projectId", .str plan.ID.ValueString),
                     ("workflowSchemeId", .str plan.WorkflowSchemeID.ValueString)]))
        (none : Option (Dest Unit)) fuel net with
    | none => none
    | some out =>
      match out.err with
      | some err =>
        some (.failed "Error assigning workflow scheme to project" (err.Error w.pick), out.net)
      | none => some (.stored plan, out.net)
  else some (.stored plan, net)

/-- The end of `ProjectResource.Update`, from the block that assigns the
permission scheme on. -/
def ProjectResource.Update.permissionScheme (w : World) (c : Client)
    (plan : ProjectResourceModel) (fuel : Nat) (net : Net) :
    Option (Result ProjectResourceModel × Net) :=
  if !plan.PermissionSchemeID.IsNull && !plan.PermissionSchemeID.IsUnknown then
    match ParseInt64 plan.PermissionSchemeID.ValueString with
    | none =>
      some (.failed "Invalid permission scheme ID"
        "Scheme ID must be a numeric string (e.g. from jira_permission_scheme.id).", net)
    | some id =>
      match Client.Put w c ("/rest/api/3/project/" ++ plan.Key.ValueString ++ "/permissionscheme")
          (some (.obj [("id", .num (some id) (fmtD id))])) (none : Option (Dest Unit))
          fuel net with
      | none => none
      | some out =>
        match out.err with
        | some err =>
          some (.failed "Error assigning permission scheme to project" (err.Error w.pick),
            out.net)
        | none => ProjectResource.Update.workflowScheme w c plan fuel out.net
  else ProjectResource.Update.workflowScheme w c plan fuel net

/-- The end of `ProjectResource.Update`, from the block that assigns the issue
type scheme on. -/
def ProjectResource.Update.issueTypeScheme (w : World) (c : Client)
    (plan : ProjectResourceModel) (fuel : Nat) (net : Net) :
    Option (Result ProjectResourceModel × Net) :=
  if !plan.IssueTypeSchemeID.IsNull && !plan.IssueTypeSchemeID.IsUnknown then
    match Client.Put w c "/rest/api/3/issuetypescheme/project"
        (some (.obj [("issueTypeSchemeId", .str plan.IssueTypeSchemeID.ValueString),
                     ("projectId", .str plan.ID.ValueString)]))
        (none : Option (Dest Unit)) fuel net with
    | none => none
    | some out =>
      match out.err with
      | some err =>
        some (.failed "Error assigning issue type scheme to project" (err.Error w.pick),
          out.net)
      | none => ProjectResource.Update.permissionScheme w c plan fuel out.net
  else ProjectResource.Update.permissionScheme w c plan fuel net

/-- The method `ProjectResource.Update`: the PUT of the base attributes, then
the three blocks that assign the schemes. -/
def ProjectResource.Update (w : World) (c : Client) (plan : ProjectResourceModel)
    (fuel : Nat) (net : Net) : Option (Result ProjectResourceModel × Net) :=
  match Client.Put w c ("/rest/api/3/project/" ++ plan.Key.ValueString)
      (some (ProjectResource.updateBody plan)) (some mapDest) fuel net with
  | none => none
  | some out =>
    match out.err with
    | some err => some (.failed "Error updating project" (err.Error w.pick), out.net)
    | none => ProjectResource.Update.issueTypeScheme w c plan fuel out.net

/-- The call `plan.Permissions.ElementsAs(ctx, &perms, false)` into a slice of
structs with three `string` fields: a null or unknown value in a grant cannot
be stored in a `string` and gives an error diagnostic (`none`). -/
def grantsAsStructs : List PermissionGrant → Option (List (String × String × String))
  | [] => some []
  | g :: rest =>
    match g.permission, g.holder_type, g.holder_parameter, grantsAsStructs rest with
    | .value p, .value t, .value q, some structs => some ((p, t, q) :: structs)
    | _, _, _, _ => none

/-- The method `PermissionSchemeResource.buildPermissions`: the maps of the
payload, in the order of the grants; `none` is the nil slice, which is also
what the loop leaves for a list without grants. -/
def PermissionSchemeResource.buildPermissions (plan : PermissionSchemeResourceModel) :
    Except String (Option (List Members)) :=
  match plan.Permissions with
  | .null => .ok none
  | .unknown => .ok none
  | .value grants =>
    match grantsAsStructs grants with
    | none => .error "error reading permissions"
    | some perms =>
      if perms = [] then .ok none
      else
        .ok (some (perms.map (fun p =>
          [("permission", .str p.1),
           ("holder", .obj [("type", .str p.2.1), ("parameter", .str p.2.2)])])))

/-! ## The resource kinds as one family -/

/-- The ten resource kinds of `internal/resources`. -/
inductive ResourceKind where
  | automationRule
  | customField
  | group
  | groupMembership
  | issueType
  | issueTypeScheme
  | permissionScheme
  | project
  | projectComponent
  | workflowScheme

/-- The state record of a kind. -/
def ResourceKind.Model : ResourceKind → Type
  | .automationRule => AutomationRuleResourceModel
  | .customField => CustomFieldResourceModel
  | .group => GroupResourceModel
  | .groupMembership => GroupMembershipResourceModel
  | .issueType => IssueTypeResourceModel
  | .issueTypeScheme => IssueTypeSchemeResourceModel
  | .permissionScheme => PermissionSchemeResourceModel
  | .project => ProjectResourceModel
  | .projectComponent => ProjectComponentResourceModel
  | .workflowScheme => WorkflowSchemeResourceModel

/-- The `Read` of a kind. -/
def ResourceKind.Read (k : ResourceKind) (w : World) (c : Client) :
    k.Model → Nat → Net → Option (Result k.Model × Net) :=
  match k with
  | .automationRule => AutomationRuleResource.Read w c
  | .customField => CustomFieldResource.Read w c
  | .group => GroupResource.Read w c
  | .groupMembership => GroupMembershipResource.Read w c
  | .issueType => IssueTypeResource.Read w c
  | .issueTypeScheme => IssueTypeSchemeResource.Read w c
  | .permissionScheme => PermissionSchemeResource.Read w c
  | .project => ProjectResource.Read w c
  | .projectComponent => ProjectComponentResource.Read w c
  | .workflowScheme => WorkflowSchemeResource.Read w c

/-- The path of the first fetch of the `Read` of a kind. -/
def ResourceKind.readPath (k : ResourceKind) : k.Model → String :=
  match k with
  | .automationRule => fun state => "/rest/v1/rule/" ++ state.ID.ValueString
  | .customField => fun _ => "/rest/api/3/field"
  | .group => fun state => "/rest/api/3/group/bulk?" ++ encodeQuery "groupName" state.Name.ValueString
  | .groupMembership => fun state =>
    "/rest/api/3/group/member?" ++ encodeQuery "groupname" state.GroupName.ValueString
  | .issueType => fun state => "/rest/api/3/issuetype/" ++ state.ID.ValueString
  | .issueTypeScheme => fun state => "/rest/api/3/issuetypescheme?id=" ++ state.ID.ValueString
  | .permissionScheme => fun state =>
    "/rest/api/3/permissionscheme/" ++ state.ID.ValueString ++ "?expand=permissions"
  | .project => fun state => "/rest/api/3/project/" ++ state.Key.ValueString
  | .projectComponent => fun state => "/rest/api/3/component/" ++ state.ID.ValueString
  | .workflowScheme => fun state => "/rest/api/3/workflowscheme/" ++ state.ID.ValueString

/-- The outcome is the absent signal: the record is removed and no diagnostic
is added. -/
def Result.isRemoved {σ : Type} : Result σ → Bool
  | .removed => true
  | _ => false

/-- The summary and detail of the error diagnostic of an outcome. -/
def Result.diagnostic {σ : Type} : Result σ → Option (String × String)
  | .failed summary detail => some (summary, detail)
  | _ => none

/-- A configuration value counts as given when it is known and not empty. -/
def Tf.Given (x : TfString) : Prop :=
  ∃ s, x = Tf.value s ∧ s ≠ ""

/-! ## Worlds and values used in the examples -/

/-- A client configuration. -/
def exampleClient : Client :=
  { BaseURL := "https://example.atlassian.net", Email := "ops@example.com", APIToken := "secret" }

/-- The world whose server gives the same reply to every request; folding
ASCII letters is enough for the keys of the examples. -/
def constWorld (reply : Reply) : World :=
  { server := fun _ _ => reply, pick := 0, fold := Char.toLower }

/-- The world whose server gives the replies of a script in turn, and `last`
once the script is used up. -/
def scriptWorld (script : List Reply) (last : Reply) : World :=
  { server := fun sent _ => script.getD sent.length last, pick := 0, fold := Char.toLower }

/-- A response whose body was read without error and with no `Retry-After`. -/
def plainResponse (status : Int) (body : String) (json : Except String JVal) : Response :=
  { StatusCode := status, retryAfter := "", readError := none, body := body, json := json }

/-- An HTTP 429 with the given `Retry-After` and an empty body. -/
def rateLimited (retryAfter : String) : Response :=
  { StatusCode := 429, retryAfter := retryAfter, readError := none, body := "",
    json := .error "unexpected end of JSON input" }

/-- The reply makes `doRequest` sleep and call itself again: an HTTP 429 whose
`Retry-After` passes `Atoi`. -/
def Reply.retried : Reply → Bool
  | .answered resp => decide (resp.StatusCode = 429) && (Atoi resp.retryAfter).isSome
  | _ => false

/-- The text of the error of an outcome and whether `IsNotFound` holds of it. -/
def Outcome.report {α : Type} (pick : Nat) (out : Outcome α) : Option String × Bool :=
  (out.err.map (fun e => e.Error pick), IsNotFound out.err)

/-- The status code of the error of an outcome when it is an `APIError`. -/
def Outcome.apiStatus {α : Type} (out : Outcome α) : Option Int :=
  match out.err with
  | some (.api e) => some e.StatusCode
  | _ => none

/-- The body an error answer of JIRA has when it carries no message: both
lists are there and empty. -/
def emptyErrorsBody : String :=
  "\x7b\"errorMessages\":[],\"errors\":\x7b\x7d\x7d"

/-- The JSON document of `emptyErrorsBody`. -/
def emptyErrorsJSON : JVal :=
  .obj [("errorMessages", .arr []), ("errors", .obj [])]

/-- A body with a message and a field error. -/
def validationBody : String :=
  "\x7b\"errorMessages\":[\"Invalid request\"],\"errors\":\x7b\"name\":\"Name is required\"\x7d\x7d"

/-- The JSON document of `validationBody`. -/
def validationJSON : JVal :=
  .obj [("errorMessages", .arr [.str "Invalid request"]),
        ("errors", .obj [("name", .str "Name is required")])]

/-- A body with two field errors and no message. -/
def twoFieldsBody : String :=
  "\x7b\"errorMessages\":[],\"errors\":\x7b\"name\":\"Name is required\",\"type\":\"Unknown type\"\x7d\x7d"

/-- The JSON document of `twoFieldsBody`. -/
def twoFieldsJSON : JVal :=
  .obj [("errorMessages", .arr []),
        ("errors", .obj [("name", .str "Name is required"), ("type", .str "Unknown type")])]

/-- A body with one field error and no message. -/
def oneFieldBody : String :=
  "\x7b\"errorMessages\":[],\"errors\":\x7b\"name\":\"Name is required\"\x7d\x7d"

/-- The JSON document of `oneFieldBody`. -/
def oneFieldJSON : JVal :=
  .obj [("errorMessages", .arr []), ("errors", .obj [("name", .str "Name is required")])]

/-- A body with a message. -/
def messageBody : String :=
  "\x7b\"errorMessages\":[\"Issue type not found\"],\"errors\":\x7b\x7d\x7d"

/-- The JSON document of `messageBody`. -/
def messageJSON : JVal :=
  .obj [("errorMessages", .arr [.str "Issue type not found"]), ("errors", .obj [])]

/-- A stored custom field. -/
def exampleCustomField : CustomFieldResourceModel :=
  { ID := .value "customfield_10001", Name := .value "Team", Description := .null,
    Type_ := .value "com.atlassian.jira.plugin.system.customfieldtypes:textfield",
    SearchKey := .null }

/-- A stored issue type. -/
def exampleIssueType : IssueTypeResourceModel :=
  { ID := .value "10000", Name := .value "Incident", Description := .null,
    Type_ := .value "standard" }

/-- The state stored by an outcome, if it stores one. -/
def Result.stored? {σ : Type} : Result σ → Option σ
  | .stored state => some state
  | _ => none

/-- The diagnostic of `IssueTypeDataSource.Read` for a name that no listed
issue type has. -/
def IssueTypeDataSource.noMatch (name : String) : Result IssueTypeDataSourceModel :=
  .failed "Issue type not found" ("No issue type with name '" ++ name ++ "' found.")

/-- The diagnostic of `IssueTypeDataSource.Read` for a name whose matches are
all dropped by `selectGlobalIssueType`. -/
def IssueTypeDataSource.noGlobal (name : String) : Result IssueTypeDataSourceModel :=
  .failed "Issue type not found"
    ("No global (classic) issue type with name '" ++ name
      ++ "' found; only project-scoped (next-gen) types exist.")

/-- The entries of a listing whose name, as `%v` prints it, is the wanted one
up to case (`matches` in `IssueTypeDataSource.Read`). -/
def nameMatches (fold : Char → Char) (wanted : String) (issueTypes : List GoMap) : List GoMap :=
  issueTypes.filter (fun it => EqualFold fold (fmtV (GoMap.get? it "name")) wanted)

/-- A listing with the single issue type `Bug`, which carries a `scope`. -/
def scopedListingJSON : JVal :=
  .arr [.obj [("id", .str "10001"), ("name", .str "Bug"),
              ("scope", .obj [("type", .str "PROJECT")])]]

/-- A listing with the single issue type `Bug`, without `scope`. -/
def globalListingJSON : JVal :=
  .arr [.obj [("id", .str "10001"), ("name", .str "Bug")]]

/-- The detail payload of the issue type `Bug`, without `scope`. -/
def globalDetailJSON : JVal :=
  .obj [("id", .str "10001"), ("name", .str "Bug"), ("subtask", .bool false)]

/-- The detail payload of the issue type `Bug`, with a `scope`. -/
def scopedDetailJSON : JVal :=
  .obj [("id", .str "10001"), ("name", .str "Bug"),
        ("scope", .obj [("type", .str "PROJECT")])]

/-- A configuration of the issue type data source that gives the name `bug`
and no id. -/
def bugByName : IssueTypeDataSourceModel :=
  { ID := .null, Name := .value "bug", Description := .null, Type_ := .null }

/-- The body of `scopedListingJSON`. -/
def scopedListingBody : String :=
  "[\x7b\"id\":\"10001\",\"name\":\"Bug\",\"scope\":\x7b\"type\":\"PROJECT\"\x7d\x7d]"

/-- The body of `globalListingJSON`. -/
def globalListingBody : String :=
  "[\x7b\"id\":\"10001\",\"name\":\"Bug\"\x7d]"

/-- The body of `globalDetailJSON`. -/
def globalDetailBody : String :=
  "\x7b\"id\":\"10001\",\"name\":\"Bug\",\"subtask\":false\x7d"

/-- The body of `scopedDetailJSON`. -/
def scopedDetailBody : String :=
  "\x7b\"id\":\"10001\",\"name\":\"Bug\",\"scope\":\x7b\"type\":\"PROJECT\"\x7d\x7d"

/-- A world whose server answers by URL, whatever was asked before: the
listing of issue types has the single global type `Bug` with id 10001, the
detail of 10001 is that type, every other URL is answered with an HTTP 404. -/
def catalogWorld : World :=
  { server := fun _ req =>
      if req.url = "https://example.atlassian.net/rest/api/3/issuetype" then
        .answered (plainResponse 200 globalListingBody (.ok globalListingJSON))
      else if req.url = "https://example.atlassian.net/rest/api/3/issuetype/10001" then
        .answered (plainResponse 200 globalDetailBody (.ok globalDetailJSON))
      else .answered (plainResponse 404 "" (.error "unexpected end of JSON input")),
    pick := 0, fold := Char.toLower }

/-- Whether a scheme of a listing has the wanted name up to case, the name
being what `%v` prints for its `name` member. -/
def schemeNamed (fold : Char → Char) (wanted : String) (scheme : Members) : Bool :=
  EqualFold fold (fmtV (Members.get? scheme "name")) wanted

/-- A configuration of the issue type scheme data source that gives the name
`default issue type scheme` and no id. -/
def schemeByName : IssueTypeSchemeDataSourceModel :=
  { ID := .null, Name := .value "default issue type scheme", Description := .null }

/-- A listing of two schemes, the second of which has the wanted name. -/
def schemeListingJSON : JVal :=
  .obj [("values", .arr [
    .obj [("id", .str "10100"), ("name", .str "Kanban scheme")],
    .obj [("id", .str "10000"), ("name", .str "Default Issue Type Scheme")]])]

/-- The body of `schemeListingJSON`. -/
def schemeListingBody : String :=
  "\x7b\"values\":[\x7b\"id\":\"10100\",\"name\":\"Kanban scheme\"\x7d,\x7b\"id\":\"10000\",\"name\":\"Default Issue Type Scheme\"\x7d]\x7d"

/-- The ids of a list are fetched in turn, each without error, taking the
effects from `net` to `net'`; `payloads` are the payloads fetched, in order. -/
inductive Fetched (w : World) (c : Client) (fuel : Nat) :
    List String → Net → List GoMap → Net → Prop where
  | nil (net : Net) : Fetched w c fuel [] net [] net
  | cons (id : String) (rest : List String) (net : Net) (out : Outcome GoMap)
      (payloads : List GoMap) (net' : Net)
      (hget : Client.Get w c ("/rest/api/3/issuetype/" ++ id) (some mapDest) fuel net = some out)
      (herr : out.err = none)
      (hrest : Fetched w c fuel rest out.net payloads net') :
      Fetched w c fuel (id :: rest) net (out.value.getD mapDest.zero :: payloads) net'

/-- The ids whose payload, at the same position, is project-scoped. -/
def scopedIDs : List String → List GoMap → List String
  | id :: ids, payload :: payloads =>
    if IsProjectScoped payload then id :: scopedIDs ids payloads else scopedIDs ids payloads
  | _, _ => []

/-- The text of the `Invalid issue types` diagnostic for a list of ids. -/
def invalidIssueTypesDetail (ids : List String) : String :=
  "Issue type IDs " ++ ", ".intercalate ids
    ++ " are project-scoped (next-gen/team-managed) and cannot be used in jira_issue_type_scheme. Use global issue type IDs instead."

/-- A plan of an issue type scheme with the issue types 10001 and 10002. -/
def examplePlan : IssueTypeSchemeResourceModel :=
  { ID := .unknown, Name := .value "Support scheme", Description := .null,
    DefaultIssueTypeID := .null, IssueTypeIDs := .value [.value "10001", .value "10002"] }

/-- A plan of an issue type scheme without issue types. -/
def emptyPlan : IssueTypeSchemeResourceModel :=
  { ID := .unknown, Name := .value "Empty scheme", Description := .null,
    DefaultIssueTypeID := .null, IssueTypeIDs := .value [] }

/-- The effects of two detail fetches, of 10001 and of 10002, from the start. -/
def twoFetches : Net :=
  { sent := [exampleClient.request "GET" "/rest/api/3/issuetype/10001" none,
             exampleClient.request "GET" "/rest/api/3/issuetype/10002" none],
    slept := [] }

/-- A planned automation rule that is to be enabled. -/
def exampleRule : AutomationRuleResourceModel :=
  { ID := .unknown, Name := .value "Close stale issues", State := .value "ENABLED",
    RuleJSON := .value "\x7b\"trigger\":\"scheduled\"\x7d" }

/-- The JSON document of the `rule_json` of `exampleRule`. -/
def exampleRuleJSON : JVal :=
  .obj [("trigger", .str "scheduled")]

/-- A world in which the first request is answered with an HTTP 200 whose body
holds the id 42, and every later one with an HTTP 500. -/
def createdThenFailing : World :=
  scriptWorld [.answered (plainResponse 200 "\x7b\"id\":42\x7d" (.ok (.obj [("id", .num (some 42) "42")])))]
    (.answered (plainResponse 500 "" (.error "unexpected end of JSON input")))

/-- A creation response that holds both an `id` and an `issueTypeSchemeId`. -/
def bothIDs : Members :=
  [("id", .str "1"), ("issueTypeSchemeId", .str "2")]

/-- A world in which every request is answered with an HTTP 201 whose body
is the object `bothIDs`. -/
def bothIDsWorld : World :=
  constWorld (.answered (plainResponse 201
    "\x7b\"id\":\"1\",\"issueTypeSchemeId\":\"2\"\x7d" (.ok (.obj bothIDs))))

/-- The request that disables the automation rule of a stored state. -/
def AutomationRuleResource.disableRequest (c : Client) (state : AutomationRuleResourceModel) :
    Request :=
  c.request "PUT" ("/rest/v1/rule/" ++ state.ID.ValueString ++ "/state")
    (some (.obj [("state", .str "DISABLED")]))

/-- The stored state of the automation rule 42. -/
def storedRule : AutomationRuleResourceModel :=
  { exampleRule with ID := .value "42" }

/-- A world in which the first request is answered with an HTTP 429 and
`Retry-After: 1`, and every later one with an HTTP 204. -/
def limitedOnce : World :=
  scriptWorld [.answered (rateLimited "1")]
    (.answered (plainResponse 204 "" (.error "unexpected end of JSON input")))

/-- A world in which every request is answered with an HTTP 204 without a
body. -/
def noContentWorld : World :=
  constWorld (.answered (plainResponse 204 "" (.error "unexpected end of JSON input")))

/-- The DELETE request of a rename: it addresses the group by the name held
in the state. -/
def GroupResource.renameDelete (c : Client) (state : GroupResourceModel) : Request :=
  c.request "DELETE"
    ("/rest/api/3/group" ++ "?" ++ encodeValues [("groupname", state.Name.ValueString)]) none

/-- The POST request of a rename: it creates the group with the planned name. -/
def GroupResource.renamePost (c : Client) (plan : GroupResourceModel) : Request :=
  c.request "POST" "/rest/api/3/group" (some (.obj [("name", .str plan.Name.ValueString)]))

/-- The state of the group `old-team` and the plan that renames it `new-team`. -/
def oldGroup : GroupResourceModel :=
  { ID := .value "g-1", Name := .value "old-team" }

/-- The plan that renames `oldGroup`. -/
def newGroup : GroupResourceModel :=
  { ID := .value "g-1", Name := .value "new-team" }

/-- A world in which the first request is answered with an HTTP 204 and every
later one with an HTTP 500 without a body. -/
def deletedThenFailing : World :=
  scriptWorld [.answered (plainResponse 204 "" (.error "unexpected end of JSON input"))]
    (.answered (plainResponse 500 "" (.error "unexpected end of JSON input")))

/-- The plan of the membership of an account in a group. -/
def membership (groupName accountID : String) : GroupMembershipResourceModel :=
  { ID := .unknown, GroupName := .value groupName, AccountID := .value accountID }

/-- One step of an update, as the specification sees it: a PUT whose failure
is reported under `summary` (`decodes` tells whether the answer is decoded
into a map), or a check made locally that rejects the plan. -/
inductive UpdateStep where
  | put (summary path : String) (body : JVal) (decodes : Bool)
  | reject (summary detail : String)

/-- The summary under which the failure of a step is reported. -/
def UpdateStep.summary : UpdateStep → String
  | .put summary _ _ _ => summary
  | .reject summary _ => summary

/-- Steps run in order: each PUT is one call of `Client.Put`; the first step
that fails ends the run with its diagnostic, and the steps after it are not
run. `none` as diagnostic means that every step succeeded. -/
def runSteps (w : World) (c : Client) :
    List UpdateStep → Nat → Net → Option (Option (String × String) × Net)
  | [], _, net => some (none, net)
  | .reject summary detail :: _, _, net => some (some (summary, detail), net)
  | .put summary path body decodes :: rest, fuel, net =>
    match (if decodes then
        (Client.Put w c path (some body) (some mapDest) fuel net).map
          (fun out => (out.err, out.net))
      else
        (Client.Put w c path (some body) (none : Option (Dest Unit)) fuel net).map
          (fun out => (out.err, out.net))) with
    | none => none
    | some (some err, net') => some (some (summary, err.Error w.pick), net')
    | some (none, net') => runSteps w c rest fuel net'

/-- The requests a run of steps may hand to the transport: for each PUT its
request, once per attempt, in the order of the steps; nothing for a check. -/
inductive Trace (c : Client) : List UpdateStep → List Request → Prop where
  | nil : Trace c [] []
  | put (summary path : String) (body : JVal) (decodes : Bool) (k : Nat)
      (rest : List UpdateStep) (reqs : List Request) (h : Trace c rest reqs) :
      Trace c (.put summary path body decodes :: rest)
        (List.replicate k (c.request "PUT" path (some body)) ++ reqs)
  | reject (summary detail : String) (rest : List UpdateStep) (reqs : List Request)
      (h : Trace c rest reqs) : Trace c (.reject summary detail :: rest) reqs

/-- The step that assigns the issue type scheme of a project, when its id is
set. -/
def ProjectResource.issueTypeSchemeSteps (plan : ProjectResourceModel) : List UpdateStep :=
  if !plan.IssueTypeSchemeID.IsNull && !plan.IssueTypeSchemeID.IsUnknown then
    [.put "Error assigning issue type scheme to project" "/rest/api/3/issuetypescheme/project"
      (.obj [("issueTypeSchemeId", .str plan.IssueTypeSchemeID.ValueString),
             ("projectId", .str plan.ID.ValueString)]) false]
  else []

/-- The step that assigns the permission scheme of a project, when its id is
set; an id that is not a number is rejected in place of the assignment. -/
def ProjectResource.permissionSchemeSteps (plan : ProjectResourceModel) : List UpdateStep :=
  if !plan.PermissionSchemeID.IsNull && !plan.PermissionSchemeID.IsUnknown then
    [match ParseInt64 plan.PermissionSchemeID.ValueString with
     | none => .reject "Invalid permission scheme ID"
         "Scheme ID must be a numeric string (e.g. from jira_permission_scheme.id)."
     | some id => .put "Error assigning permission scheme to project"
         ("/rest/api/3/project/" ++ plan.Key.ValueString ++ "/permissionscheme")
         (.obj [("id", .num (some id) (fmtD id))]) false]
  else []

/-- The step that assigns the workflow scheme of a project, when its id is
set. -/
def ProjectResource.workflowSchemeSteps (plan : ProjectResourceModel) : List UpdateStep :=
  if !plan.WorkflowSchemeID.IsNull && !plan.WorkflowSchemeID.IsUnknown then
    [.put "Error assigning workflow scheme to project" "/rest/api/3/workflowscheme/project"
      (.obj [("projectId", .str plan.ID.ValueString),
             ("workflowSchemeId", .str plan.WorkflowSchemeID.ValueString)]) false]
  else []

/-- The steps of the update of a project, in the order of the specification:
the PUT of the base attributes, then the assignment of the issue type scheme,
of the permission scheme and of the workflow scheme. -/
def ProjectResource.updateSteps (plan : ProjectResourceModel) : List UpdateStep :=
  .put "Error updating project" ("/rest/api/3/project/" ++ plan.Key.ValueString)
      (ProjectResource.updateBody plan) true
  :: (ProjectResource.issueTypeSchemeSteps plan
    ++ (ProjectResource.permissionSchemeSteps plan ++ ProjectResource.workflowSchemeSteps plan))

/-- The result of an update from the outcome of its steps: the plan is stored
when no step failed, the diagnostic of the failed step is the result
otherwise. -/
def finishUpdate {σ : Type} (plan : σ) (r : Option (String × String) × Net) : Result σ × Net :=
  match r.1 with
  | none => (.stored plan, r.2)
  | some diag => (.failed diag.1 diag.2, r.2)

/-- The plan of the update of the project `OPS`, with the three schemes set. -/
def projectPlan : ProjectResourceModel :=
  { ID := .value "10000", Key := .value "OPS", Name := .value "Operations",
    Description := .null, ProjectTypeKey := .value "software",
    LeadAccountID := .value "acc-1", AssigneeType := .null,
    IssueTypeSchemeID := .value "10100", PermissionSchemeID := .value "10001",
    WorkflowSchemeID := .value "10200" }

/-- A world in which the first two requests are answered with an HTTP 204 and
every later one with an HTTP 500 without a body. -/
def twoThenFailing : World :=
  scriptWorld [.answered (plainResponse 204 "" (.error "unexpected end of JSON input")),
               .answered (plainResponse 204 "" (.error "unexpected end of JSON input"))]
    (.answered (plainResponse 500 "" (.error "unexpected end of JSON input")))

/-- The summary of the diagnostic the `Read` of a kind adds when its first
fetch fails. -/
def ResourceKind.readSummary : ResourceKind → String
  | .automationRule => "Error reading automation rule"
  | .customField => "Error reading custom fields"
  | .group => "Error reading group"
  | .groupMembership => "Error reading group membership"
  | .issueType => "Error reading issue type"
  | .issueTypeScheme => "Error reading issue type scheme"
  | .permissionScheme => "Error reading permission scheme"
  | .project => "Error reading project"
  | .projectComponent => "Error reading project component"
  | .workflowScheme => "Error reading workflow scheme"

/-- The error and the effects of the first fetch of the `Read` of a kind: the
custom field decodes the answer into a slice of maps, the others into a map. -/
def ResourceKind.firstFetch (k : ResourceKind) (w : World) (c : Client) (state : k.Model)
    (fuel : Nat) (net : Net) : Option (Option GoError × Net) :=
  match k with
  | .customField =>
    (Client.Get w c (ResourceKind.readPath .customField state) (some mapsDest) fuel net).map
      (fun out => (out.err, out.net))
  | k =>
    (Client.Get w c (k.readPath state) (some mapDest) fuel net).map
      (fun out => (out.err, out.net))

/-- The stored state of the issue type scheme 10000. -/
def storedScheme : IssueTypeSchemeResourceModel :=
  { ID := .value "10000", Name := .value "Default Issue Type Scheme", Description := .null,
    DefaultIssueTypeID := .null, IssueTypeIDs := .value [.value "10001"] }

/-- A world in which the first request is answered with the listing that holds
the scheme 10000 and every later one with an HTTP 500 without a body. -/
def schemeThenFailing : World :=
  scriptWorld [.answered (plainResponse 200
      "\x7b\"values\":[\x7b\"id\":\"10000\",\"name\":\"Default Issue Type Scheme\"\x7d]\x7d"
      (.ok (.obj [("values", .arr [.obj [("id", .str "10000"),
                                          ("name", .str "Default Issue Type Scheme")]])])))]
    (.answered (plainResponse 500 "" (.error "unexpected end of JSON input")))

/-- The stored state of the project `OPS`. -/
def storedProject : ProjectResourceModel :=
  { ID := .value "10000", Key := .value "OPS", Name := .value "Operations",
    Description := .null, ProjectTypeKey := .value "software",
    LeadAccountID := .value "acc-1", AssigneeType := .null,
    IssueTypeSchemeID := .null, PermissionSchemeID := .null, WorkflowSchemeID := .null }

/-- A world in which every request is answered with an HTTP 500 without a
body. -/
def failingWorld : World :=
  constWorld (.answered (plainResponse 500 "" (.error "unexpected end of JSON input")))

/-- A listing of two fields, the second of which is `customfield_10001`. -/
def fieldListingJSON : JVal :=
  .arr [.obj [("id", .str "customfield_10000"), ("name", .str "Sprint")],
        .obj [("id", .str "customfield_10001"), ("name", .str "Squad")]]

/-- The body of `fieldListingJSON`. -/
def fieldListingBody : String :=
  "[\x7b\"id\":\"customfield_10000\",\"name\":\"Sprint\"\x7d,\x7b\"id\":\"customfield_10001\",\"name\":\"Squad\"\x7d]"

/-- The outcome of the listing of the fields in the world that answers
`fieldListingJSON`. -/
def fieldListing : Outcome (List GoMap) :=
  { err := none,
    value := some [some [("id", .str "customfield_10000"), ("name", .str "Sprint")],
                   some [("id", .str "customfield_10001"), ("name", .str "Squad")]],
    net := { sent := [exampleClient.request "GET" "/rest/api/3/field" none], slept := [] } }

/-- A world in which every request is answered with an HTTP 200 and a page
without entries. -/
def emptyPageWorld : World :=
  constWorld (.answered (plainResponse 200 "\x7b\"values\":[]\x7d" (.ok (.obj [("values", .arr [])]))))

/-- A world in which every request is answered with an HTTP 200 and the empty
JSON object. -/
def emptyObjectWorld : World :=
  constWorld (.answered (plainResponse 200 "\x7b\x7d" (.ok (.obj []))))

/-- A world in which every request is answered with an HTTP 404 without a
body. -/
def notFoundWorld : World :=
  constWorld (.answered (plainResponse 404 "" (.error "unexpected end of JSON input")))

/-- A world in which every request is answered with an HTTP 200 and a page
whose `values` holds the text `acc-1` instead of a member object. -/
def textMembersWorld : World :=
  constWorld (.answered (plainResponse 200 "\x7b\"values\":[\"acc-1\"],\"isLast\":true\x7d"
    (.ok (.obj [("values", .arr [.str "acc-1"]), ("isLast", .bool true)]))))

/-- The distinct elements of a list in the order of their first occurrence.
`List.dedup` keeps the last copy of each element, so it is applied to the
reversed list. -/
def firstOccurrences (l : List String) : List String :=
  l.reverse.dedup.reverse

/-- The grant of a permission to a holder, all three values known. -/
def PermissionGrant.ofStrings (g : String × String × String) : PermissionGrant :=
  { permission := .value g.1, holder_type := .value g.2.1, holder_parameter := .value g.2.2 }

/-- The map `buildPermissions` builds for a grant. -/
def grantPayload (g : String × String × String) : Members :=
  [("permission", .str g.1), ("holder", .obj [("type", .str g.2.1), ("parameter", .str g.2.2)])]

/-- The stored state of the permission scheme 10001. -/
def storedPermissionScheme : PermissionSchemeResourceModel :=
  { ID := .value "10001", Name := .value "Default Permission Scheme", Description := .null,
    Permissions := .null }

/-- The configuration that asks for the workflow `classic`. -/
def workflowByName : WorkflowDataSourceModel :=
  { Name := .value "classic", Description := .null, Steps := .null, IsDefault := .null }

/-- The world whose every answer is an HTTP 200 with the JSON object given,
`body` being its text. -/
def jsonWorld (body : String) (json : JVal) : World :=
  constWorld (.answered (plainResponse 200 body (.ok json)))

/-- The result of a `Read` in brief: whether it stored a record, its error
diagnostic, and whether it panicked. -/
def Result.brief {σ : Type} : Result σ → Bool × Option (String × String) × Bool
  | .panicked => (false, none, true)
  | r => (r.stored?.isSome, r.diagnostic, false)

/-- A configuration of the permission scheme data source that gives the name
`default permission scheme` and no id. -/
def permissionSchemeByName : PermissionSchemeDataSourceModel :=
  { ID := .null, Name := .value "default permission scheme", Description := .null }

/-- A listing in which `permissionSchemes` occurs twice: first with the scheme
1 named `Default Permission Scheme`, then with a scheme that has the id 2 and
no name. -/
def repeatedListingJSON : JVal :=
  .obj [("permissionSchemes",
          .arr [.obj [("id", .num (some 1) "1"), ("name", .str "Default Permission Scheme")]]),
        ("permissionSchemes", .arr [.obj [("id", .num (some 2) "2")]])]

/-- The body of `repeatedListingJSON`. -/
def repeatedListingBody : String :=
  "\x7b\"permissionSchemes\":[\x7b\"id\":1,\"name\":\"Default Permission Scheme\"\x7d],\"permissionSchemes\":[\x7b\"id\":2\x7d]\x7d"

/-- The map the first slot of `PermissionSchemes` holds after
`repeatedListingJSON` is decoded: the entries of the first occurrence, then
the member of the second. -/
def mergedScheme : Members :=
  [("id", .num (some 1) "1"), ("name", .str "Default Permission Scheme"),
   ("id", .num (some 2) "2")]

/-! ## Properties -/

theorem Members.get?_isSome_iff (ms : Members) (key : String) :
    (Members.get? ms key).isSome = true ↔ ∃ v, (key, v) ∈ ms := by
  induction ms with
  | nil => simp [Members.get?]
  | cons kv rest ih =>
    obtain ⟨k, v⟩ := kv
    unfold Members.get?
    cases h : Members.get? rest key with
    | some w =>
      have : ∃ v, (key, v) ∈ rest := ih.mp (by simp [h])
      obtain ⟨v', hv'⟩ := this
      simp only [Option.isSome_some, true_iff]
      exact ⟨v', List.mem_cons_of_mem _ hv'⟩
    | none =>
      have hno : ¬ ∃ v, (key, v) ∈ rest := fun hex => by
        have := ih.mpr hex
        simp [h] at this
      by_cases hk : k = key
      · subst hk
        simp only [if_true, Option.isSome_some, true_iff]
        exact ⟨v, List.mem_cons_self _ _⟩
      · simp only [hk, if_false, Option.isSome_none, false_iff, Bool.false_eq_true]
        rintro ⟨v', hv'⟩
        rcases List.mem_cons.mp hv' with heq | hmem
        · exact hk (by cases heq; rfl)
        · exact hno ⟨v', hmem⟩

/-- C1: `IsProjectScoped` is true exactly when the payload map holds the key
`scope`; setting `scope` to any value, `null` included, makes it true. -/
theorem isProjectScoped_iff_hasKey (payload : GoMap) :
    (IsProjectScoped payload = true ↔ GoMap.HasKey payload "scope") ∧
    (∀ v : JVal, IsProjectScoped (GoMap.set payload "scope" v) = true) ∧
    IsProjectScoped (GoMap.set payload "scope" JVal.null) = true := by
  have key : ∀ m : GoMap, IsProjectScoped m = true ↔ GoMap.HasKey m "scope" := by
    intro m
    cases m with
    | none => simp [IsProjectScoped, GoMap.get?, GoMap.HasKey]
    | some ms =>
      simp only [IsProjectScoped, GoMap.get?, GoMap.HasKey]
      rw [Members.get?_isSome_iff]
      constructor
      · rintro ⟨v, hv⟩
        exact ⟨ms, v, rfl, hv⟩
      · rintro ⟨ms', v, hms, hv⟩
        cases hms
        exact ⟨v, hv⟩
  have set : ∀ v : JVal, IsProjectScoped (GoMap.set payload "scope" v) = true := by
    intro v
    rw [key]
    cases payload with
    | none => exact ⟨_, v, rfl, List.mem_singleton.mpr rfl⟩
    | some ms => exact ⟨_, v, rfl, List.mem_append.mpr (Or.inr (List.mem_singleton.mpr rfl))⟩
  exact ⟨key payload, set, set JVal.null⟩

/-- C2: `IsNotFound` is true exactly for an API error whose status code is
404; it is false for nil, for a plain error and for any other status. -/
theorem isNotFound_iff (err : Option GoError) :
    (IsNotFound err = true ↔ ∃ e : APIError, err = some (GoError.api e) ∧ e.StatusCode = 404) ∧
    IsNotFound none = false ∧
    (∀ text, IsNotFound (some (GoError.plain text)) = false) ∧
    (∀ e : APIError, e.StatusCode ≠ 404 → IsNotFound (some (GoError.api e)) = false) := by
  refine ⟨?_, rfl, fun _ => rfl, ?_⟩
  · cases err with
    | none => simp [IsNotFound]
    | some g =>
      cases g with
      | api e =>
        simp only [IsNotFound, decide_eq_true_eq]
        constructor
        · intro h
          exact ⟨e, rfl, h⟩
        · rintro ⟨e', he, h⟩
          cases he
          exact h
      | plain text => simp [IsNotFound]
  · intro e he
    simp [IsNotFound, he]

/-! ### The client -/

theorem doRequest_error_response {α : Type} (w : World) (c : Client) (method path : String)
    (body : Option JVal) (result : Option (Dest α)) (fuel : Nat) (net : Net) (resp : Response)
    (hsrv : w.server net.sent (c.request method path body) = Reply.answered resp)
    (h429 : resp.StatusCode ≠ 429) (hread : resp.readError = none)
    (hstatus : resp.StatusCode < 200 ∨ resp.StatusCode ≥ 300) :
    doRequest w c method path body result (fuel + 1) net =
      some { err := some (responseError w resp), value := none,
             net := { net with sent := net.sent ++ [c.request method path body] } } := by
  simp only [doRequest, hsrv, h429, hread, hstatus, if_true, if_false]

theorem doRequest_retry {α : Type} (w : World) (c : Client) (method path : String)
    (body : Option JVal) (result : Option (Dest α)) (fuel : Nat) (net : Net) (resp : Response)
    (seconds : Int)
    (hsrv : w.server net.sent (c.request method path body) = Reply.answered resp)
    (h429 : resp.StatusCode = 429) (hparse : Atoi resp.retryAfter = some seconds) :
    doRequest w c method path body result (fuel + 1) net =
      doRequest w c method path body result fuel
        { sent := net.sent ++ [c.request method path body],
          slept := net.slept ++ [secondsDuration seconds] } := by
  simp only [doRequest, hsrv, h429, hparse, if_true]

theorem doRequest_rate_limit_terminal {α : Type} (w : World) (c : Client) (method path : String)
    (body : Option JVal) (result : Option (Dest α)) (fuel : Nat) (net : Net) (resp : Response)
    (hsrv : w.server net.sent (c.request method path body) = Reply.answered resp)
    (h429 : resp.StatusCode = 429) (hparse : Atoi resp.retryAfter = none) :
    doRequest w c method path body result (fuel + 1) net =
      some { err := some (.plain ("rate limited by JIRA API, retry after: " ++ resp.retryAfter)),
             value := none,
             net := { net with sent := net.sent ++ [c.request method path body] } } := by
  simp only [doRequest, hsrv, h429, hparse, if_true]

theorem APIError.Error_of_message (e : APIError) (pick : Nat) (m : String) (ms : List String)
    (h : e.ErrorMessages = m :: ms) :
    e.Error pick = "JIRA API error (HTTP " ++ fmtD e.StatusCode ++ "): " ++ m := by
  simp only [APIError.Error, h]

theorem APIError.Error_of_field (e : APIError) (pick : Nat)
    (hm : e.ErrorMessages = []) (he : e.Errors ≠ []) :
    ∃ k v, (k, v) ∈ e.Errors ∧
      e.Error pick = "JIRA API error (HTTP " ++ fmtD e.StatusCode ++ "): " ++ k ++ ": " ++ v := by
  have hlen : 0 < e.Errors.length := List.length_pos.mpr he
  have hlt : pick % e.Errors.length < e.Errors.length := Nat.mod_lt _ hlen
  refine ⟨(e.Errors[pick % e.Errors.length]).1, (e.Errors[pick % e.Errors.length]).2,
    List.getElem_mem _, ?_⟩
  simp only [APIError.Error, hm, List.getElem?_eq_getElem hlt]
  rfl

theorem APIError.Error_of_bare (e : APIError) (pick : Nat)
    (hm : e.ErrorMessages = []) (he : e.Errors = []) :
    e.Error pick = "JIRA API error (HTTP " ++ fmtD e.StatusCode ++ ")" := by
  simp [APIError.Error, hm, he]

theorem bare_text_length (status : String) :
    ("JIRA API error (HTTP " ++ status ++ ")").length = status.length + 22 := by
  simp only [String.length_append]
  have h1 : ("JIRA API error (HTTP " : String).length = 21 := by decide
  have h2 : (")" : String).length = 1 := by decide
  omega

theorem detailed_text_length (status detail : String) :
    ("JIRA API error (HTTP " ++ status ++ "): " ++ detail).length
      = status.length + 24 + detail.length := by
  simp only [String.length_append]
  have h1 : ("JIRA API error (HTTP " : String).length = 21 := by decide
  have h2 : ("): " : String).length = 3 := by decide
  omega

/-- A decoded error that keeps the status of the response and carries a
message or a field error never reads as the bare text. -/
theorem APIError.Error_ne_bare (e : APIError) (pick : Nat) (status : Int)
    (hcode : e.StatusCode = status) (hmsg : e.ErrorMessages ≠ [] ∨ e.Errors ≠ []) :
    e.Error pick ≠ "JIRA API error (HTTP " ++ fmtD status ++ ")" := by
  intro heq
  have hlen := congrArg String.length heq
  rw [bare_text_length] at hlen
  cases hm : e.ErrorMessages with
  | cons m ms =>
    rw [APIError.Error_of_message e pick m ms hm, hcode, detailed_text_length] at hlen
    omega
  | nil =>
    have he : e.Errors ≠ [] := by
      rcases hmsg with h | h
      · exact absurd hm h
      · exact h
    obtain ⟨k, v, _, htext⟩ := APIError.Error_of_field e pick hm he
    rw [htext, hcode] at hlen
    have : ("JIRA API error (HTTP " ++ fmtD status ++ "): " ++ k ++ ": " ++ v)
        = ("JIRA API error (HTTP " ++ fmtD status ++ "): " ++ (k ++ ": " ++ v)) := by
      simp only [String.append_assoc]
    rw [this, detailed_text_length] at hlen
    omega

theorem decodeAPIErrorMember_StatusCode (fold : Char → Char) (e : APIError) (key : String)
    (v : JVal) (hkey : EqualFold fold key "StatusCode" = false) :
    (decodeAPIErrorMember fold e key v).StatusCode = e.StatusCode := by
  unfold decodeAPIErrorMember
  rw [if_neg (by simp [hkey])]
  split
  · split <;> rfl
  · split
    · split <;> rfl
    · rfl

/-- A body with no member named `StatusCode` (up to case) leaves the status of
the response on the decoded error. -/
theorem decodedError_StatusCode (w : World) (resp : Response)
    (hkeys : ∀ members, resp.json = .ok (.obj members) →
      ∀ kv ∈ members, EqualFold w.fold kv.1 "StatusCode" = false) :
    (decodedError w resp).StatusCode = resp.StatusCode := by
  unfold decodedError
  split
  · cases hjson : resp.json with
    | error msg => rfl
    | ok v =>
      cases v with
      | obj members =>
        have hk := hkeys members hjson
        simp only [unmarshalAPIError]
        have key : ∀ (ms : List (String × JVal)) (e : APIError),
            (∀ kv ∈ ms, EqualFold w.fold kv.1 "StatusCode" = false) →
            (ms.foldl (fun e kv => decodeAPIErrorMember w.fold e kv.1 kv.2) e).StatusCode
              = e.StatusCode := by
          intro ms
          induction ms with
          | nil => intro e _; rfl
          | cons kv rest ih =>
            intro e h
            rw [List.foldl_cons, ih _ (fun x hx => h x (List.mem_cons_of_mem _ hx))]
            exact decodeAPIErrorMember_StatusCode w.fold e kv.1 kv.2 (h kv (List.mem_cons_self _ _))
        exact key members _ hk
      | null => rfl
      | bool b => rfl
      | num i t => rfl
      | str t => rfl
      | arr items => rfl
  · rfl

theorem responseError_of_empty_body (w : World) (resp : Response) (hbody : resp.body = "") :
    responseError w resp
      = .api { StatusCode := resp.StatusCode, ErrorMessages := [], Errors := [] } := by
  simp [responseError, decodedError, hbody]

theorem responseError_of_message (w : World) (resp : Response)
    (hcode : (decodedError w resp).StatusCode = resp.StatusCode)
    (hmsg : (decodedError w resp).ErrorMessages ≠ [] ∨ (decodedError w resp).Errors ≠ []) :
    responseError w resp = .api (decodedError w resp) := by
  have hne := APIError.Error_ne_bare (decodedError w resp) w.pick resp.StatusCode hcode hmsg
  simp only [responseError, hne, false_and, if_false]

theorem responseError_of_raw_body (w : World) (resp : Response) (hbody : resp.body ≠ "")
    (hcode : (decodedError w resp).StatusCode = resp.StatusCode)
    (hm : (decodedError w resp).ErrorMessages = []) (he : (decodedError w resp).Errors = []) :
    responseError w resp
      = .plain ("JIRA API error (HTTP " ++ fmtD resp.StatusCode ++ "): " ++ resp.body) := by
  have hbare := APIError.Error_of_bare (decodedError w resp) w.pick hm he
  rw [hcode] at hbare
  simp only [responseError, hbare, hbody, ne_eq, not_false_eq_true, and_self, if_true]

/-- The raw-body fallback: a non-2xx, non-429 response whose body is not empty,
decodes to no message and no field error and keeps the status comes back as
the `fmt.Errorf` error whose text ends in the raw body; `IsNotFound` is false
of it whatever the status. -/
theorem doRequest_raw_body_fallback {α : Type} (w : World) (c : Client) (method path : String)
    (body : Option JVal) (result : Option (Dest α)) (fuel : Nat) (net : Net) (resp : Response)
    (hsrv : w.server net.sent (c.request method path body) = Reply.answered resp)
    (h429 : resp.StatusCode ≠ 429) (hread : resp.readError = none)
    (hstatus : resp.StatusCode < 200 ∨ resp.StatusCode ≥ 300) (hbody : resp.body ≠ "")
    (hcode : (decodedError w resp).StatusCode = resp.StatusCode)
    (hm : (decodedError w resp).ErrorMessages = []) (he : (decodedError w resp).Errors = []) :
    ∃ out : Outcome α,
      doRequest w c method path body result (fuel + 1) net = some out
      ∧ out.err = some (.plain ("JIRA API error (HTTP " ++ fmtD resp.StatusCode ++ "): "
          ++ resp.body))
      ∧ IsNotFound out.err = false := by
  refine ⟨_, doRequest_error_response w c method path body result fuel net resp hsrv h429 hread
    hstatus, ?_, ?_⟩
  · simp only [responseError_of_raw_body w resp hbody hcode hm he]
  · simp only [responseError_of_raw_body w resp hbody hcode hm he, IsNotFound]

/-- Without a member named `StatusCode` in the body, an `APIError` that comes
back from `doRequest` for a non-2xx, non-429 response carries the status of
the response. -/
theorem doRequest_api_error_status {α : Type} (w : World) (c : Client) (method path : String)
    (body : Option JVal) (result : Option (Dest α)) (fuel : Nat) (net : Net) (resp : Response)
    (hsrv : w.server net.sent (c.request method path body) = Reply.answered resp)
    (h429 : resp.StatusCode ≠ 429) (hread : resp.readError = none)
    (hstatus : resp.StatusCode < 200 ∨ resp.StatusCode ≥ 300)
    (hkeys : ∀ members, resp.json = .ok (.obj members) →
      ∀ kv ∈ members, EqualFold w.fold kv.1 "StatusCode" = false)
    (out : Outcome α) (e : APIError)
    (hout : doRequest w c method path body result (fuel + 1) net = some out)
    (herr : out.err = some (.api e)) :
    e.StatusCode = resp.StatusCode ∧ ¬ (200 ≤ e.StatusCode ∧ e.StatusCode < 300) := by
  rw [doRequest_error_response w c method path body result fuel net resp hsrv h429 hread hstatus]
    at hout
  cases hout
  have hdec := decodedError_StatusCode w resp hkeys
  have he : e = decodedError w resp := by
    simp only [responseError] at herr
    split at herr
    · cases herr
    · cases herr
      rfl
  rw [he, hdec]
  exact ⟨rfl, by omega⟩

/-- C3: an HTTP 404 whose body is not empty and yields no message (the two
lists empty, or a body that is not JSON) comes back from `doRequest` as the
`fmt.Errorf` error with the raw body, and `IsNotFound` is false of it: the
status is kept in the text only. -/
theorem doRequest_404_raw_body_not_found_false :
    (doRequest (constWorld (.answered (plainResponse 404 emptyErrorsBody (.ok emptyErrorsJSON))))
        exampleClient "GET" "/rest/api/3/issuetype/10000" none (some mapDest) 1 Net.start).map
        (Outcome.report 0)
      = some (some ("JIRA API error (HTTP 404): " ++ emptyErrorsBody), false)
    ∧ (doRequest (constWorld (.answered (plainResponse 404 "Not Found"
          (.error "invalid character 'N' looking for beginning of value"))))
        exampleClient "GET" "/rest/api/3/issuetype/10000" none (some mapDest) 1 Net.start).map
        (Outcome.report 0)
      = some (some "JIRA API error (HTTP 404): Not Found", false) := by
  constructor <;> decide

/-- C4: an HTTP 500 whose body is the JSON object with the single member
`StatusCode` set to 200 comes back from `doRequest` as an `APIError` whose
`StatusCode` is 200, a value inside [200,300) and not the status of the
response. -/
theorem doRequest_status_code_overwritten :
    (doRequest
        (constWorld (.answered (plainResponse 500 "\x7b\"StatusCode\":200\x7d"
          (.ok (.obj [("StatusCode", .num (some 200) "200")])))))
        exampleClient "GET" "/rest/api/3/issuetype/10000" none (some mapDest) 1 Net.start).map
        Outcome.apiStatus
      = some (some 200) := by
  decide

/-- C8: an HTTP 502 whose body is a JSON object with a `statusCode` of 500 and
neither `errorMessages` nor `errors` comes back from `doRequest` with the text
`JIRA API error (HTTP 500)` and not with the raw body as its detail. -/
theorem doRequest_raw_body_fallback_skipped :
    (doRequest
        (constWorld (.answered (plainResponse 502
          "\x7b\"statusCode\":500,\"message\":\"upstream unavailable\"\x7d"
          (.ok (.obj [("statusCode", .num (some 500) "500"),
                      ("message", .str "upstream unavailable")])))))
        exampleClient "GET" "/rest/api/3/issuetype/10000" none (some mapDest) 1 Net.start).map
        (Outcome.report 0)
      = some (some "JIRA API error (HTTP 500)", false) := by
  decide

/-- C6: on an HTTP 429 whose `Retry-After` is 10000000000, which `Atoi`
accepts, the duration handed to `time.Sleep` is the `int64` product
-8446744073709551616 ns, not 10000000000 s: `Sleep` returns at once and the
request is sent again (two requests in all). -/
theorem doRequest_retry_after_overflows :
    Atoi "10000000000" = some 10000000000
    ∧ (doRequest
        (scriptWorld [.answered (rateLimited "10000000000")]
          (.answered (plainResponse 200 "" (.error "unexpected end of JSON input"))))
        exampleClient "GET" "/rest/api/3/issuetype/10000" none (some mapDest) 2 Net.start).map
        (fun out => (out.net.slept, out.net.sent.length))
      = some ([-8446744073709551616], 2)
    ∧ (-8446744073709551616 : Int) ≠ 10000000000 * 1000000000 := by
  refine ⟨by decide, by decide, by decide⟩

theorem Reply.retried_iff (reply : Reply) :
    reply.retried = true ↔
      ∃ resp seconds, reply = Reply.answered resp ∧ resp.StatusCode = 429
        ∧ Atoi resp.retryAfter = some seconds := by
  cases reply with
  | invalid cause => simp [Reply.retried]
  | failed cause => simp [Reply.retried]
  | answered resp =>
    simp only [Reply.retried, Bool.and_eq_true, decide_eq_true_eq, Option.isSome_iff_exists,
      Reply.answered.injEq]
    constructor
    · rintro ⟨h, seconds, hs⟩
      exact ⟨resp, seconds, rfl, h, hs⟩
    · rintro ⟨resp', seconds, heq, h, hs⟩
      cases heq
      exact ⟨h, seconds, hs⟩

/-- A reply that is not retried ends the call at once: the outcome does not
depend on the fuel left, no sleep is added and at most the one request is
added. -/
theorem doRequest_returns {α : Type} (w : World) (c : Client) (method path : String)
    (body : Option JVal) (result : Option (Dest α)) (net : Net)
    (hlast : (w.server net.sent (c.request method path body)).retried = false) :
    ∃ out : Outcome α,
      (∀ fuel, doRequest w c method path body result (fuel + 1) net = some out)
      ∧ out.net.slept = net.slept
      ∧ (out.net.sent = net.sent ∨ out.net.sent = net.sent ++ [c.request method path body]) := by
  cases hsrv : w.server net.sent (c.request method path body) with
  | invalid cause =>
    refine ⟨{ err := some (.plain ("failed to create request: " ++ cause)), value := none,
              net := net }, fun fuel => ?_, rfl, Or.inl rfl⟩
    simp only [doRequest, hsrv]
  | failed cause =>
    refine ⟨{ err := some (.plain ("request failed: " ++ cause)), value := none,
              net := { net with sent := net.sent ++ [c.request method path body] } },
      fun fuel => ?_, rfl, Or.inr rfl⟩
    simp only [doRequest, hsrv]
  | answered resp =>
    rw [hsrv] at hlast
    by_cases h429 : resp.StatusCode = 429
    · have hparse : Atoi resp.retryAfter = none := by
        cases hp : Atoi resp.retryAfter with
        | none => rfl
        | some seconds => simp [Reply.retried, h429, hp] at hlast
      exact ⟨_, fun fuel => doRequest_rate_limit_terminal w c method path body result fuel net
        resp hsrv h429 hparse, rfl, Or.inr rfl⟩
    · cases hread : resp.readError with
      | some cause =>
        refine ⟨{ err := some (.plain ("failed to read response body: " ++ cause)),
                  value := none,
                  net := { net with sent := net.sent ++ [c.request method path body] } },
          fun fuel => ?_, rfl, Or.inr rfl⟩
        simp only [doRequest, hsrv, h429, hread, if_false]
      | none =>
        by_cases hstatus : resp.StatusCode < 200 ∨ resp.StatusCode ≥ 300
        · exact ⟨_, fun fuel => doRequest_error_response w c method path body result fuel net
            resp hsrv h429 hread hstatus, rfl, Or.inr rfl⟩
        · cases result with
          | none =>
            refine ⟨{ err := none, value := none,
                      net := { net with sent := net.sent ++ [c.request method path body] } },
              fun fuel => ?_, rfl, Or.inr rfl⟩
            simp only [doRequest, hsrv, h429, hread, hstatus, if_false]
          | some dest =>
            by_cases hbody : resp.body ≠ ""
            · cases hdec : resp.json >>= dest.decode with
              | error cause =>
                refine ⟨{ err := some (.plain ("failed to unmarshal response: " ++ cause)),
                          value := none,
                          net := { net with sent := net.sent ++ [c.request method path body] } },
                  fun fuel => ?_, rfl, Or.inr rfl⟩
                simp only [doRequest, hsrv, h429, hread, hstatus, hdec, if_false, if_pos hbody]
              | ok v =>
                refine ⟨{ err := none, value := some v,
                          net := { net with sent := net.sent ++ [c.request method path body] } },
                  fun fuel => ?_, rfl, Or.inr rfl⟩
                simp only [doRequest, hsrv, h429, hread, hstatus, hdec, if_false, if_pos hbody]
            · refine ⟨{ err := none, value := none,
                        net := { net with sent := net.sent ++ [c.request method path body] } },
                fun fuel => ?_, rfl, Or.inr rfl⟩
              simp only [doRequest, hsrv, h429, hread, hstatus, if_false, if_neg hbody]

/-- C7 (amended): `doRequest` has no bound on its retries. When the server
answers the first `n` attempts with a 429 that carries a parsable
`Retry-After` and the next attempt with anything else, the call does not
return within `n` attempts and returns at attempt `n + 1`, having slept
exactly `n` times and sent the same request `n` or `n + 1` times; this holds
for every `n`. -/
theorem doRequest_waits_once_per_retried_reply {α : Type} (w : World) (c : Client)
    (method path : String) (body : Option JVal) (result : Option (Dest α)) (n : Nat) (net : Net)
    (hretry : ∀ i, i < n →
      (w.server (net.sent ++ List.replicate i (c.request method path body))
        (c.request method path body)).retried = true)
    (hlast : (w.server (net.sent ++ List.replicate n (c.request method path body))
        (c.request method path body)).retried = false) :
    (∀ fuel, fuel ≤ n → doRequest w c method path body result fuel net = none)
    ∧ ∃ out : Outcome α,
        (∀ fuel, n < fuel → doRequest w c method path body result fuel net = some out)
        ∧ out.net.slept.length = net.slept.length + n
        ∧ (out.net.sent = net.sent ++ List.replicate n (c.request method path body)
            ∨ out.net.sent = net.sent ++ List.replicate (n + 1) (c.request method path body)) := by
  induction n generalizing net with
  | zero =>
    simp only [List.replicate_zero, List.append_nil] at hlast
    obtain ⟨out, hout, hslept, hsent⟩ := doRequest_returns w c method path body result net hlast
    refine ⟨?_, out, ?_, ?_, ?_⟩
    · intro fuel hfuel
      have : fuel = 0 := Nat.le_zero.mp hfuel
      subst this
      rfl
    · intro fuel hfuel
      obtain ⟨k, rfl⟩ : ∃ k, fuel = k + 1 := ⟨fuel - 1, by omega⟩
      exact hout k
    · rw [hslept]; rfl
    · simpa using hsent
  | succ n ih =>
    have h0 := hretry 0 (Nat.succ_pos n)
    simp only [List.replicate_zero, List.append_nil] at h0
    obtain ⟨resp, seconds, hsrv, h429, hparse⟩ := (Reply.retried_iff _).mp h0
    have hshift : ∀ i, (net.sent ++ [c.request method path body])
        ++ List.replicate i (c.request method path body)
        = net.sent ++ List.replicate (i + 1) (c.request method path body) := by
      intro i
      rw [List.append_assoc, List.replicate_succ]
      rfl
    obtain ⟨hnone, out, hout, hslept, hsent⟩ := ih
      { sent := net.sent ++ [c.request method path body],
        slept := net.slept ++ [secondsDuration seconds] }
      (fun i hi => by
        show (w.server ((net.sent ++ [c.request method path body])
          ++ List.replicate i (c.request method path body)) _).retried = true
        rw [hshift i]
        exact hretry (i + 1) (Nat.succ_lt_succ hi))
      (by
        show (w.server ((net.sent ++ [c.request method path body])
          ++ List.replicate n (c.request method path body)) _).retried = false
        rw [hshift n]
        exact hlast)
    refine ⟨?_, out, ?_, ?_, ?_⟩
    · intro fuel hfuel
      cases fuel with
      | zero => rfl
      | succ k =>
        rw [doRequest_retry w c method path body result k net resp seconds hsrv h429 hparse]
        exact hnone k (Nat.le_of_succ_le_succ hfuel)
    · intro fuel hfuel
      obtain ⟨k, rfl⟩ : ∃ k, fuel = k + 1 := ⟨fuel - 1, by omega⟩
      rw [doRequest_retry w c method path body result k net resp seconds hsrv h429 hparse]
      exact hout k (Nat.lt_of_succ_lt_succ hfuel)
    · rw [hslept]
      simp only [List.length_append, List.length_singleton]
      omega
    · rcases hsent with h | h
      · left
        rw [h]
        exact hshift n
      · right
        rw [h]
        exact hshift (n + 1)

/-- C7 (witness): a server that answers 429 with `Retry-After: 1` twice and
then 200 makes the call sleep twice. -/
theorem doRequest_waits_once_per_retried_reply_witness :
    (∀ fuel, fuel ≤ 2 →
      doRequest
        (scriptWorld [.answered (rateLimited "1"), .answered (rateLimited "1")]
          (.answered (plainResponse 200 "" (.error "unexpected end of JSON input"))))
        exampleClient "GET" "/rest/api/3/field" none (some mapsDest) fuel Net.start = none)
    ∧ ∃ out : Outcome (List GoMap),
        (∀ fuel, 2 < fuel →
          doRequest
            (scriptWorld [.answered (rateLimited "1"), .answered (rateLimited "1")]
              (.answered (plainResponse 200 "" (.error "unexpected end of JSON input"))))
            exampleClient "GET" "/rest/api/3/field" none (some mapsDest) fuel Net.start = some out)
        ∧ out.net.slept.length = Net.start.slept.length + 2
        ∧ (out.net.sent = Net.start.sent
              ++ List.replicate 2 (exampleClient.request "GET" "/rest/api/3/field" none)
            ∨ out.net.sent = Net.start.sent
              ++ List.replicate (2 + 1) (exampleClient.request "GET" "/rest/api/3/field" none)) :=
  doRequest_waits_once_per_retried_reply
    (scriptWorld [.answered (rateLimited "1"), .answered (rateLimited "1")]
      (.answered (plainResponse 200 "" (.error "unexpected end of JSON input"))))
    exampleClient "GET" "/rest/api/3/field" none (some mapsDest) 2 Net.start
    (by
      intro i hi
      have : i = 0 ∨ i = 1 := by omega
      rcases this with rfl | rfl <;> decide)
    (by decide)

theorem doRequest_never_returns_on_constant_429 {α : Type} (c : Client) (method path : String)
    (body : Option JVal) (result : Option (Dest α)) (fuel : Nat) (net : Net) :
    doRequest (constWorld (.answered (rateLimited "1"))) c method path body result fuel net
      = none := by
  induction fuel generalizing net with
  | zero => rfl
  | succ k ih =>
    rw [doRequest_retry (constWorld (.answered (rateLimited "1"))) c method path body result k net
      (rateLimited "1") 1 rfl rfl (by decide)]
    exact ih _

/-- C7 (counterexample): against a server that answers 429 with
`Retry-After: 1` six times and then 200, one call sleeps six times, more than
the bound of five; against a server that always answers so, the call never
returns, whatever the fuel. -/
theorem doRequest_retries_unbounded :
    (doRequest
        (scriptWorld (List.replicate 6 (.answered (rateLimited "1")))
          (.answered (plainResponse 200 "" (.error "unexpected end of JSON input"))))
        exampleClient "GET" "/rest/api/3/field" none (some mapsDest) 7 Net.start).map
        (fun out => (out.net.slept.length, out.net.sent.length, out.err.isNone))
      = some (6, 7, true)
    ∧ ∀ fuel,
        doRequest (constWorld (.answered (rateLimited "1")))
          exampleClient "GET" "/rest/api/3/field" none (some mapsDest) fuel Net.start = none :=
  ⟨by decide, fun fuel => doRequest_never_returns_on_constant_429 _ _ _ _ _ fuel _⟩

/-- C9 (counterexample): for an HTTP 400 whose body carries the message
`Invalid request` and the field error `name: Name is required`, the text of
the error is the first message alone, whatever entry the runtime picks; the
field name `name` and its message do not occur in it. With two field errors
and no message the text names one field and not the other. -/
theorem doRequest_field_errors_not_all_surfaced :
    (∀ pick,
      (doRequest (constWorld (.answered (plainResponse 400 validationBody (.ok validationJSON))))
          exampleClient "POST" "/rest/api/3/issuetype" none (some mapDest) 1 Net.start).map
          (fun out => out.err.map (fun e => e.Error pick))
        = some (some "JIRA API error (HTTP 400): Invalid request"))
    ∧ ¬ ("name".toList <:+: "JIRA API error (HTTP 400): Invalid request".toList)
    ∧ ¬ ("Name is required".toList <:+: "JIRA API error (HTTP 400): Invalid request".toList)
    ∧ (doRequest (constWorld (.answered (plainResponse 400 twoFieldsBody (.ok twoFieldsJSON))))
          exampleClient "POST" "/rest/api/3/issuetype" none (some mapDest) 1 Net.start).map
          (fun out => out.err.map (fun e => e.Error 0))
        = some (some "JIRA API error (HTTP 400): name: Name is required")
    ∧ ¬ ("type".toList <:+: "JIRA API error (HTTP 400): name: Name is required".toList) := by
  refine ⟨fun pick => rfl, by decide, by decide, by decide, by decide⟩

/-- C9 (amended): for a 4xx response other than 429 whose body decodes to at
least one field error and keeps the status, `doRequest` returns the decoded
`APIError` after the one request. When `errorMessages` is empty its text is
`JIRA API error (HTTP <status>): <field>: <message>` for one entry of the
`errors` map, the entry itself when the map has one entry; when
`errorMessages` is not empty the text carries its first message instead. -/
theorem doRequest_surfaces_one_field_error {α : Type} (w : World) (c : Client)
    (method path : String) (body : Option JVal) (result : Option (Dest α)) (fuel : Nat)
    (net : Net) (resp : Response)
    (hsrv : w.server net.sent (c.request method path body) = Reply.answered resp)
    (h4xx : 400 ≤ resp.StatusCode ∧ resp.StatusCode < 500) (h429 : resp.StatusCode ≠ 429)
    (hread : resp.readError = none)
    (hcode : (decodedError w resp).StatusCode = resp.StatusCode)
    (hfields : (decodedError w resp).Errors ≠ []) :
    doRequest w c method path body result (fuel + 1) net
      = some { err := some (.api (decodedError w resp)), value := none,
               net := { net with sent := net.sent ++ [c.request method path body] } }
    ∧ ((decodedError w resp).ErrorMessages = [] →
        ∀ pick, ∃ k v, (k, v) ∈ (decodedError w resp).Errors ∧
          (GoError.api (decodedError w resp)).Error pick
            = "JIRA API error (HTTP " ++ fmtD resp.StatusCode ++ "): " ++ k ++ ": " ++ v)
    ∧ (∀ k v, (decodedError w resp).ErrorMessages = [] → (decodedError w resp).Errors = [(k, v)] →
        ∀ pick, (GoError.api (decodedError w resp)).Error pick
          = "JIRA API error (HTTP " ++ fmtD resp.StatusCode ++ "): " ++ k ++ ": " ++ v)
    ∧ (∀ m ms, (decodedError w resp).ErrorMessages = m :: ms →
        ∀ pick, (GoError.api (decodedError w resp)).Error pick
          = "JIRA API error (HTTP " ++ fmtD resp.StatusCode ++ "): " ++ m) := by
  have hstatus : resp.StatusCode < 200 ∨ resp.StatusCode ≥ 300 := Or.inr (by omega)
  have hfield : ∀ pick, (decodedError w resp).ErrorMessages = [] →
      ∃ k v, (k, v) ∈ (decodedError w resp).Errors ∧
        (GoError.api (decodedError w resp)).Error pick
          = "JIRA API error (HTTP " ++ fmtD resp.StatusCode ++ "): " ++ k ++ ": " ++ v := by
    intro pick hm
    obtain ⟨k, v, hmem, htext⟩ := APIError.Error_of_field (decodedError w resp) pick hm hfields
    rw [hcode] at htext
    exact ⟨k, v, hmem, htext⟩
  refine ⟨?_, fun hm pick => hfield pick hm, ?_, ?_⟩
  · rw [doRequest_error_response w c method path body result fuel net resp hsrv h429 hread hstatus,
      responseError_of_message w resp hcode (Or.inr hfields)]
  · intro k v hm hone pick
    obtain ⟨k', v', hmem, htext⟩ := hfield pick hm
    rw [hone, List.mem_singleton] at hmem
    cases hmem
    exact htext
  · intro m ms hm pick
    have := APIError.Error_of_message (decodedError w resp) pick m ms hm
    rw [hcode] at this
    exact this

/-- C9 (witness): an HTTP 400 with the one field error `name: Name is required`. -/
theorem doRequest_surfaces_one_field_error_witness :
    doRequest (constWorld (.answered (plainResponse 400 oneFieldBody (.ok oneFieldJSON))))
        exampleClient "POST" "/rest/api/3/issuetype" none (some mapDest) (0 + 1) Net.start
      = some { err := some (.api (decodedError
                  (constWorld (.answered (plainResponse 400 oneFieldBody (.ok oneFieldJSON))))
                  (plainResponse 400 oneFieldBody (.ok oneFieldJSON)))),
               value := none,
               net := { Net.start with sent := Net.start.sent
                          ++ [exampleClient.request "POST" "/rest/api/3/issuetype" none] } }
    ∧ (GoError.api (decodedError
          (constWorld (.answered (plainResponse 400 oneFieldBody (.ok oneFieldJSON))))
          (plainResponse 400 oneFieldBody (.ok oneFieldJSON)))).Error 7
        = "JIRA API error (HTTP " ++ fmtD 400 ++ "): " ++ "name" ++ ": " ++ "Name is required" :=
  have h := doRequest_surfaces_one_field_error
    (constWorld (.answered (plainResponse 400 oneFieldBody (.ok oneFieldJSON))))
    exampleClient "POST" "/rest/api/3/issuetype" none (some mapDest) 0 Net.start
    (plainResponse 400 oneFieldBody (.ok oneFieldJSON)) rfl (by decide) (by decide) rfl rfl
    (by decide)
  ⟨h.1, h.2.2.1 "name" "Name is required" rfl rfl 7⟩

/-! ### Read of the resources -/

/-- A 404 that `doRequest` delivers as an `APIError`: the body is empty, or it
decodes to a message or a field error and keeps the status. -/
theorem Client.Get_api_404 {α : Type} (w : World) (c : Client) (path : String)
    (result : Option (Dest α)) (fuel : Nat) (net : Net) (resp : Response)
    (hsrv : w.server net.sent (c.request "GET" path none) = Reply.answered resp)
    (h404 : resp.StatusCode = 404) (hread : resp.readError = none)
    (hdeliver : resp.body = "" ∨ ((decodedError w resp).StatusCode = 404
      ∧ ((decodedError w resp).ErrorMessages ≠ [] ∨ (decodedError w resp).Errors ≠ []))) :
    ∃ e : APIError, e.StatusCode = 404 ∧
      Client.Get w c path result (fuel + 1) net
        = some { err := some (.api e), value := none,
                 net := { net with sent := net.sent ++ [c.request "GET" path none] } } := by
  have h429 : resp.StatusCode ≠ 429 := by omega
  have hstatus : resp.StatusCode < 200 ∨ resp.StatusCode ≥ 300 := Or.inr (by omega)
  have hget := doRequest_error_response w c "GET" path none result fuel net resp hsrv h429 hread
    hstatus
  rcases hdeliver with hbody | ⟨hcode, hmsg⟩
  · refine ⟨{ StatusCode := resp.StatusCode, ErrorMessages := [], Errors := [] }, h404, ?_⟩
    rw [Client.Get, hget, responseError_of_empty_body w resp hbody]
  · refine ⟨decodedError w resp, hcode, ?_⟩
    rw [Client.Get, hget, responseError_of_message w resp (hcode.trans h404.symm) hmsg]

/-- C5 (counterexample): the custom field `Read` lists `/rest/api/3/field`;
when that fetch is answered with an HTTP 404 and an empty body the outcome is
the error diagnostic `Error reading custom fields`, not the absent signal. -/
theorem customField_read_404_reports_error :
    (ResourceKind.Read ResourceKind.customField
        (constWorld (.answered (plainResponse 404 "" (.error "unexpected end of JSON input"))))
        exampleClient exampleCustomField 1 Net.start).map
        (fun r => (r.1.isRemoved, r.1.diagnostic, r.2.sent.length))
      = some (false, some ("Error reading custom fields", "JIRA API error (HTTP 404)"), 1) := by
  decide

/-- C5 (amended): for every resource kind but the custom field, when the first
fetch of `Read` is answered with an HTTP 404 that `doRequest` delivers as an
`APIError` (the body is empty, or decodes to a message or field error and
keeps the status), `Read` yields the absent signal after that one request and
adds no diagnostic. The custom field `Read` reports `Error reading custom
fields` instead. -/
theorem read_absent_on_api_404 (k : ResourceKind) (w : World) (c : Client) (state : k.Model)
    (fuel : Nat) (net : Net) (resp : Response)
    (hsrv : w.server net.sent (c.request "GET" (k.readPath state) none) = Reply.answered resp)
    (h404 : resp.StatusCode = 404) (hread : resp.readError = none)
    (hdeliver : resp.body = "" ∨ ((decodedError w resp).StatusCode = 404
      ∧ ((decodedError w resp).ErrorMessages ≠ [] ∨ (decodedError w resp).Errors ≠ []))) :
    (k ≠ ResourceKind.customField →
      k.Read w c state (fuel + 1) net
        = some (Result.removed,
            { net with sent := net.sent ++ [c.request "GET" (k.readPath state) none] }))
    ∧ (k = ResourceKind.customField →
      ∃ detail, k.Read w c state (fuel + 1) net
        = some (Result.failed "Error reading custom fields" detail,
            { net with sent := net.sent ++ [c.request "GET" (k.readPath state) none] })) := by
  have hget : ∀ {α : Type} (result : Option (Dest α)), ∃ e : APIError, e.StatusCode = 404 ∧
      Client.Get w c (k.readPath state) result (fuel + 1) net
        = some { err := some (.api e), value := none,
                 net := { net with sent := net.sent ++ [c.request "GET" (k.readPath state) none] } } :=
    fun result => Client.Get_api_404 w c _ result fuel net resp hsrv h404 hread hdeliver
  cases k with
  | customField =>
    refine ⟨fun h => absurd rfl h, fun _ => ?_⟩
    obtain ⟨e, _, hg⟩ := hget (some mapsDest)
    refine ⟨(GoError.api e).Error w.pick, ?_⟩
    simp only [ResourceKind.readPath] at hg
    simp only [ResourceKind.Read, CustomFieldResource.Read, ResourceKind.readPath, hg]
  | automationRule =>
    refine ⟨fun _ => ?_, fun h => by cases h⟩
    obtain ⟨e, he, hg⟩ := hget (some mapDest)
    simp only [ResourceKind.readPath] at hg
    simp only [ResourceKind.Read, AutomationRuleResource.Read, ResourceKind.readPath, hg,
      IsNotFound, he, decide_True, if_true]
  | group =>
    refine ⟨fun _ => ?_, fun h => by cases h⟩
    obtain ⟨e, he, hg⟩ := hget (some mapDest)
    simp only [ResourceKind.readPath] at hg
    simp only [ResourceKind.Read, GroupResource.Read, ResourceKind.readPath, hg,
      IsNotFound, he, decide_True, if_true]
  | groupMembership =>
    refine ⟨fun _ => ?_, fun h => by cases h⟩
    obtain ⟨e, he, hg⟩ := hget (some mapDest)
    simp only [ResourceKind.readPath] at hg
    simp only [ResourceKind.Read, GroupMembershipResource.Read, ResourceKind.readPath, hg,
      IsNotFound, he, decide_True, if_true]
  | issueType =>
    refine ⟨fun _ => ?_, fun h => by cases h⟩
    obtain ⟨e, he, hg⟩ := hget (some mapDest)
    simp only [ResourceKind.readPath] at hg
    simp only [ResourceKind.Read, IssueTypeResource.Read, ResourceKind.readPath, hg,
      IsNotFound, he, decide_True, if_true]
  | issueTypeScheme =>
    refine ⟨fun _ => ?_, fun h => by cases h⟩
    obtain ⟨e, he, hg⟩ := hget (some mapDest)
    simp only [ResourceKind.readPath] at hg
    simp only [ResourceKind.Read, IssueTypeSchemeResource.Read, ResourceKind.readPath, hg,
      IsNotFound, he, decide_True, if_true]
  | permissionScheme =>
    refine ⟨fun _ => ?_, fun h => by cases h⟩
    obtain ⟨e, he, hg⟩ := hget (some mapDest)
    simp only [ResourceKind.readPath] at hg
    simp only [ResourceKind.Read, PermissionSchemeResource.Read, ResourceKind.readPath, hg,
      IsNotFound, he, decide_True, if_true]
  | project =>
    refine ⟨fun _ => ?_, fun h => by cases h⟩
    obtain ⟨e, he, hg⟩ := hget (some mapDest)
    simp only [ResourceKind.readPath] at hg
    simp only [ResourceKind.Read, ProjectResource.Read, ResourceKind.readPath, hg,
      IsNotFound, he, decide_True, if_true]
  | projectComponent =>
    refine ⟨fun _ => ?_, fun h => by cases h⟩
    obtain ⟨e, he, hg⟩ := hget (some mapDest)
    simp only [ResourceKind.readPath] at hg
    simp only [ResourceKind.Read, ProjectComponentResource.Read, ResourceKind.readPath, hg,
      IsNotFound, he, decide_True, if_true]
  | workflowScheme =>
    refine ⟨fun _ => ?_, fun h => by cases h⟩
    obtain ⟨e, he, hg⟩ := hget (some mapDest)
    simp only [ResourceKind.readPath] at hg
    simp only [ResourceKind.Read, WorkflowSchemeResource.Read, ResourceKind.readPath, hg,
      IsNotFound, he, decide_True, if_true]

/-- C5 (witness): an issue type whose fetch is answered with an HTTP 404
carrying the message `Issue type not found`. -/
theorem read_absent_on_api_404_witness :
    ResourceKind.Read ResourceKind.issueType
        (constWorld (.answered (plainResponse 404 messageBody (.ok messageJSON))))
        exampleClient exampleIssueType (0 + 1) Net.start
      = some (Result.removed,
          { Net.start with sent := Net.start.sent
              ++ [exampleClient.request "GET"
                    (ResourceKind.readPath ResourceKind.issueType exampleIssueType) none] }) :=
  (read_absent_on_api_404 ResourceKind.issueType
    (constWorld (.answered (plainResponse 404 messageBody (.ok messageJSON))))
    exampleClient exampleIssueType 0 Net.start (plainResponse 404 messageBody (.ok messageJSON))
    rfl rfl rfl (Or.inr ⟨by decide, Or.inl (by decide)⟩)).1 (fun h => by cases h)

/-! ### Read of the data sources -/

theorem Tf.given_iff (x : TfString) :
    (!x.IsNull && !x.IsUnknown && decide (x.ValueString ≠ "")) = true ↔ x.Given := by
  cases x with
  | null => simp [Tf.IsNull, Tf.Given]
  | unknown => simp [Tf.IsUnknown, Tf.IsNull, Tf.Given]
  | value s => simp [Tf.IsNull, Tf.IsUnknown, Tf.ValueString, Tf.Given]

theorem Tf.not_given_iff (x : TfString) :
    (!x.IsNull && !x.IsUnknown && decide (x.ValueString ≠ "")) = false ↔ ¬ x.Given := by
  rw [← Tf.given_iff]
  simp

/-- C10: for the group, issue type, issue type scheme and permission scheme
data sources, a `Read` whose configuration gives both a non-empty id and a
non-empty name adds the error `Ambiguous input`, one that gives neither adds
`Missing input`; in both cases the effects are those before the call (no
request is made, whatever the fuel). -/
theorem datasource_read_rejects_both_or_neither (w : World) (c : Client) (fuel : Nat) (net : Net) :
    (∀ config : GroupDataSourceModel,
      (config.ID.Given ∧ config.Name.Given →
        GroupDataSource.Read w c config fuel net
          = some (.failed "Ambiguous input" "Specify only one of id or name.", net))
      ∧ (¬ config.ID.Given ∧ ¬ config.Name.Given →
        GroupDataSource.Read w c config fuel net
          = some (.failed "Missing input" "Either id or name must be specified.", net)))
    ∧ (∀ config : IssueTypeDataSourceModel,
      (config.ID.Given ∧ config.Name.Given →
        IssueTypeDataSource.Read w c config fuel net
          = some (.failed "Ambiguous input" "Specify only one of id or name.", net))
      ∧ (¬ config.ID.Given ∧ ¬ config.Name.Given →
        IssueTypeDataSource.Read w c config fuel net
          = some (.failed "Missing input" "Either id or name must be specified.", net)))
    ∧ (∀ config : IssueTypeSchemeDataSourceModel,
      (config.ID.Given ∧ config.Name.Given →
        IssueTypeSchemeDataSource.Read w c config fuel net
          = some (.failed "Ambiguous input" "Specify only one of id or name.", net))
      ∧ (¬ config.ID.Given ∧ ¬ config.Name.Given →
        IssueTypeSchemeDataSource.Read w c config fuel net
          = some (.failed "Missing input" "Either id or name must be specified.", net)))
    ∧ (∀ config : PermissionSchemeDataSourceModel,
      (config.ID.Given ∧ config.Name.Given →
        PermissionSchemeDataSource.Read w c config fuel net
          = some (.failed "Ambiguous input" "Specify only one of id or name.", net))
      ∧ (¬ config.ID.Given ∧ ¬ config.Name.Given →
        PermissionSchemeDataSource.Read w c config fuel net
          = some (.failed "Missing input" "Either id or name must be specified.", net))) := by
  refine ⟨fun config => ⟨?_, ?_⟩, fun config => ⟨?_, ?_⟩, fun config => ⟨?_, ?_⟩,
    fun config => ⟨?_, ?_⟩⟩
  · rintro ⟨hid, hname⟩
    simp only [GroupDataSource.Read, (Tf.given_iff _).mpr hid, (Tf.given_iff _).mpr hname]
    rfl
  · rintro ⟨hid, hname⟩
    simp only [GroupDataSource.Read, (Tf.not_given_iff _).mpr hid, (Tf.not_given_iff _).mpr hname]
    rfl
  · rintro ⟨hid, hname⟩
    simp only [IssueTypeDataSource.Read, (Tf.given_iff _).mpr hid, (Tf.given_iff _).mpr hname]
    rfl
  · rintro ⟨hid, hname⟩
    simp only [IssueTypeDataSource.Read, (Tf.not_given_iff _).mpr hid,
      (Tf.not_given_iff _).mpr hname]
    rfl
  · rintro ⟨hid, hname⟩
    simp only [IssueTypeSchemeDataSource.Read, (Tf.given_iff _).mpr hid,
      (Tf.given_iff _).mpr hname]
    rfl
  · rintro ⟨hid, hname⟩
    simp only [IssueTypeSchemeDataSource.Read, (Tf.not_given_iff _).mpr hid,
      (Tf.not_given_iff _).mpr hname]
    rfl
  · rintro ⟨hid, hname⟩
    simp only [PermissionSchemeDataSource.Read, (Tf.given_iff _).mpr hid,
      (Tf.given_iff _).mpr hname]
    rfl
  · rintro ⟨hid, hname⟩
    simp only [PermissionSchemeDataSource.Read, (Tf.not_given_iff _).mpr hid,
      (Tf.not_given_iff _).mpr hname]
    rfl

/-- C10 (witness): a group configuration with both an id and a name, an issue
type configuration with neither, an issue type scheme configuration whose two
values are empty, and a permission scheme configuration with both. -/
theorem datasource_read_rejects_both_or_neither_witness :
    GroupDataSource.Read (constWorld (.failed "no route to host")) exampleClient
        { ID := .value "276f955c-63d7-42c8-9520-92d01dca0625", Name := .value "jira-admins" }
        0 Net.start
      = some (.failed "Ambiguous input" "Specify only one of id or name.", Net.start)
    ∧ IssueTypeDataSource.Read (constWorld (.failed "no route to host")) exampleClient
        { ID := .null, Name := .unknown, Description := .null, Type_ := .null } 0 Net.start
      = some (.failed "Missing input" "Either id or name must be specified.", Net.start)
    ∧ IssueTypeSchemeDataSource.Read (constWorld (.failed "no route to host")) exampleClient
        { ID := .value "", Name := .value "", Description := .null } 0 Net.start
      = some (.failed "Missing input" "Either id or name must be specified.", Net.start)
    ∧ PermissionSchemeDataSource.Read (constWorld (.failed "no route to host")) exampleClient
        { ID := .value "10000", Name := .value "Default Permission Scheme", Description := .null }
        0 Net.start
      = some (.failed "Ambiguous input" "Specify only one of id or name.", Net.start) :=
  have h := datasource_read_rejects_both_or_neither (constWorld (.failed "no route to host"))
    exampleClient 0 Net.start
  ⟨(h.1 _).1 ⟨⟨_, rfl, by decide⟩, ⟨_, rfl, by decide⟩⟩,
   (h.2.1 _).2 ⟨fun ⟨_, hs, _⟩ => (by cases hs), fun ⟨_, hs, _⟩ => (by cases hs)⟩,
   (h.2.2.1 _).2 ⟨fun ⟨_, hs, hne⟩ => (by cases hs; exact hne rfl),
     fun ⟨_, hs, hne⟩ => (by cases hs; exact hne rfl)⟩,
   (h.2.2.2 _).1 ⟨⟨_, rfl, by decide⟩, ⟨_, rfl, by decide⟩⟩⟩

/-! ### Resolution by name: the issue type data source -/

/-- C11 (counterexample): the listing has the single entry `Bug`, which
matches the requested name `bug`. When that entry carries a `scope`, `Read`
reports `Issue type not found` after the listing alone; when it does not and
the detail fetch is answered with an HTTP 500, `Read` reports the same after
the two requests. -/
theorem issueType_read_single_match_rejected :
    (IssueTypeDataSource.Read
        (constWorld (.answered (plainResponse 200 scopedListingBody (.ok scopedListingJSON))))
        exampleClient bugByName 2 Net.start).map
        (fun r => (r.1.diagnostic, r.2.sent.length))
      = some (some ("Issue type not found",
          "No global (classic) issue type with name 'bug' found; only project-scoped (next-gen) types exist."),
          1)
    ∧ (IssueTypeDataSource.Read
        (scriptWorld [.answered (plainResponse 200 globalListingBody (.ok globalListingJSON))]
          (.answered (plainResponse 500 "" (.error "unexpected end of JSON input"))))
        exampleClient bugByName 2 Net.start).map
        (fun r => (r.1.diagnostic, r.2.sent.length))
      = some (some ("Issue type not found",
          "No global (classic) issue type with name 'bug' found; only project-scoped (next-gen) types exist."),
          2) := by
  constructor <;> decide

/-- The by-name branch of `IssueTypeDataSource.Read`, once the listing has
been fetched without error: no match gives `noMatch`, otherwise the outcome is
that of `selectGlobalIssueType` on the matches. -/
theorem IssueTypeDataSource.Read_by_name (w : World) (c : Client)
    (config : IssueTypeDataSourceModel) (fuel : Nat) (net : Net) (out : Outcome (List GoMap))
    (hid : ¬ config.ID.Given) (hname : config.Name.Given)
    (hlist : Client.Get w c "/rest/api/3/issuetype" (some mapsDest) fuel net = some out)
    (hok : out.err = none) :
    IssueTypeDataSource.Read w c config fuel net =
      if (nameMatches w.fold config.Name.ValueString (out.value.getD mapsDest.zero)).length = 0
      then some (IssueTypeDataSource.noMatch config.Name.ValueString, out.net)
      else
        match IssueTypeDataSource.selectGlobalIssueType w c
            (nameMatches w.fold config.Name.ValueString (out.value.getD mapsDest.zero))
            fuel out.net with
        | none => none
        | some (none, net2) => some (IssueTypeDataSource.noGlobal config.Name.ValueString, net2)
        | some (issueType, net2) =>
          some (.stored (IssueTypeDataSource.fill config issueType), net2) := by
  have h1 := (Tf.not_given_iff _).mpr hid
  have h2 := (Tf.given_iff _).mpr hname
  simp only [IssueTypeDataSource.Read, h1, h2, hlist, hok]
  rfl

theorem IssueTypeDataSource.fill_ID_Name (config : IssueTypeDataSourceModel) (issueType : GoMap) :
    (IssueTypeDataSource.fill config issueType).ID = Tf.value (fmtV (issueType.get? "id"))
    ∧ (IssueTypeDataSource.fill config issueType).Name
        = Tf.value (fmtV (issueType.get? "name")) := by
  simp only [IssueTypeDataSource.fill]
  repeat' split
  all_goals exact ⟨rfl, rfl⟩

/-- C11 (amended): when the listing has exactly one entry whose name matches
the requested one up to case, `Read` succeeds exactly as far as
`selectGlobalIssueType` keeps that entry. If the entry carries a `scope`, or
its detail fetch fails, or the detail fetched carries a `scope`, `Read`
reports `Issue type not found` (no global issue type). If the entry has no
`scope` and its detail fetch yields a payload without `scope`, `Read` stores
the id and the name of that detail payload. -/
theorem issueType_read_single_match (w : World) (c : Client)
    (config : IssueTypeDataSourceModel) (fuel : Nat) (net : Net) (out : Outcome (List GoMap))
    (it : GoMap)
    (hid : ¬ config.ID.Given) (hname : config.Name.Given)
    (hlist : Client.Get w c "/rest/api/3/issuetype" (some mapsDest) fuel net = some out)
    (hok : out.err = none)
    (hone : nameMatches w.fold config.Name.ValueString (out.value.getD mapsDest.zero) = [it]) :
    (IsProjectScoped it = true →
      IssueTypeDataSource.Read w c config fuel net
        = some (IssueTypeDataSource.noGlobal config.Name.ValueString, out.net))
    ∧ (IsProjectScoped it = false →
        ∀ detail : Outcome GoMap,
          Client.Get w c ("/rest/api/3/issuetype/" ++ fmtV (GoMap.get? it "id")) (some mapDest)
            fuel out.net = some detail →
          (detail.err ≠ none →
            IssueTypeDataSource.Read w c config fuel net
              = some (IssueTypeDataSource.noGlobal config.Name.ValueString, detail.net))
          ∧ (detail.err = none → IsProjectScoped (detail.value.getD mapDest.zero) = true →
            IssueTypeDataSource.Read w c config fuel net
              = some (IssueTypeDataSource.noGlobal config.Name.ValueString, detail.net))
          ∧ (∀ full : Members, detail.err = none → detail.value.getD mapDest.zero = some full →
              IsProjectScoped (some full) = false →
              IssueTypeDataSource.Read w c config fuel net
                = some (.stored (IssueTypeDataSource.fill config (some full)), detail.net)
              ∧ (IssueTypeDataSource.fill config (some full)).ID
                  = Tf.value (fmtV (Members.get? full "id"))
              ∧ (IssueTypeDataSource.fill config (some full)).Name
                  = Tf.value (fmtV (Members.get? full "name")))) := by
  have hread := IssueTypeDataSource.Read_by_name w c config fuel net out hid hname hlist hok
  rw [hone] at hread
  simp only [List.length_singleton, Nat.succ_ne_zero, if_false] at hread
  refine ⟨fun hscoped => ?_, fun hscoped detail hdetail => ⟨fun herr => ?_, fun herr hs => ?_,
    fun full herr hfull hs => ⟨?_, ?_, ?_⟩⟩⟩
  · rw [hread]
    simp only [IssueTypeDataSource.selectGlobalIssueType, hscoped, if_true]
  · rw [hread]
    obtain ⟨e, he⟩ := Option.ne_none_iff_exists'.mp herr
    simp only [IssueTypeDataSource.selectGlobalIssueType, hscoped, hdetail, he]
    simp
  · rw [hread]
    simp only [IssueTypeDataSource.selectGlobalIssueType, hscoped, hdetail, herr, hs]
    simp
  · rw [hread]
    simp only [IssueTypeDataSource.selectGlobalIssueType, hscoped, hdetail, herr, hfull, hs]
    simp
  · exact (IssueTypeDataSource.fill_ID_Name config (some full)).1
  · exact (IssueTypeDataSource.fill_ID_Name config (some full)).2

/-- C11 (witness): the listing has the single global type `Bug`; the name
`bug` resolves to the id and name of its detail payload after two requests. -/
theorem issueType_read_single_match_witness :
    IssueTypeDataSource.Read catalogWorld exampleClient bugByName 1 Net.start
      = some (.stored (IssueTypeDataSource.fill bugByName
            (some [("id", .str "10001"), ("name", .str "Bug"), ("subtask", .bool false)])),
          { sent := [exampleClient.request "GET" "/rest/api/3/issuetype" none,
                     exampleClient.request "GET" "/rest/api/3/issuetype/10001" none],
            slept := [] })
    ∧ (IssueTypeDataSource.fill bugByName
          (some [("id", .str "10001"), ("name", .str "Bug"), ("subtask", .bool false)])).ID
        = Tf.value (fmtV (Members.get?
            [("id", .str "10001"), ("name", .str "Bug"), ("subtask", .bool false)] "id")) :=
  have h := (issueType_read_single_match catalogWorld exampleClient bugByName 1 Net.start
    { err := none, value := some [some [("id", .str "10001"), ("name", .str "Bug")]],
      net := { sent := [exampleClient.request "GET" "/rest/api/3/issuetype" none], slept := [] } }
    (some [("id", .str "10001"), ("name", .str "Bug")])
    (fun ⟨_, hs, _⟩ => (by cases hs)) ⟨"bug", rfl, by decide⟩ rfl rfl rfl).2 rfl
    { err := none,
      value := some (some [("id", .str "10001"), ("name", .str "Bug"), ("subtask", .bool false)]),
      net := { sent := [exampleClient.request "GET" "/rest/api/3/issuetype" none,
                        exampleClient.request "GET" "/rest/api/3/issuetype/10001" none],
               slept := [] } }
    rfl
  have h3 := h.2.2 [("id", .str "10001"), ("name", .str "Bug"), ("subtask", .bool false)]
    rfl rfl rfl
  ⟨h3.1, h3.2.1⟩

/-- What `selectGlobalIssueType` returns when it returns a payload: the detail
of one of the candidates, fetched without error during the call, and without
`scope`; the candidate itself has no `scope`. -/
theorem IssueTypeDataSource.selectGlobalIssueType_some (w : World) (c : Client)
    (candidates : List GoMap) (fuel : Nat) (net net' : Net) (full : Members)
    (h : IssueTypeDataSource.selectGlobalIssueType w c candidates fuel net
      = some (some full, net')) :
    ∃ it ∈ candidates, ∃ (net1 : Net) (detail : Outcome GoMap),
      IsProjectScoped it = false
      ∧ Client.Get w c ("/rest/api/3/issuetype/" ++ fmtV (GoMap.get? it "id")) (some mapDest)
          fuel net1 = some detail
      ∧ detail.err = none ∧ detail.value.getD mapDest.zero = some full
      ∧ IsProjectScoped (some full) = false := by
  induction candidates generalizing net with
  | nil => simp [IssueTypeDataSource.selectGlobalIssueType] at h
  | cons it rest ih =>
    have lift : (∃ it' ∈ rest, ∃ (net1 : Net) (detail : Outcome GoMap),
        IsProjectScoped it' = false
        ∧ Client.Get w c ("/rest/api/3/issuetype/" ++ fmtV (GoMap.get? it' "id")) (some mapDest)
            fuel net1 = some detail
        ∧ detail.err = none ∧ detail.value.getD mapDest.zero = some full
        ∧ IsProjectScoped (some full) = false) →
        ∃ it' ∈ it :: rest, ∃ (net1 : Net) (detail : Outcome GoMap),
        IsProjectScoped it' = false
        ∧ Client.Get w c ("/rest/api/3/issuetype/" ++ fmtV (GoMap.get? it' "id")) (some mapDest)
            fuel net1 = some detail
        ∧ detail.err = none ∧ detail.value.getD mapDest.zero = some full
        ∧ IsProjectScoped (some full) = false := by
      rintro ⟨it', hmem, rest'⟩
      exact ⟨it', List.mem_cons_of_mem _ hmem, rest'⟩
    unfold IssueTypeDataSource.selectGlobalIssueType at h
    by_cases hscoped : IsProjectScoped it = true
    · rw [if_pos hscoped] at h
      exact lift (ih net h)
    · rw [if_neg hscoped] at h
      cases hget : Client.Get w c ("/rest/api/3/issuetype/" ++ fmtV (GoMap.get? it "id"))
          (some mapDest) fuel net with
      | none => rw [hget] at h; cases h
      | some detail =>
        rw [hget] at h
        cases herr : detail.err with
        | some e =>
          simp only [herr] at h
          exact lift (ih detail.net h)
        | none =>
          simp only [herr] at h
          by_cases hfull : IsProjectScoped (detail.value.getD mapDest.zero) = true
          · simp only [hfull, Bool.not_true, Bool.false_eq_true, if_false] at h
            exact lift (ih detail.net h)
          · have hf : IsProjectScoped (detail.value.getD mapDest.zero) = false := by
              simpa using hfull
            simp only [hf, Bool.not_false, if_true] at h
            have hv : detail.value.getD mapDest.zero = some full := by
              injection h with h
              exact congrArg Prod.fst h
            refine ⟨it, List.mem_cons_self _ _, net, detail, by simpa using hscoped, hget, herr,
              hv, ?_⟩
            rw [← hv]
            exact hf

/-- C12: the one candidate has no `scope`, its detail fetch is answered with
an HTTP 200 and an empty body, so the fetch succeeds and the payload, the nil
map, has no `scope`: the candidate qualifies, and `selectGlobalIssueType`
returns nil. With a second candidate whose detail is a global type, it still
returns nil after the first fetch and never looks at the second. -/
theorem selectGlobalIssueType_nil_for_qualifying_candidate :
    IsProjectScoped (some [("id", .str "10001"), ("name", .str "Bug")]) = false
    ∧ (Client.Get
        (constWorld (.answered (plainResponse 200 "" (.error "unexpected end of JSON input"))))
        exampleClient "/rest/api/3/issuetype/10001" (some mapDest) 1 Net.start).map
        (fun out => (out.err.isNone, IsProjectScoped (out.value.getD mapDest.zero)))
      = some (true, false)
    ∧ (IssueTypeDataSource.selectGlobalIssueType
        (constWorld (.answered (plainResponse 200 "" (.error "unexpected end of JSON input"))))
        exampleClient [some [("id", .str "10001"), ("name", .str "Bug")]] 1 Net.start).map
        (fun r => (r.1.isNone, r.2.sent.length))
      = some (true, 1)
    ∧ (IssueTypeDataSource.selectGlobalIssueType
        (scriptWorld [.answered (plainResponse 200 "" (.error "unexpected end of JSON input"))]
          (.answered (plainResponse 200 globalDetailBody (.ok globalDetailJSON))))
        exampleClient
        [some [("id", .str "10002"), ("name", .str "bug")],
         some [("id", .str "10001"), ("name", .str "Bug")]] 1 Net.start).map
        (fun r => (r.1.isNone, r.2.sent.length))
      = some (true, 1) := by
  refine ⟨by decide, by decide, by decide, by decide⟩

/-! ### Resolution by name: the scheme data sources -/

theorem IssueTypeSchemeDataSource.find_objects (fold : Char → Char) (wanted : String)
    (entries : List Members) :
    IssueTypeSchemeDataSource.find fold wanted (entries.map JVal.obj)
      = some (entries.find? (schemeNamed fold wanted)) := by
  induction entries with
  | nil => rfl
  | cons s rest ih =>
    simp only [List.map_cons, IssueTypeSchemeDataSource.find, asMap, List.find?_cons, schemeNamed]
    by_cases h : EqualFold fold (fmtV (Members.get? s "name")) wanted = true
    · simp only [h, if_true]
    · have hf : EqualFold fold (fmtV (Members.get? s "name")) wanted = false := by simpa using h
      simp only [hf, Bool.false_eq_true, if_false]
      exact ih

theorem find?_some_map (p : GoMap → Bool) (entries : List Members) :
    (entries.map some).find? p = (entries.find? (fun s => p (some s))).map some := by
  induction entries with
  | nil => rfl
  | cons s rest ih =>
    simp only [List.map_cons, List.find?_cons]
    cases p (some s) with
    | true => rfl
    | false => exact ih

/-- C13 (counterexample): the answer to the listing of issue type schemes is
the JSON object without `values`, so no entry has the requested name; `Read`
reports `Error listing issue type schemes` with the detail `Invalid response:
missing values.`, which is not the diagnostic for a name that is not found. -/
theorem issueTypeScheme_read_missing_values :
    (IssueTypeSchemeDataSource.Read
        (constWorld (.answered (plainResponse 200 "\x7b\x7d" (.ok (.obj [])))))
        exampleClient schemeByName 1 Net.start).map (fun r => r.1.diagnostic)
      = some (some ("Error listing issue type schemes", "Invalid response: missing values."))
    ∧ ("Error listing issue type schemes", "Invalid response: missing values.")
      ≠ ("Issue type scheme not found",
          "No issue type scheme with name 'default issue type scheme' found.") := by
  constructor <;> decide

theorem IssueTypeSchemeDataSource.Read_scheme_by_name (w : World) (c : Client)
    (config : IssueTypeSchemeDataSourceModel) (fuel : Nat) (net : Net) (out : Outcome GoMap)
    (hid : ¬ config.ID.Given) (hname : config.Name.Given)
    (hlist : Client.Get w c "/rest/api/3/issuetypescheme" (some mapDest) fuel net = some out)
    (hok : out.err = none) :
    IssueTypeSchemeDataSource.Read w c config fuel net =
      match asSlice ((out.value.getD mapDest.zero).get? "values") with
      | none =>
        some (.failed "Error listing issue type schemes" "Invalid response: missing values.",
          out.net)
      | some values =>
        match IssueTypeSchemeDataSource.find w.fold config.Name.ValueString values with
        | none => some (.panicked, out.net)
        | some none =>
          some (.failed "Issue type scheme not found"
            ("No issue type scheme with name '" ++ config.Name.ValueString ++ "' found."), out.net)
        | some (some scheme) =>
          some (.stored (IssueTypeSchemeDataSource.fill config (some scheme)), out.net) := by
  have h1 := (Tf.not_given_iff _).mpr hid
  have h2 := (Tf.given_iff _).mpr hname
  simp only [IssueTypeSchemeDataSource.Read, h1, h2, hlist, hok]
  rfl

theorem PermissionSchemeDataSource.Read_permission_scheme_by_name (w : World) (c : Client)
    (config : PermissionSchemeDataSourceModel) (fuel : Nat) (net : Net)
    (out : Outcome (List GoMap))
    (hid : ¬ config.ID.Given) (hname : config.Name.Given)
    (hlist : Client.Get w c "/rest/api/3/permissionscheme" (some (permissionSchemesDest w.fold))
      fuel net = some out)
    (hok : out.err = none) :
    PermissionSchemeDataSource.Read w c config fuel net =
      match (out.value.getD (permissionSchemesDest w.fold).zero).find?
          (fun s => EqualFold w.fold (fmtV (GoMap.get? s "name")) config.Name.ValueString) with
      | some (some scheme) =>
        some (.stored (PermissionSchemeDataSource.fill config (some scheme)), out.net)
      | _ =>
        some (.failed "Permission scheme not found"
          ("No permission scheme with name '" ++ config.Name.ValueString ++ "' found."), out.net) := by
  have h1 := (Tf.not_given_iff _).mpr hid
  have h2 := (Tf.given_iff _).mpr hname
  simp only [PermissionSchemeDataSource.Read, h1, h2, hlist, hok]
  rfl

/-- C13 (amended): resolving by name, the issue type scheme data source, given
a listing whose `values` is an array of objects, and the permission scheme
data source, given a listing decoded into schemes none of which is null, store
the first entry in listing order whose name matches the requested one up to
case, and report the name as not found exactly when no entry matches. When
the answer has no `values` array, the issue type scheme data source reports
`Invalid response: missing values.` instead. -/
theorem scheme_read_by_name_first_match (w : World) (c : Client) (fuel : Nat) (net : Net) :
    (∀ (config : IssueTypeSchemeDataSourceModel) (out : Outcome GoMap),
      ¬ config.ID.Given → config.Name.Given →
      Client.Get w c "/rest/api/3/issuetypescheme" (some mapDest) fuel net = some out →
      out.err = none →
      (∀ entries : List Members,
        asSlice ((out.value.getD mapDest.zero).get? "values") = some (entries.map JVal.obj) →
        (∀ s, entries.find? (schemeNamed w.fold config.Name.ValueString) = some s →
          IssueTypeSchemeDataSource.Read w c config fuel net
            = some (.stored (IssueTypeSchemeDataSource.fill config (some s)), out.net))
        ∧ (IssueTypeSchemeDataSource.Read w c config fuel net
            = some (.failed "Issue type scheme not found"
                ("No issue type scheme with name '" ++ config.Name.ValueString ++ "' found."),
                out.net)
          ↔ ∀ s ∈ entries, schemeNamed w.fold config.Name.ValueString s = false))
      ∧ (asSlice ((out.value.getD mapDest.zero).get? "values") = none →
          IssueTypeSchemeDataSource.Read w c config fuel net
            = some (.failed "Error listing issue type schemes"
                "Invalid response: missing values.", out.net)))
    ∧ (∀ (config : PermissionSchemeDataSourceModel) (out : Outcome (List GoMap))
        (entries : List Members),
      ¬ config.ID.Given → config.Name.Given →
      Client.Get w c "/rest/api/3/permissionscheme" (some (permissionSchemesDest w.fold))
        fuel net = some out →
      out.err = none →
      out.value.getD (permissionSchemesDest w.fold).zero = entries.map some →
      (∀ s, entries.find? (schemeNamed w.fold config.Name.ValueString) = some s →
        PermissionSchemeDataSource.Read w c config fuel net
          = some (.stored (PermissionSchemeDataSource.fill config (some s)), out.net))
      ∧ (PermissionSchemeDataSource.Read w c config fuel net
          = some (.failed "Permission scheme not found"
              ("No permission scheme with name '" ++ config.Name.ValueString ++ "' found."),
              out.net)
        ↔ ∀ s ∈ entries, schemeNamed w.fold config.Name.ValueString s = false)) := by
  constructor
  · intro config out hid hname hlist hok
    have hread := IssueTypeSchemeDataSource.Read_scheme_by_name w c config fuel net out hid hname
      hlist hok
    refine ⟨fun entries hvalues => ?_, fun hvalues => ?_⟩
    · rw [hvalues] at hread
      simp only [IssueTypeSchemeDataSource.find_objects] at hread
      have hsome : ∀ s, entries.find? (schemeNamed w.fold config.Name.ValueString) = some s →
          IssueTypeSchemeDataSource.Read w c config fuel net
            = some (.stored (IssueTypeSchemeDataSource.fill config (some s)), out.net) := by
        intro s hs
        rw [hread, hs]
      refine ⟨hsome, ?_⟩
      cases hfind : entries.find? (schemeNamed w.fold config.Name.ValueString) with
      | none =>
        rw [hread, hfind]
        simp only [true_iff]
        intro s hs
        have := List.find?_eq_none.mp hfind s hs
        simpa using this
      | some s =>
        rw [hsome s hfind]
        constructor
        · intro h
          injection h with h
          injection h with h _
          cases h
        · intro h
          have hmem := List.mem_of_find?_eq_some hfind
          have hp := List.find?_some hfind
          rw [h s hmem] at hp
          cases hp
    · rw [hvalues] at hread
      exact hread
  · intro config out entries hid hname hlist hok hvalue
    have hread := PermissionSchemeDataSource.Read_permission_scheme_by_name w c config fuel net out
      hid hname hlist hok
    rw [hvalue, find?_some_map] at hread
    have hfn : (fun s : Members => EqualFold w.fold (fmtV (GoMap.get? (some s) "name"))
        config.Name.ValueString) = schemeNamed w.fold config.Name.ValueString := rfl
    rw [hfn] at hread
    have hsome : ∀ s, entries.find? (schemeNamed w.fold config.Name.ValueString) = some s →
        PermissionSchemeDataSource.Read w c config fuel net
          = some (.stored (PermissionSchemeDataSource.fill config (some s)), out.net) := by
      intro s hs
      rw [hread, hs]
      rfl
    refine ⟨hsome, ?_⟩
    cases hfind : entries.find? (schemeNamed w.fold config.Name.ValueString) with
    | none =>
      rw [hread, hfind]
      simp only [Option.map_none', true_iff]
      intro s hs
      have := List.find?_eq_none.mp hfind s hs
      simpa using this
    | some s =>
      rw [hsome s hfind]
      constructor
      · intro h
        injection h with h
        injection h with h _
        cases h
      · intro h
        have hmem := List.mem_of_find?_eq_some hfind
        have hp := List.find?_some hfind
        rw [h s hmem] at hp
        cases hp

/-- Into slots that hold nothing yet, objects are decoded as they are. -/
theorem decodeSlots_objects (entries : List Members) :
    decodeSlots [] (entries.map JVal.obj) = .ok (entries.map some) := by
  induction entries with
  | nil => rfl
  | cons m rest ih =>
    simp only [List.map_cons, decodeSlots, List.headD_nil, List.tail_nil, decodeMapInto,
      Option.getD_none, List.nil_append, ih]

/-- A listing in which `permissionSchemes` occurs once, with objects only, is
decoded into these objects in order. -/
theorem decodePermissionSchemes_objects (fold : Char → Char) (entries : List Members) :
    decodePermissionSchemes fold (.obj [("permissionSchemes", .arr (entries.map JVal.obj))])
      = .ok (entries.map some) := by
  have hkey : EqualFold fold "permissionSchemes" "permissionSchemes" = true := by
    simp [EqualFold]
  cases entries with
  | nil =>
    simp only [decodePermissionSchemes, List.foldlM, hkey, if_true, List.map_nil,
      decodeSliceInto]
    rfl
  | cons m rest =>
    have hslots := decodeSlots_objects (m :: rest)
    simp only [List.map_cons] at hslots
    simp only [decodePermissionSchemes, List.foldlM, hkey, if_true, List.map_cons,
      decodeSliceInto, List.append_nil, hslots]
    rfl

/-- C13 (witness): of the two listed issue type schemes the second has the
requested name up to case, and it is the one stored. Of a listing of
permission schemes in which `permissionSchemes` occurs twice, the one entry
decoded has the id of the second occurrence and keeps the name of the first:
it has the requested name up to case and is the one stored, with the id 2. -/
theorem scheme_read_by_name_first_match_witness :
    IssueTypeSchemeDataSource.Read
        (constWorld (.answered (plainResponse 200 schemeListingBody (.ok schemeListingJSON))))
        exampleClient schemeByName 1 Net.start
      = some (.stored (IssueTypeSchemeDataSource.fill schemeByName
            (some [("id", .str "10000"), ("name", .str "Default Issue Type Scheme")])),
          { sent := [exampleClient.request "GET" "/rest/api/3/issuetypescheme" none],
            slept := [] })
    ∧ PermissionSchemeDataSource.Read
        (constWorld (.answered (plainResponse 200 repeatedListingBody (.ok repeatedListingJSON))))
        exampleClient permissionSchemeByName 1 Net.start
      = some (.stored (PermissionSchemeDataSource.fill permissionSchemeByName (some mergedScheme)),
          { sent := [exampleClient.request "GET" "/rest/api/3/permissionscheme" none],
            slept := [] })
    ∧ (PermissionSchemeDataSource.fill permissionSchemeByName (some mergedScheme)).ID
        = .value "2"
    ∧ (PermissionSchemeDataSource.fill permissionSchemeByName (some mergedScheme)).Name
        = .value "Default Permission Scheme" :=
  ⟨((scheme_read_by_name_first_match
      (constWorld (.answered (plainResponse 200 schemeListingBody (.ok schemeListingJSON))))
      exampleClient 1 Net.start).1 schemeByName
    { err := none,
      value := some (some [("values", .arr [
        .obj [("id", .str "10100"), ("name", .str "Kanban scheme")],
        .obj [("id", .str "10000"), ("name", .str "Default Issue Type Scheme")]])]),
      net := { sent := [exampleClient.request "GET" "/rest/api/3/issuetypescheme" none],
               slept := [] } }
    (fun ⟨_, hs, _⟩ => (by cases hs)) ⟨_, rfl, by decide⟩ rfl rfl).1
    [[("id", .str "10100"), ("name", .str "Kanban scheme")],
     [("id", .str "10000"), ("name", .str "Default Issue Type Scheme")]] rfl
    |>.1 [("id", .str "10000"), ("name", .str "Default Issue Type Scheme")] rfl,
   ((scheme_read_by_name_first_match
      (constWorld (.answered (plainResponse 200 repeatedListingBody (.ok repeatedListingJSON))))
      exampleClient 1 Net.start).2 permissionSchemeByName
    { err := none, value := some [some mergedScheme],
      net := { sent := [exampleClient.request "GET" "/rest/api/3/permissionscheme" none],
               slept := [] } }
    [mergedScheme]
    (fun ⟨_, hs, _⟩ => (by cases hs)) ⟨_, rfl, by decide⟩ rfl rfl rfl).1 mergedScheme rfl,
   rfl, rfl⟩

/-- Two texts whose first four characters differ are different, whatever
follows. -/
theorem append_ne_of_head (p q x y : String) (hp : 4 ≤ p.toList.length)
    (hq : 4 ≤ q.toList.length) (hdiff : p.toList.take 4 ≠ q.toList.take 4) :
    p ++ x ≠ q ++ y := by
  intro h
  have h' := congrArg (fun s : String => s.toList.take 4) h
  simp only [String.toList, String.data_append] at h' hp hq hdiff
  rw [List.take_append_of_le_length hp, List.take_append_of_le_length hq] at h'
  exact hdiff h'

/-- C14: for every requested name, the diagnostic of the issue type data
source for a name that matches no listed issue type differs from its
diagnostic for a name whose matches are all dropped as not global: the
summaries are the same, the details differ from their fourth character on. -/
theorem issueType_read_not_found_diagnostics_differ (w1 w2 : World) (c : Client)
    (config : IssueTypeDataSourceModel) (fuel1 fuel2 : Nat) (net1 net2 net2' : Net)
    (out1 out2 : Outcome (List GoMap))
    (hid : ¬ config.ID.Given) (hname : config.Name.Given)
    (hlist1 : Client.Get w1 c "/rest/api/3/issuetype" (some mapsDest) fuel1 net1 = some out1)
    (hok1 : out1.err = none)
    (hnone : nameMatches w1.fold config.Name.ValueString (out1.value.getD mapsDest.zero) = [])
    (hlist2 : Client.Get w2 c "/rest/api/3/issuetype" (some mapsDest) fuel2 net2 = some out2)
    (hok2 : out2.err = none)
    (hsome : nameMatches w2.fold config.Name.ValueString (out2.value.getD mapsDest.zero) ≠ [])
    (hselect : IssueTypeDataSource.selectGlobalIssueType w2 c
      (nameMatches w2.fold config.Name.ValueString (out2.value.getD mapsDest.zero)) fuel2 out2.net
      = some (none, net2')) :
    IssueTypeDataSource.Read w1 c config fuel1 net1
      = some (IssueTypeDataSource.noMatch config.Name.ValueString, out1.net)
    ∧ IssueTypeDataSource.Read w2 c config fuel2 net2
      = some (IssueTypeDataSource.noGlobal config.Name.ValueString, net2')
    ∧ (IssueTypeDataSource.noMatch config.Name.ValueString).diagnostic
      = some ("Issue type not found",
          "No issue type with name '" ++ config.Name.ValueString ++ "' found.")
    ∧ (IssueTypeDataSource.noGlobal config.Name.ValueString).diagnostic
      = some ("Issue type not found",
          "No global (classic) issue type with name '" ++ config.Name.ValueString
            ++ "' found; only project-scoped (next-gen) types exist.")
    ∧ (IssueTypeDataSource.noMatch config.Name.ValueString).diagnostic
      ≠ (IssueTypeDataSource.noGlobal config.Name.ValueString).diagnostic := by
  refine ⟨?_, ?_, rfl, rfl, ?_⟩
  · rw [IssueTypeDataSource.Read_by_name w1 c config fuel1 net1 out1 hid hname hlist1 hok1, hnone]
    rfl
  · rw [IssueTypeDataSource.Read_by_name w2 c config fuel2 net2 out2 hid hname hlist2 hok2]
    have hlen : ¬ (nameMatches w2.fold config.Name.ValueString
        (out2.value.getD mapsDest.zero)).length = 0 := by
      intro h
      exact hsome (List.length_eq_zero.mp h)
    rw [if_neg hlen, hselect]
  · intro h
    simp only [IssueTypeDataSource.noMatch, IssueTypeDataSource.noGlobal, Result.diagnostic,
      Option.some.injEq, Prod.mk.injEq, true_and] at h
    rw [String.append_assoc, String.append_assoc] at h
    exact append_ne_of_head _ _ _ _ (by decide) (by decide) (by decide) h

/-- C14 (witness): the name `bug` against an empty listing, and against a
listing whose only `Bug` carries a `scope`. -/
theorem issueType_read_not_found_diagnostics_differ_witness :
    IssueTypeDataSource.Read (constWorld (.answered (plainResponse 200 "[]" (.ok (.arr [])))))
        exampleClient bugByName 1 Net.start
      = some (IssueTypeDataSource.noMatch bugByName.Name.ValueString,
          { sent := [exampleClient.request "GET" "/rest/api/3/issuetype" none], slept := [] })
    ∧ IssueTypeDataSource.Read
        (constWorld (.answered (plainResponse 200 scopedListingBody (.ok scopedListingJSON))))
        exampleClient bugByName 1 Net.start
      = some (IssueTypeDataSource.noGlobal bugByName.Name.ValueString,
          { sent := [exampleClient.request "GET" "/rest/api/3/issuetype" none], slept := [] })
    ∧ (IssueTypeDataSource.noMatch bugByName.Name.ValueString).diagnostic
      ≠ (IssueTypeDataSource.noGlobal bugByName.Name.ValueString).diagnostic :=
  have h := issueType_read_not_found_diagnostics_differ
    (constWorld (.answered (plainResponse 200 "[]" (.ok (.arr [])))))
    (constWorld (.answered (plainResponse 200 scopedListingBody (.ok scopedListingJSON))))
    exampleClient bugByName 1 1 Net.start Net.start
    { sent := [exampleClient.request "GET" "/rest/api/3/issuetype" none], slept := [] }
    { err := none, value := some [],
      net := { sent := [exampleClient.request "GET" "/rest/api/3/issuetype" none], slept := [] } }
    { err := none,
      value := some [some [("id", .str "10001"), ("name", .str "Bug"),
                           ("scope", .obj [("type", .str "PROJECT")])]],
      net := { sent := [exampleClient.request "GET" "/rest/api/3/issuetype" none], slept := [] } }
    (fun ⟨_, hs, _⟩ => (by cases hs)) ⟨"bug", rfl, by decide⟩ rfl rfl rfl rfl rfl
    (fun h => absurd (congrArg List.length h) (by decide)) rfl
  ⟨h.1, h.2.1, h.2.2.2.2⟩

/-! ### Requests sent by one client call -/

/-- Every request one call of `doRequest` hands to the transport is the
request of that call. -/
theorem doRequest_sent {α : Type} (w : World) (c : Client) (method path : String)
    (body : Option JVal) (result : Option (Dest α)) (fuel : Nat) (net : Net) (out : Outcome α)
    (h : doRequest w c method path body result fuel net = some out) :
    ∃ k, out.net.sent = net.sent ++ List.replicate k (c.request method path body) := by
  induction fuel generalizing net with
  | zero => cases h
  | succ fuel ih =>
    cases hr : (w.server net.sent (c.request method path body)).retried with
    | true =>
      obtain ⟨resp, seconds, hsrv, h429, hparse⟩ := (Reply.retried_iff _).mp hr
      rw [doRequest_retry w c method path body result fuel net resp seconds hsrv h429 hparse] at h
      obtain ⟨k, hk⟩ := ih _ h
      refine ⟨k + 1, ?_⟩
      rw [hk, List.append_assoc, List.replicate_succ]
      rfl
    | false =>
      obtain ⟨out', hout, _, hsent⟩ := doRequest_returns w c method path body result net hr
      rw [hout fuel] at h
      cases h
      rcases hsent with hs | hs
      · exact ⟨0, by simpa using hs⟩
      · exact ⟨1, by simpa using hs⟩

/-- The error and the decoded value of a call that ends at a reply which is
not retried are fixed by that reply. -/
theorem doRequest_of_reply {α : Type} (w : World) (c : Client) (method path : String)
    (body : Option JVal) (result : Option (Dest α)) (reply : Reply)
    (hlast : reply.retried = false) :
    ∃ (err : Option GoError) (value : Option α), ∀ (net : Net) (fuel : Nat),
      w.server net.sent (c.request method path body) = reply →
      ∃ net', doRequest w c method path body result (fuel + 1) net
        = some { err := err, value := value, net := net' } := by
  cases reply with
  | invalid cause =>
    refine ⟨some (.plain ("failed to create request: " ++ cause)), none,
      fun net fuel hsrv => ⟨net, ?_⟩⟩
    simp only [doRequest, hsrv]
  | failed cause =>
    refine ⟨some (.plain ("request failed: " ++ cause)), none,
      fun net fuel hsrv => ⟨{ net with sent := net.sent ++ [c.request method path body] }, ?_⟩⟩
    simp only [doRequest, hsrv]
  | answered resp =>
    by_cases h429 : resp.StatusCode = 429
    · have hparse : Atoi resp.retryAfter = none := by
        cases hp : Atoi resp.retryAfter with
        | none => rfl
        | some seconds => simp [Reply.retried, h429, hp] at hlast
      exact ⟨_, _, fun net fuel hsrv =>
        ⟨_, doRequest_rate_limit_terminal w c method path body result fuel net resp hsrv h429
          hparse⟩⟩
    · cases hread : resp.readError with
      | some cause =>
        refine ⟨some (.plain ("failed to read response body: " ++ cause)), none,
          fun net fuel hsrv =>
          ⟨{ net with sent := net.sent ++ [c.request method path body] }, ?_⟩⟩
        simp only [doRequest, hsrv, h429, hread, if_false]
      | none =>
        by_cases hstatus : resp.StatusCode < 200 ∨ resp.StatusCode ≥ 300
        · exact ⟨_, _, fun net fuel hsrv =>
            ⟨_, doRequest_error_response w c method path body result fuel net resp hsrv h429
              hread hstatus⟩⟩
        · cases result with
          | none =>
            refine ⟨none, none, fun net fuel hsrv =>
          ⟨{ net with sent := net.sent ++ [c.request method path body] }, ?_⟩⟩
            simp only [doRequest, hsrv, h429, hread, hstatus, if_false]
          | some dest =>
            by_cases hbody : resp.body ≠ ""
            · cases hdec : resp.json >>= dest.decode with
              | error cause =>
                refine ⟨some (.plain ("failed to unmarshal response: " ++ cause)), none,
                  fun net fuel hsrv =>
          ⟨{ net with sent := net.sent ++ [c.request method path body] }, ?_⟩⟩
                simp only [doRequest, hsrv, h429, hread, hstatus, hdec, if_false, if_pos hbody]
              | ok v =>
                refine ⟨none, some v, fun net fuel hsrv =>
          ⟨{ net with sent := net.sent ++ [c.request method path body] }, ?_⟩⟩
                simp only [doRequest, hsrv, h429, hread, hstatus, hdec, if_false, if_pos hbody]
            · refine ⟨none, none, fun net fuel hsrv =>
          ⟨{ net with sent := net.sent ++ [c.request method path body] }, ?_⟩⟩
              simp only [doRequest, hsrv, h429, hread, hstatus, if_false, if_neg hbody]

/-- Against a server whose answer to a request does not depend on what was
asked before, a retried reply keeps the call from returning. -/
theorem doRequest_none_of_constant_retry {α : Type} (w : World) (c : Client)
    (method path : String) (body : Option JVal) (result : Option (Dest α))
    (hdet : ∀ h1 h2, w.server h1 (c.request method path body)
      = w.server h2 (c.request method path body))
    (hretry : (w.server [] (c.request method path body)).retried = true)
    (fuel : Nat) (net : Net) :
    doRequest w c method path body result fuel net = none := by
  induction fuel generalizing net with
  | zero => rfl
  | succ fuel ih =>
    rw [hdet [] net.sent] at hretry
    obtain ⟨resp, seconds, hsrv, h429, hparse⟩ := (Reply.retried_iff _).mp hretry
    rw [doRequest_retry w c method path body result fuel net resp seconds hsrv h429 hparse]
    exact ih _

/-- Against a server whose answer to a request does not depend on what was
asked before, two calls with that request that return give the same error and
the same decoded value. -/
theorem doRequest_deterministic {α : Type} (w : World) (c : Client) (method path : String)
    (body : Option JVal) (result : Option (Dest α))
    (hdet : ∀ h1 h2, w.server h1 (c.request method path body)
      = w.server h2 (c.request method path body))
    (fuel fuel' : Nat) (net net' : Net) (out out' : Outcome α)
    (h : doRequest w c method path body result fuel net = some out)
    (h' : doRequest w c method path body result fuel' net' = some out') :
    out.err = out'.err ∧ out.value = out'.value := by
  cases hr : (w.server [] (c.request method path body)).retried with
  | true =>
    rw [doRequest_none_of_constant_retry w c method path body result hdet hr fuel net] at h
    cases h
  | false =>
    obtain ⟨err, value, hall⟩ := doRequest_of_reply w c method path body result _ hr
    cases fuel with
    | zero => cases h
    | succ k =>
      cases fuel' with
      | zero => cases h'
      | succ k' =>
        obtain ⟨n1, h1⟩ := hall net k (hdet net.sent [])
        obtain ⟨n2, h2⟩ := hall net' k' (hdet net'.sent [])
        rw [h1] at h
        rw [h2] at h'
        cases h
        cases h'
        exact ⟨rfl, rfl⟩

/-! ### The scope classifier at its two call sites -/

theorem IssueTypeDataSource.Read_by_name_stored (w : World) (c : Client)
    (config cfg : IssueTypeDataSourceModel) (fuel : Nat) (net net' : Net)
    (hid : ¬ config.ID.Given) (hname : config.Name.Given)
    (h : IssueTypeDataSource.Read w c config fuel net = some (.stored cfg, net')) :
    ∃ (out : Outcome (List GoMap)) (full : Members),
      Client.Get w c "/rest/api/3/issuetype" (some mapsDest) fuel net = some out
      ∧ out.err = none
      ∧ IssueTypeDataSource.selectGlobalIssueType w c
          (nameMatches w.fold config.Name.ValueString (out.value.getD mapsDest.zero))
          fuel out.net = some (some full, net')
      ∧ cfg = IssueTypeDataSource.fill config (some full) := by
  cases hlist : Client.Get w c "/rest/api/3/issuetype" (some mapsDest) fuel net with
  | none =>
    have h1 := (Tf.not_given_iff _).mpr hid
    have h2 := (Tf.given_iff _).mpr hname
    simp only [IssueTypeDataSource.Read, h1, h2, hlist] at h
    simp at h
  | some out =>
    cases hok : out.err with
    | some e =>
      have h1 := (Tf.not_given_iff _).mpr hid
      have h2 := (Tf.given_iff _).mpr hname
      simp only [IssueTypeDataSource.Read, h1, h2, hlist, hok] at h
      simp at h
    | none =>
      rw [IssueTypeDataSource.Read_by_name w c config fuel net out hid hname hlist hok] at h
      split at h
      · simp [IssueTypeDataSource.noMatch] at h
      · split at h
        · cases h
        · simp [IssueTypeDataSource.noGlobal] at h
        · rename_i issueType net2 hnot hsel
          cases issueType with
          | none => exact absurd rfl hnot
          | some full =>
            refine ⟨out, full, rfl, hok, ?_, ?_⟩
            · rw [hsel]
              injection h with h
              injection h with _ hn
              rw [hn]
            · injection h with h
              injection h with hr _
              injection hr with hr
              exact hr.symm

theorem validateIDs_mem (w : World) (c : Client) (ids invalid : List String) (fuel : Nat)
    (net net' : Net) (result : List String)
    (h : validateIDs w c ids invalid fuel net = some (.ok result, net'))
    (x : String) (hx : x ∈ result) :
    x ∈ invalid ∨ ∃ (net1 : Net) (out : Outcome GoMap),
      Client.Get w c ("/rest/api/3/issuetype/" ++ x) (some mapDest) fuel net1 = some out
      ∧ out.err = none ∧ IsProjectScoped (out.value.getD mapDest.zero) = true := by
  induction ids generalizing invalid net with
  | nil =>
    simp only [validateIDs] at h
    injection h with h
    injection h with h _
    injection h with h
    left
    rw [h]
    exact hx
  | cons id rest ih =>
    unfold validateIDs at h
    cases hget : Client.Get w c ("/rest/api/3/issuetype/" ++ id) (some mapDest) fuel net with
    | none => rw [hget] at h; cases h
    | some out =>
      rw [hget] at h
      cases herr : out.err with
      | some e =>
        simp only [herr] at h
        injection h with h
        injection h with h _
        cases h
      | none =>
        simp only [herr] at h
        by_cases hs : IsProjectScoped (out.value.getD mapDest.zero) = true
        · rw [if_pos hs] at h
          rcases ih _ _ h with hmem | hfetch
          · rcases List.mem_append.mp hmem with hm | hm
            · exact Or.inl hm
            · rw [List.mem_singleton] at hm
              subst hm
              exact Or.inr ⟨net, out, hget, herr, hs⟩
          · exact Or.inr hfetch
        · rw [if_neg hs] at h
          exact ih _ _ h

/-- C15: against a server whose answer to the detail fetch of an issue type
depends on the id alone, and whose detail payloads carry the id they were
fetched by, an id that the issue type data source resolves a name to is never
in the list of project-scoped ids that `findProjectScopedIssueTypeIDs`
returns, whatever list and default id it is given (so also for a list that
contains the id). -/
theorem resolved_issue_type_not_reported_scoped (w : World) (c : Client)
    (hdet : ∀ (id : String) (h1 h2 : List Request),
      w.server h1 (c.request "GET" ("/rest/api/3/issuetype/" ++ id) none)
        = w.server h2 (c.request "GET" ("/rest/api/3/issuetype/" ++ id) none))
    (hcarry : ∀ (id : String) (fuel : Nat) (net : Net) (out : Outcome GoMap),
      Client.Get w c ("/rest/api/3/issuetype/" ++ id) (some mapDest) fuel net = some out →
      out.err = none → fmtV (GoMap.get? (out.value.getD mapDest.zero) "id") = id)
    (config cfg : IssueTypeDataSourceModel) (fuel : Nat) (net net' : Net) (X : String)
    (hid : ¬ config.ID.Given) (hname : config.Name.Given)
    (hread : IssueTypeDataSource.Read w c config fuel net = some (.stored cfg, net'))
    (hX : cfg.ID = Tf.value X)
    (issueTypeIDs : List String) (defaultIssueTypeID : TfString) (fuel2 : Nat) (net2 net3 : Net)
    (invalid : List String)
    (hval : IssueTypeSchemeResource.findProjectScopedIssueTypeIDs w c issueTypeIDs
      defaultIssueTypeID fuel2 net2 = some (.ok invalid, net3)) :
    X ∉ invalid := by
  obtain ⟨out, full, _, _, hsel, hcfg⟩ :=
    IssueTypeDataSource.Read_by_name_stored w c config cfg fuel net net' hid hname hread
  obtain ⟨it, _, net1, detail, _, hget, herr, hfull, hunscoped⟩ :=
    IssueTypeDataSource.selectGlobalIssueType_some w c _ fuel out.net net' full hsel
  have hidc := hcarry _ fuel net1 detail hget herr
  rw [hfull] at hidc
  have hXid : X = fmtV (GoMap.get? it "id") := by
    have h1 := (IssueTypeDataSource.fill_ID_Name config (some full)).1
    rw [← hcfg, hX] at h1
    injection h1 with h1
    rw [h1, hidc]
  intro hmem
  rcases validateIDs_mem w c _ [] fuel2 net2 net3 invalid hval X hmem with hnil | hfetch
  · cases hnil
  · obtain ⟨net4, out4, hget4, herr4, hscoped4⟩ := hfetch
    rw [hXid] at hget4
    have hsame := doRequest_deterministic w c "GET"
      ("/rest/api/3/issuetype/" ++ fmtV (GoMap.get? it "id")) none (some mapDest)
      (hdet _) fuel fuel2 net1 net4 detail out4 hget hget4
    rw [← hsame.2, hfull, hunscoped] at hscoped4
    cases hscoped4

theorem string_append_left_cancel (a b c : String) (h : a ++ b = a ++ c) : b = c := by
  have h' := congrArg String.data h
  simp only [String.data_append] at h'
  exact String.ext (List.append_cancel_left h')

theorem doRequest_ok_response {α : Type} (w : World) (c : Client) (method path : String)
    (body : Option JVal) (dest : Dest α) (fuel : Nat) (net : Net) (resp : Response)
    (hsrv : w.server net.sent (c.request method path body) = Reply.answered resp)
    (hstatus : resp.StatusCode = 200) (hread : resp.readError = none)
    (hbody : resp.body ≠ "") :
    doRequest w c method path body (some dest) (fuel + 1) net =
      match resp.json >>= dest.decode with
      | .error cause =>
        some { err := some (.plain ("failed to unmarshal response: " ++ cause)), value := none,
               net := { net with sent := net.sent ++ [c.request method path body] } }
      | .ok v =>
        some { err := none, value := some v,
               net := { net with sent := net.sent ++ [c.request method path body] } } := by
  have h429 : resp.StatusCode ≠ 429 := by omega
  have hrange : ¬ (resp.StatusCode < 200 ∨ resp.StatusCode ≥ 300) := by omega
  simp only [doRequest, hsrv, h429, hread, hrange, if_false, if_pos hbody]

/-- The detail payloads of `catalogWorld` carry the id they are fetched by. -/
theorem catalogWorld_carries_id (id : String) (fuel : Nat) (net : Net) (out : Outcome GoMap)
    (h : Client.Get catalogWorld exampleClient ("/rest/api/3/issuetype/" ++ id) (some mapDest)
      fuel net = some out)
    (herr : out.err = none) :
    fmtV (GoMap.get? (out.value.getD mapDest.zero) "id") = id := by
  cases fuel with
  | zero => cases h
  | succ k =>
    unfold Client.Get at h
    by_cases hA : (exampleClient.request "GET" ("/rest/api/3/issuetype/" ++ id) none).url
        = "https://example.atlassian.net/rest/api/3/issuetype"
    · have hsrv : catalogWorld.server net.sent
          (exampleClient.request "GET" ("/rest/api/3/issuetype/" ++ id) none)
          = Reply.answered (plainResponse 200 globalListingBody (.ok globalListingJSON)) := by
        simp only [catalogWorld, if_pos hA]
      rw [doRequest_ok_response catalogWorld exampleClient "GET" _ none mapDest k net _ hsrv rfl rfl
        (by decide)] at h
      have hdec : ((plainResponse 200 globalListingBody (.ok globalListingJSON)).json
          >>= mapDest.decode)
          = .error ("json: cannot unmarshal array into Go value of type map[string]interface \x7b\x7d") :=
        rfl
      rw [hdec] at h
      cases h
      cases herr
    · by_cases hB : (exampleClient.request "GET" ("/rest/api/3/issuetype/" ++ id) none).url
          = "https://example.atlassian.net/rest/api/3/issuetype/10001"
      · have hsrv : catalogWorld.server net.sent
            (exampleClient.request "GET" ("/rest/api/3/issuetype/" ++ id) none)
            = Reply.answered (plainResponse 200 globalDetailBody (.ok globalDetailJSON)) := by
          simp only [catalogWorld, if_neg hA, if_pos hB]
        rw [doRequest_ok_response catalogWorld exampleClient "GET" _ none mapDest k net _ hsrv rfl
          rfl (by decide)] at h
        have hdec : ((plainResponse 200 globalDetailBody (.ok globalDetailJSON)).json
            >>= mapDest.decode)
            = .ok (some [("id", .str "10001"), ("name", .str "Bug"), ("subtask", .bool false)]) :=
          rfl
        rw [hdec] at h
        cases h
        have hlit : ("https://example.atlassian.net/rest/api/3/issuetype/10001" : String)
            = "https://example.atlassian.net" ++ ("/rest/api/3/issuetype/" ++ "10001") := by
          decide
        have hurl : (exampleClient.request "GET" ("/rest/api/3/issuetype/" ++ id) none).url
            = "https://example.atlassian.net" ++ ("/rest/api/3/issuetype/" ++ id) := rfl
        rw [hurl, hlit] at hB
        have hid := string_append_left_cancel _ _ _ (string_append_left_cancel _ _ _ hB)
        rw [hid]
        rfl
      · have hsrv : catalogWorld.server net.sent
            (exampleClient.request "GET" ("/rest/api/3/issuetype/" ++ id) none)
            = Reply.answered (plainResponse 404 "" (.error "unexpected end of JSON input")) := by
          simp only [catalogWorld, if_neg hA, if_neg hB]
        rw [doRequest_error_response catalogWorld exampleClient "GET" _ none (some mapDest) k net _
          hsrv (by decide) rfl (Or.inr (by decide))] at h
        cases h
        cases herr

/-- C15 (witness): in `catalogWorld` the name `bug` resolves to the id 10001,
and validating the list that names 10001 twice, with 10001 as the default id,
fetches it once and returns no scoped id. -/
theorem resolved_issue_type_not_reported_scoped_witness :
    IssueTypeDataSource.Read catalogWorld exampleClient bugByName 1 Net.start
      = some (.stored (IssueTypeDataSource.fill bugByName
            (some [("id", .str "10001"), ("name", .str "Bug"), ("subtask", .bool false)])),
          { sent := [exampleClient.request "GET" "/rest/api/3/issuetype" none,
                     exampleClient.request "GET" "/rest/api/3/issuetype/10001" none],
            slept := [] })
    ∧ IssueTypeSchemeResource.findProjectScopedIssueTypeIDs catalogWorld exampleClient
        ["10001", "10001"] (Tf.value "10001") 1 Net.start
      = some (.ok [],
          { sent := [exampleClient.request "GET" "/rest/api/3/issuetype/10001" none],
            slept := [] })
    ∧ "10001" ∉ ([] : List String) :=
  ⟨rfl, rfl,
   resolved_issue_type_not_reported_scoped catalogWorld exampleClient (fun _ _ _ => rfl)
    catalogWorld_carries_id bugByName _ 1 Net.start _ "10001"
    (fun ⟨_, hs, _⟩ => (by cases hs)) ⟨"bug", rfl, by decide⟩
    (rfl : IssueTypeDataSource.Read catalogWorld exampleClient bugByName 1 Net.start
      = some (.stored (IssueTypeDataSource.fill bugByName
            (some [("id", .str "10001"), ("name", .str "Bug"), ("subtask", .bool false)])),
          { sent := [exampleClient.request "GET" "/rest/api/3/issuetype" none,
                     exampleClient.request "GET" "/rest/api/3/issuetype/10001" none],
            slept := [] }))
    rfl ["10001", "10001"] (Tf.value "10001") 1 Net.start
    { sent := [exampleClient.request "GET" "/rest/api/3/issuetype/10001" none], slept := [] } []
    rfl⟩

/-! ### Create of an issue type scheme -/

/-- C16 (counterexample): the plan names 10001 and 10002; the fetch of 10001
is answered with a project-scoped payload and the fetch of 10002 with an HTTP
500. `Create` reports `Error validating issue types for issue type scheme`
and not the `Invalid issue types` error, although 10001 fetched as scoped. -/
theorem issueTypeScheme_create_validation_error :
    (IssueTypeSchemeResource.Create
        (scriptWorld [.answered (plainResponse 200 scopedDetailBody (.ok scopedDetailJSON))]
          (.answered (plainResponse 500 "" (.error "unexpected end of JSON input"))))
        exampleClient examplePlan 1 Net.start).map
        (fun r => (r.1.diagnostic, r.2.sent.map (fun q => q.method)))
      = some (some ("Error validating issue types for issue type scheme",
                    "JIRA API error (HTTP 500)"), ["GET", "GET"]) := by
  decide

theorem validateIDs_fetched (w : World) (c : Client) (fuel : Nat) (ids : List String) (net : Net)
    (payloads : List GoMap) (net' : Net) (hf : Fetched w c fuel ids net payloads net')
    (rest invalid : List String) :
    validateIDs w c (ids ++ rest) invalid fuel net
      = validateIDs w c rest (invalid ++ scopedIDs ids payloads) fuel net' := by
  induction hf generalizing invalid with
  | nil net => simp [scopedIDs]
  | cons id rest0 net out payloads net' hget herr _ ih =>
    rw [List.cons_append]
    conv => lhs; unfold validateIDs
    simp only [hget, herr]
    by_cases hs : IsProjectScoped (out.value.getD mapDest.zero) = true
    · rw [if_pos hs, ih]
      simp only [scopedIDs, hs, if_true, List.append_assoc, List.singleton_append]
    · rw [if_neg hs, ih]
      simp only [scopedIDs, hs, Bool.false_eq_true, if_false]

theorem Fetched_sent (w : World) (c : Client) (fuel : Nat) (ids : List String) (net : Net)
    (payloads : List GoMap) (net' : Net) (hf : Fetched w c fuel ids net payloads net') :
    ∀ r ∈ net'.sent, r ∈ net.sent ∨ r.method = "GET" := by
  induction hf with
  | nil net => exact fun r hr => Or.inl hr
  | cons id rest0 net out payloads net' hget _ _ ih =>
    intro r hr
    rcases ih r hr with h | h
    · obtain ⟨k, hk⟩ := doRequest_sent w c "GET" _ none (some mapDest) fuel net out hget
      rw [hk, List.mem_append] at h
      rcases h with h | h
      · exact Or.inl h
      · right
        rw [List.eq_of_mem_replicate h]
        rfl
    · exact Or.inr h

/-- C16 (amended): `Create` of an issue type scheme validates the distinct
planned ids, then the default id, by one fetch each. When every fetch succeeds
and at least one payload is project-scoped, it reports `Invalid issue types
for classic issue type scheme`, naming exactly the ids with a scoped payload,
and every request made is a GET. When every fetch succeeds and no payload is
scoped, its outcome is that of the POST to `/rest/api/3/issuetypescheme`.
When a fetch fails, it reports `Error validating issue types for issue type
scheme` with the error of that fetch, whatever the earlier payloads were, and
every request made is a GET. -/
theorem issueTypeScheme_create_validation (w : World) (c : Client)
    (plan : IssueTypeSchemeResourceModel) (fuel : Nat) (net : Net) (issueTypeIDs : List String)
    (hids : elementsAsStrings plan.IssueTypeIDs = some issueTypeIDs) :
    (∀ (payloads : List GoMap) (net1 : Net),
      Fetched w c fuel (idsToValidate issueTypeIDs plan.DefaultIssueTypeID) net payloads net1 →
      (scopedIDs (idsToValidate issueTypeIDs plan.DefaultIssueTypeID) payloads ≠ [] →
        IssueTypeSchemeResource.Create w c plan fuel net
          = some (.failed "Invalid issue types for classic issue type scheme"
              (invalidIssueTypesDetail
                (scopedIDs (idsToValidate issueTypeIDs plan.DefaultIssueTypeID) payloads)), net1)
        ∧ ∀ r ∈ net1.sent, r ∈ net.sent ∨ r.method = "GET")
      ∧ (scopedIDs (idsToValidate issueTypeIDs plan.DefaultIssueTypeID) payloads = [] →
        IssueTypeSchemeResource.Create w c plan fuel net
          = (Client.Post w c "/rest/api/3/issuetypescheme"
              (some (IssueTypeSchemeResource.createBody plan issueTypeIDs)) (some mapDest)
              fuel net1).map (IssueTypeSchemeResource.created w plan)))
    ∧ (∀ (pre : List String) (id : String) (rest : List String) (payloads : List GoMap)
        (net1 : Net) (out : Outcome GoMap) (err : GoError),
      idsToValidate issueTypeIDs plan.DefaultIssueTypeID = pre ++ id :: rest →
      Fetched w c fuel pre net payloads net1 →
      Client.Get w c ("/rest/api/3/issuetype/" ++ id) (some mapDest) fuel net1 = some out →
      out.err = some err →
      IssueTypeSchemeResource.Create w c plan fuel net
        = some (.failed "Error validating issue types for issue type scheme"
            (err.Error w.pick), out.net)
      ∧ ∀ r ∈ out.net.sent, r ∈ net.sent ∨ r.method = "GET") := by
  constructor
  · intro payloads net1 hf
    have hval : IssueTypeSchemeResource.findProjectScopedIssueTypeIDs w c issueTypeIDs
        plan.DefaultIssueTypeID fuel net
        = some (.ok (scopedIDs (idsToValidate issueTypeIDs plan.DefaultIssueTypeID) payloads),
            net1) := by
      have h := validateIDs_fetched w c fuel _ net payloads net1 hf [] []
      rw [List.append_nil] at h
      rw [IssueTypeSchemeResource.findProjectScopedIssueTypeIDs, h]
      simp [validateIDs]
    refine ⟨fun hne => ⟨?_, Fetched_sent w c fuel _ net payloads net1 hf⟩, fun hnil => ?_⟩
    · have hlen : (scopedIDs (idsToValidate issueTypeIDs plan.DefaultIssueTypeID)
          payloads).length > 0 := List.length_pos.mpr hne
      simp only [IssueTypeSchemeResource.Create, hids, hval, if_pos hlen]
      rfl
    · rw [hnil] at hval
      simp only [IssueTypeSchemeResource.Create, hids, hval, List.length_nil, gt_iff_lt,
        Nat.lt_irrefl, if_false]
      cases Client.Post w c "/rest/api/3/issuetypescheme"
          (some (IssueTypeSchemeResource.createBody plan issueTypeIDs)) (some mapDest)
          fuel net1 <;> rfl
  · intro pre id rest payloads net1 out err hsplit hf hget herr
    have hval : IssueTypeSchemeResource.findProjectScopedIssueTypeIDs w c issueTypeIDs
        plan.DefaultIssueTypeID fuel net = some (.error err, out.net) := by
      rw [IssueTypeSchemeResource.findProjectScopedIssueTypeIDs, hsplit,
        validateIDs_fetched w c fuel pre net payloads net1 hf]
      unfold validateIDs
      simp only [hget, herr]
    refine ⟨?_, ?_⟩
    · simp only [IssueTypeSchemeResource.Create, hids, hval]
    · intro r hr
      obtain ⟨k, hk⟩ := doRequest_sent w c "GET" _ none (some mapDest) fuel net1 out hget
      rw [hk, List.mem_append] at hr
      rcases hr with h | h
      · exact Fetched_sent w c fuel pre net payloads net1 hf r h
      · right
        rw [List.eq_of_mem_replicate h]
        rfl

/-- C16 (witness): both planned ids fetch as project-scoped; `Create` names
both in the `Invalid issue types` error and sends the two GETs only. -/
theorem issueTypeScheme_create_validation_witness :
    IssueTypeSchemeResource.Create
        (constWorld (.answered (plainResponse 200 scopedDetailBody (.ok scopedDetailJSON))))
        exampleClient examplePlan 1 Net.start
      = some (.failed "Invalid issue types for classic issue type scheme"
          (invalidIssueTypesDetail ["10001", "10002"]), twoFetches)
    ∧ ∀ r ∈ twoFetches.sent, r ∈ Net.start.sent ∨ r.method = "GET" :=
  ((issueTypeScheme_create_validation
      (constWorld (.answered (plainResponse 200 scopedDetailBody (.ok scopedDetailJSON))))
      exampleClient examplePlan 1 Net.start ["10001", "10002"] rfl).1
    [some [("id", .str "10001"), ("name", .str "Bug"), ("scope", .obj [("type", .str "PROJECT")])],
     some [("id", .str "10001"), ("name", .str "Bug"), ("scope", .obj [("type", .str "PROJECT")])]]
    twoFetches
    (Fetched.cons "10001" ["10002"] Net.start
      { err := none,
        value := some (some [("id", .str "10001"), ("name", .str "Bug"),
                             ("scope", .obj [("type", .str "PROJECT")])]),
        net := { sent := [exampleClient.request "GET" "/rest/api/3/issuetype/10001" none],
                 slept := [] } }
      _ twoFetches rfl rfl
      (Fetched.cons "10002" [] _
        { err := none,
          value := some (some [("id", .str "10001"), ("name", .str "Bug"),
                               ("scope", .obj [("type", .str "PROJECT")])]),
          net := twoFetches }
        [] twoFetches rfl rfl (Fetched.nil twoFetches)))).1
    (fun h => absurd (congrArg List.length h) (by decide))

/-! ### Automation rules -/

/-- C17 (counterexample): the POST is answered with the id 42 and the PUT that
enables the rule with an HTTP 500. `Create` adds no diagnostic: it stores the
plan with the id 42 after the two requests. -/
theorem automationRule_create_activation_failure_silent :
    (Client.Put createdThenFailing exampleClient "/rest/v1/rule/42/state"
        (some (.obj [("state", .str "ENABLED")])) (none : Option (Dest Unit)) 1
        { sent := [exampleClient.request "POST" "/rest/v1/rule"
                    (some (.obj [("trigger", .str "scheduled"),
                                 ("name", .str "Close stale issues")]))],
          slept := [] }).map (fun out => out.err.map (fun e => e.Error 0))
      = some (some "JIRA API error (HTTP 500)")
    ∧ (AutomationRuleResource.Create createdThenFailing exampleClient exampleRule
        (.ok exampleRuleJSON) 1 Net.start).map
        (fun r => (r.1.diagnostic, r.1.stored?.map (fun st => st.ID.ValueString),
          r.2.sent.map (fun q => (q.method, q.url))))
      = some (none, some "42",
          [("POST", "https://example.atlassian.net/rest/v1/rule"),
           ("PUT", "https://example.atlassian.net/rest/v1/rule/42/state")]) := by
  constructor <;> decide

/-- C17 (amended): in `Create` of an automation rule, once the POST has
succeeded, the plan is stored with the created id and no diagnostic is added.
When the planned state is `ENABLED` the PUT to `/rest/v1/rule/<id>/state` is
made first, and its error, if any, is discarded: the outcome is the same
whether that call fails or not. When the planned state is anything else no
such call is made. -/
theorem automationRule_create_activation_discarded (w : World) (c : Client)
    (plan : AutomationRuleResourceModel) (ruleJSON : Except String JVal) (ruleBody : Members)
    (fuel : Nat) (net : Net) (out : Outcome GoMap)
    (hrule : ruleJSON >>= decodeMap = .ok (some ruleBody))
    (hpost : Client.Post w c "/rest/v1/rule"
      (some (.obj (ruleBody ++ [("name", .str plan.Name.ValueString)]))) (some mapDest)
      fuel net = some out)
    (hok : out.err = none) :
    (plan.State.ValueString = "ENABLED" →
      ∀ activation : Outcome Unit,
        Client.Put w c
          ("/rest/v1/rule/"
            ++ (AutomationRuleResource.createdID plan (out.value.getD mapDest.zero)).ValueString
            ++ "/state")
          (some (.obj [("state", .str "ENABLED")])) (none : Option (Dest Unit)) fuel out.net
          = some activation →
        AutomationRuleResource.Create w c plan ruleJSON fuel net
          = some (.stored { plan with
              ID := AutomationRuleResource.createdID plan (out.value.getD mapDest.zero) },
            activation.net))
    ∧ (plan.State.ValueString ≠ "ENABLED" →
        AutomationRuleResource.Create w c plan ruleJSON fuel net
          = some (.stored { plan with
              ID := AutomationRuleResource.createdID plan (out.value.getD mapDest.zero) },
            out.net)) := by
  refine ⟨fun hstate activation hput => ?_, fun hstate => ?_⟩
  · simp only [AutomationRuleResource.Create, hrule, hpost, hok]
    rw [if_pos hstate]
    simp only [hput]
  · simp only [AutomationRuleResource.Create, hrule, hpost, hok]
    rw [if_neg hstate]

/-- C17 (witness): the activation call of `exampleRule` is answered with an
HTTP 500 and the plan is stored all the same. -/
theorem automationRule_create_activation_discarded_witness :
    AutomationRuleResource.Create createdThenFailing exampleClient exampleRule
        (.ok exampleRuleJSON) 1 Net.start
      = some (.stored { exampleRule with ID := Tf.value "42" },
          { sent := [exampleClient.request "POST" "/rest/v1/rule"
                      (some (.obj [("trigger", .str "scheduled"),
                                   ("name", .str "Close stale issues")])),
                     exampleClient.request "PUT" "/rest/v1/rule/42/state"
                      (some (.obj [("state", .str "ENABLED")]))],
            slept := [] }) :=
  (automationRule_create_activation_discarded createdThenFailing exampleClient exampleRule
    (.ok exampleRuleJSON) [("trigger", .str "scheduled")] 1 Net.start
    { err := none, value := some (some [("id", .num (some 42) "42")]),
      net := { sent := [exampleClient.request "POST" "/rest/v1/rule"
                         (some (.obj [("trigger", .str "scheduled"),
                                      ("name", .str "Close stale issues")]))],
               slept := [] } }
    rfl rfl rfl).1 rfl
    { err := some (.api { StatusCode := 500, ErrorMessages := [], Errors := [] }),
      value := none,
      net := { sent := [exampleClient.request "POST" "/rest/v1/rule"
                         (some (.obj [("trigger", .str "scheduled"),
                                      ("name", .str "Close stale issues")])),
                        exampleClient.request "PUT" "/rest/v1/rule/42/state"
                         (some (.obj [("state", .str "ENABLED")]))],
               slept := [] } }
    rfl

/-! ### The id of a created instance -/

/-- C18 (counterexample): the creation response of an issue type scheme holds
`id` = "1" and `issueTypeSchemeId` = "2". `Create` stores the id "2", the
one of `issueTypeSchemeId`, although the response contains the key `id`. -/
theorem issueTypeScheme_create_id_not_from_id :
    GoMap.get? (some bothIDs) "id" = some (.str "1")
    ∧ (IssueTypeSchemeResource.Create bothIDsWorld exampleClient emptyPlan 1 Net.start).map
        (fun r => (r.1.stored?.map (fun st => st.ID.ValueString),
          r.2.sent.map (fun q => (q.method, q.url))))
      = some (some "2",
          [("POST", "https://example.atlassian.net/rest/api/3/issuetypescheme")]) := by
  constructor
  · rfl
  · decide

/-- C18 (amended): id extraction on Create is first-match-wins. In automation
rule Create the key `id` is tried first and `ruleUuid` only when `id` is
absent. In issue type scheme Create the key `issueTypeSchemeId` is tried
first and `id` only when `issueTypeSchemeId` is absent. The value found is
rendered with `%v`; when neither key is present the planned id is kept. The
id so chosen is the one the successful Create of a scheme stores. -/
theorem create_id_first_match (rulePlan : AutomationRuleResourceModel)
    (schemePlan : IssueTypeSchemeResourceModel) (result : GoMap) (v : JVal)
    (hid : result.get? "id" = some v) :
    AutomationRuleResource.createdID rulePlan result = .value (fmtV (some v))
    ∧ (∀ u, result.get? "issueTypeSchemeId" = some u →
        IssueTypeSchemeResource.createdID schemePlan result = .value (fmtV (some u)))
    ∧ (result.get? "issueTypeSchemeId" = none →
        IssueTypeSchemeResource.createdID schemePlan result = .value (fmtV (some v)))
    ∧ (∀ (other : GoMap) (u : JVal), other.get? "id" = none →
        other.get? "ruleUuid" = some u →
        AutomationRuleResource.createdID rulePlan other = .value (fmtV (some u)))
    ∧ (∀ other : GoMap, other.get? "id" = none →
        (other.get? "ruleUuid" = none →
          AutomationRuleResource.createdID rulePlan other = rulePlan.ID)
        ∧ (other.get? "issueTypeSchemeId" = none →
          IssueTypeSchemeResource.createdID schemePlan other = schemePlan.ID))
    ∧ (∀ (w : World) (out : Outcome GoMap), out.err = none → out.value = some result →
        IssueTypeSchemeResource.created w schemePlan out
          = (.stored { schemePlan with
              ID := IssueTypeSchemeResource.createdID schemePlan result }, out.net)) := by
  refine ⟨?_, fun u hu => ?_, fun hnone => ?_, fun other u hid' hu => ?_,
    fun other hid' => ⟨fun hu => ?_, fun hs => ?_⟩, fun w out herr hval => ?_⟩
  · simp only [AutomationRuleResource.createdID, hid]
  · simp only [IssueTypeSchemeResource.createdID, hu]
  · simp only [IssueTypeSchemeResource.createdID, hnone, hid]
  · simp only [AutomationRuleResource.createdID, hid', hu]
  · simp only [AutomationRuleResource.createdID, hid', hu]
  · simp only [IssueTypeSchemeResource.createdID, hid', hs]
  · simp only [IssueTypeSchemeResource.created, herr, hval, Option.getD_some]

/-- C18 (witness): for the response that holds both keys, an automation rule
takes the id "1" and an issue type scheme the id "2". -/
theorem create_id_first_match_witness :
    GoMap.get? (some bothIDs) "id" = some (.str "1")
    ∧ AutomationRuleResource.createdID exampleRule (some bothIDs) = .value "1"
    ∧ IssueTypeSchemeResource.createdID emptyPlan (some bothIDs) = .value "2" :=
  ⟨rfl, (create_id_first_match exampleRule emptyPlan (some bothIDs) (.str "1") rfl).1,
    (create_id_first_match exampleRule emptyPlan (some bothIDs) (.str "1") rfl).2.1
      (.str "2") rfl⟩

/-! ### Delete of an automation rule -/

/-- C19 (counterexample): the first PUT is answered with an HTTP 429 and
`Retry-After: 1`, the second with an HTTP 204. `Delete` issues two PUT
requests, not one, and reports no error. -/
theorem automationRule_delete_two_puts :
    (AutomationRuleResource.Delete limitedOnce exampleClient storedRule 2 Net.start).map
        (fun r => (r.1, r.2.sent.map (fun q => (q.method, q.url)), r.2.slept.length))
      = some (none,
          [("PUT", "https://example.atlassian.net/rest/v1/rule/42/state"),
           ("PUT", "https://example.atlassian.net/rest/v1/rule/42/state")], 1) := by
  decide

/-- C19 (amended): automation rule `Delete` makes one call of `Client.Put`, to
`/rest/v1/rule/<id>/state` with the body `state = DISABLED`. Every request it
hands to the transport is that same PUT request, sent once per attempt (again
after each HTTP 429 with a `Retry-After` that parses), so it never issues a
DELETE. It reports the error "Error disabling automation rule" if and only if
that call returns an error. When the first reply is not one that is retried,
`Delete` returns for every positive fuel and at most the one PUT was sent. -/
theorem automationRule_delete_only_puts (w : World) (c : Client)
    (state : AutomationRuleResourceModel) (fuel : Nat) (net : Net)
    (r : Option (String × String) × Net)
    (h : AutomationRuleResource.Delete w c state fuel net = some r) :
    (AutomationRuleResource.disableRequest c state).method = "PUT"
    ∧ (AutomationRuleResource.disableRequest c state).url
        = c.BaseURL ++ ("/rest/v1/rule/" ++ state.ID.ValueString ++ "/state")
    ∧ (AutomationRuleResource.disableRequest c state).body
        = some (.obj [("state", .str "DISABLED")])
    ∧ (∃ k, r.2.sent
        = net.sent ++ List.replicate k (AutomationRuleResource.disableRequest c state))
    ∧ (∀ q ∈ r.2.sent, q ∈ net.sent ∨ q.method ≠ "DELETE")
    ∧ (∃ out : Outcome Unit,
        Client.Put w c ("/rest/v1/rule/" ++ state.ID.ValueString ++ "/state")
          (some (.obj [("state", .str "DISABLED")])) (none : Option (Dest Unit)) fuel net
          = some out
        ∧ r.2 = out.net
        ∧ r.1 = out.err.map (fun err => ("Error disabling automation rule", err.Error w.pick))
        ∧ (r.1.isSome = true ↔ out.err.isSome = true))
    ∧ ((w.server net.sent (AutomationRuleResource.disableRequest c state)).retried = false →
        (r.2.sent = net.sent
          ∨ r.2.sent = net.sent ++ [AutomationRuleResource.disableRequest c state])
        ∧ ∀ fuel', AutomationRuleResource.Delete w c state (fuel' + 1) net = some r) := by
  have hout : ∃ out : Outcome Unit,
      Client.Put w c ("/rest/v1/rule/" ++ state.ID.ValueString ++ "/state")
        (some (.obj [("state", .str "DISABLED")])) (none : Option (Dest Unit)) fuel net
        = some out
      ∧ r = (out.err.map (fun err => ("Error disabling automation rule", err.Error w.pick)),
          out.net) := by
    simp only [AutomationRuleResource.Delete] at h
    cases hput : Client.Put w c ("/rest/v1/rule/" ++ state.ID.ValueString ++ "/state")
        (some (.obj [("state", .str "DISABLED")])) (none : Option (Dest Unit)) fuel net with
    | none => rw [hput] at h; cases h
    | some out =>
      rw [hput] at h
      refine ⟨out, rfl, ?_⟩
      cases herr : out.err with
      | none => simp only [herr] at h; cases h; rfl
      | some err => simp only [herr] at h; cases h; rfl
  obtain ⟨out, hput, hr⟩ := hout
  obtain ⟨k, hk⟩ := doRequest_sent w c "PUT" _ _ _ fuel net out hput
  have hsent : r.2.sent
      = net.sent ++ List.replicate k (AutomationRuleResource.disableRequest c state) := by
    rw [hr]; exact hk
  refine ⟨rfl, rfl, rfl, ⟨k, hsent⟩, fun q hq => ?_, ⟨out, hput, ?_, ?_, ?_⟩, fun hlast => ?_⟩
  · rw [hsent, List.mem_append] at hq
    rcases hq with hq | hq
    · exact Or.inl hq
    · right
      rw [List.eq_of_mem_replicate hq]
      show "PUT" ≠ "DELETE"
      decide
  · rw [hr]
  · rw [hr]
  · rw [hr]
    cases out.err <;> simp
  · obtain ⟨out', hall, _, hone⟩ := doRequest_returns w c "PUT"
      ("/rest/v1/rule/" ++ state.ID.ValueString ++ "/state")
      (some (.obj [("state", .str "DISABLED")])) (none : Option (Dest Unit)) net hlast
    have hfuel : ∃ n, fuel = n + 1 := by
      cases fuel with
      | zero => cases hput
      | succ n => exact ⟨n, rfl⟩
    obtain ⟨n, rfl⟩ := hfuel
    have heq : out' = out := by
      have := hall n
      simp only [Client.Put] at hput
      rw [hput] at this
      exact (Option.some.inj this).symm
    subst heq
    refine ⟨?_, fun fuel' => ?_⟩
    · rw [hr]; exact hone
    · have hput' := hall fuel'
      simp only [AutomationRuleResource.Delete, Client.Put, hput', hr]
      cases out'.err <;> rfl

/-- C19 (witness): the rule 42 is disabled with one PUT answered by an HTTP
204; no error is reported. -/
theorem automationRule_delete_only_puts_witness :
    AutomationRuleResource.Delete noContentWorld exampleClient storedRule 1 Net.start
      = some (none, { sent := [AutomationRuleResource.disableRequest exampleClient storedRule],
                      slept := [] })
    ∧ ∃ k, [AutomationRuleResource.disableRequest exampleClient storedRule]
        = [] ++ List.replicate k (AutomationRuleResource.disableRequest exampleClient storedRule) :=
  ⟨rfl, (automationRule_delete_only_puts noContentWorld exampleClient storedRule 1 Net.start
    (none, { sent := [AutomationRuleResource.disableRequest exampleClient storedRule],
             slept := [] }) rfl).2.2.2.1⟩

/-! ### Rename of a group -/

/-- One call of `doRequest` whose first reply is not retried gives the same
outcome for every positive fuel. -/
theorem doRequest_fuel_irrelevant {α : Type} (w : World) (c : Client) (method path : String)
    (body : Option JVal) (result : Option (Dest α)) (net : Net)
    (hlast : (w.server net.sent (c.request method path body)).retried = false) (n m : Nat) :
    doRequest w c method path body result (n + 1) net
      = doRequest w c method path body result (m + 1) net := by
  obtain ⟨out, hall, _⟩ := doRequest_returns w c method path body result net hlast
  rw [hall n, hall m]

/-- The query string of a rename. -/
theorem encodeValues_groupname (v : String) :
    encodeValues [("groupname", v)] = "groupname=" ++ QueryEscape v := by
  show (QueryEscape "groupname" ++ "=") ++ QueryEscape v = "groupname=" ++ QueryEscape v
  have h : QueryEscape "groupname" ++ "=" = "groupname=" := by decide
  rw [h]

/-- In a world that never asks for a retry, `GroupResource.Update` gives the
same result for every positive fuel. -/
theorem GroupResource.Update_fuel (w : World) (c : Client) (plan state : GroupResourceModel)
    (net : Net) (hnever : ∀ sent req, (w.server sent req).retried = false) (n m : Nat) :
    GroupResource.Update w c plan state (n + 1) net
      = GroupResource.Update w c plan state (m + 1) net := by
  have hdel : Client.DeleteWithQuery w c "/rest/api/3/group"
        [("groupname", state.Name.ValueString)] (n + 1) net
      = Client.DeleteWithQuery w c "/rest/api/3/group"
        [("groupname", state.Name.ValueString)] (m + 1) net :=
    doRequest_fuel_irrelevant w c "DELETE" _ none none net (hnever _ _) n m
  simp only [GroupResource.Update, hdel]
  cases Client.DeleteWithQuery w c "/rest/api/3/group"
      [("groupname", state.Name.ValueString)] (m + 1) net with
  | none => rfl
  | some deleted =>
    cases hde : deleted.err with
    | some err => simp only [hde]
    | none =>
      have hpost : Client.Post w c "/rest/api/3/group"
            (some (.obj [("name", .str plan.Name.ValueString)])) (some mapDest) (n + 1) deleted.net
          = Client.Post w c "/rest/api/3/group"
            (some (.obj [("name", .str plan.Name.ValueString)])) (some mapDest) (m + 1)
            deleted.net :=
        doRequest_fuel_irrelevant w c "POST" _ _ _ deleted.net (hnever _ _) n m
      simp only [hde, hpost]

/-- The steps of `GroupResource.Update` behind a result. -/
theorem GroupResource.Update_steps (w : World) (c : Client) (plan state : GroupResourceModel)
    (fuel : Nat) (net : Net) (r : Result GroupResourceModel × Net)
    (h : GroupResource.Update w c plan state fuel net = some r) :
    ∃ deleted : Outcome Unit,
      Client.DeleteWithQuery w c "/rest/api/3/group" [("groupname", state.Name.ValueString)]
        fuel net = some deleted
      ∧ (∃ k, deleted.net.sent
          = net.sent ++ List.replicate k (GroupResource.renameDelete c state))
      ∧ ((∃ err, deleted.err = some err
            ∧ r = (.failed "Error deleting old group during rename" (err.Error w.pick),
                deleted.net))
        ∨ (deleted.err = none
            ∧ ∃ out : Outcome GoMap,
              Client.Post w c "/rest/api/3/group"
                (some (.obj [("name", .str plan.Name.ValueString)])) (some mapDest) fuel
                deleted.net = some out
              ∧ (∃ j, out.net.sent
                  = deleted.net.sent ++ List.replicate j (GroupResource.renamePost c plan))
              ∧ r.2 = out.net
              ∧ ((∃ err, out.err = some err
                    ∧ r.1 = .failed "Error creating new group during rename"
                        (err.Error w.pick))
                ∨ (out.err = none ∧ ∃ st, r.1 = .stored st ∧ st.Name = plan.Name)))) := by
  simp only [GroupResource.Update] at h
  cases hd : Client.DeleteWithQuery w c "/rest/api/3/group"
      [("groupname", state.Name.ValueString)] fuel net with
  | none => rw [hd] at h; cases h
  | some deleted =>
    rw [hd] at h
    have hk := doRequest_sent w c "DELETE"
      ("/rest/api/3/group" ++ "?" ++ encodeValues [("groupname", state.Name.ValueString)])
      none (none : Option (Dest Unit)) fuel net deleted hd
    refine ⟨deleted, rfl, hk, ?_⟩
    cases hde : deleted.err with
    | some err =>
      simp only [hde] at h
      cases h
      exact Or.inl ⟨err, rfl, rfl⟩
    | none =>
      simp only [hde] at h
      right
      refine ⟨rfl, ?_⟩
      cases hp : Client.Post w c "/rest/api/3/group"
          (some (.obj [("name", .str plan.Name.ValueString)])) (some mapDest) fuel
          deleted.net with
      | none => rw [hp] at h; cases h
      | some out =>
        rw [hp] at h
        have hj := doRequest_sent w c "POST" "/rest/api/3/group"
          (some (.obj [("name", .str plan.Name.ValueString)])) (some mapDest) fuel
          deleted.net out hp
        refine ⟨out, rfl, hj, ?_⟩
        cases hoe : out.err with
        | some err =>
          simp only [hoe] at h
          cases h
          exact ⟨rfl, Or.inl ⟨err, rfl, rfl⟩⟩
        | none =>
          simp only [hoe] at h
          cases hg : asString ((out.value.getD mapDest.zero).get? "groupId") with
          | none =>
            simp only [hg] at h
            cases h
            exact ⟨rfl, Or.inr ⟨rfl, _, rfl, rfl⟩⟩
          | some groupId =>
            simp only [hg] at h
            cases h
            exact ⟨rfl, Or.inr ⟨rfl, _, rfl, rfl⟩⟩

/-- C20: group `Update` (a rename) first makes a DELETE addressed by the name
held in the state (`?groupname=<old name>`), and all the requests of that
step are this DELETE. When the DELETE fails, the error "Error deleting old
group during rename" is the result and nothing else was sent: no POST. When it
succeeds, a POST with the planned name follows. When that POST fails, the
result is the error "Error creating new group during rename", which stores no
state and whose label differs from the one of the delete step and from the
one of a plain `Create` ("Error creating group"). In a world that never asks
for a retry, `Update` returns this result for every positive fuel. -/
theorem group_update_rename (w : World) (c : Client) (plan state : GroupResourceModel)
    (fuel : Nat) (net : Net) (r : Result GroupResourceModel × Net)
    (h : GroupResource.Update w c plan state fuel net = some r) :
    ((GroupResource.renameDelete c state).method = "DELETE"
      ∧ (GroupResource.renameDelete c state).url
          = c.BaseURL
            ++ ("/rest/api/3/group?groupname=" ++ QueryEscape state.Name.ValueString)
      ∧ (GroupResource.renamePost c plan).method = "POST"
      ∧ (GroupResource.renamePost c plan).url = c.BaseURL ++ "/rest/api/3/group"
      ∧ (GroupResource.renamePost c plan).body
          = some (.obj [("name", .str plan.Name.ValueString)]))
    ∧ (∃ deleted : Outcome Unit,
        Client.DeleteWithQuery w c "/rest/api/3/group" [("groupname", state.Name.ValueString)]
          fuel net = some deleted
        ∧ (∃ k, deleted.net.sent
            = net.sent ++ List.replicate k (GroupResource.renameDelete c state))
        ∧ ((∃ err, deleted.err = some err
              ∧ r = (.failed "Error deleting old group during rename" (err.Error w.pick),
                  deleted.net))
          ∨ (deleted.err = none
              ∧ ∃ out : Outcome GoMap,
                Client.Post w c "/rest/api/3/group"
                  (some (.obj [("name", .str plan.Name.ValueString)])) (some mapDest) fuel
                  deleted.net = some out
                ∧ (∃ j, out.net.sent
                    = deleted.net.sent ++ List.replicate j (GroupResource.renamePost c plan))
                ∧ r.2 = out.net
                ∧ ((∃ err, out.err = some err
                      ∧ r.1 = .failed "Error creating new group during rename"
                          (err.Error w.pick))
                  ∨ (out.err = none ∧ ∃ st, r.1 = .stored st ∧ st.Name = plan.Name)))))
    ∧ (∀ detail, r.1 = .failed "Error creating new group during rename" detail →
        r.1.stored? = none
        ∧ r.1.diagnostic ≠ some ("Error deleting old group during rename", detail)
        ∧ r.1.diagnostic ≠ some ("Error creating group", detail))
    ∧ (∀ (out : Outcome GoMap) (err : GoError),
        Client.Post w c "/rest/api/3/group"
          (some (.obj [("name", .str plan.Name.ValueString)])) (some mapDest) fuel net = some out →
        out.err = some err →
        GroupResource.Create w c plan fuel net
          = some (.failed "Error creating group" (err.Error w.pick), out.net))
    ∧ ((∀ sent req, (w.server sent req).retried = false) →
        ∀ fuel', GroupResource.Update w c plan state (fuel' + 1) net = some r) := by
  refine ⟨⟨rfl, ?_, rfl, rfl, rfl⟩, GroupResource.Update_steps w c plan state fuel net r h,
    fun detail hr => ?_, fun out err hpost herr => ?_, fun hnever fuel' => ?_⟩
  · show c.BaseURL
        ++ ("/rest/api/3/group" ++ "?" ++ encodeValues [("groupname", state.Name.ValueString)])
      = c.BaseURL ++ ("/rest/api/3/group?groupname=" ++ QueryEscape state.Name.ValueString)
    rw [encodeValues_groupname, ← String.append_assoc ("/rest/api/3/group" ++ "?")]
    have hlit : "/rest/api/3/group" ++ "?" ++ "groupname=" = "/rest/api/3/group?groupname=" := by
      decide
    rw [hlit]
  · rw [hr]
    refine ⟨rfl, ?_, ?_⟩
    · intro heq
      have h1 := congrArg (fun d => d.map (fun p => p.1)) heq
      simp only [Result.diagnostic, Option.map_some'] at h1
      exact absurd (Option.some.inj h1) (by decide)
    · intro heq
      have h1 := congrArg (fun d => d.map (fun p => p.1)) heq
      simp only [Result.diagnostic, Option.map_some'] at h1
      exact absurd (Option.some.inj h1) (by decide)
  · simp only [GroupResource.Create, hpost, herr]
  · have hfuel : ∃ n, fuel = n + 1 := by
      cases fuel with
      | zero =>
        have h0 : GroupResource.Update w c plan state 0 net = none := rfl
        rw [h0] at h
        cases h
      | succ n => exact ⟨n, rfl⟩
    obtain ⟨n, rfl⟩ := hfuel
    rw [GroupResource.Update_fuel w c plan state net hnever fuel' n]
    exact h

/-- C20 (witness): the DELETE of `old-team` is answered with an HTTP 204 and
the POST of `new-team` with an HTTP 500: the result is the error of the create
step of the rename, after exactly these two requests. -/
theorem group_update_rename_witness :
    GroupResource.Update deletedThenFailing exampleClient newGroup oldGroup 1 Net.start
      = some (.failed "Error creating new group during rename" "JIRA API error (HTTP 500)",
          { sent := [GroupResource.renameDelete exampleClient oldGroup,
                     GroupResource.renamePost exampleClient newGroup],
            slept := [] })
    ∧ (GroupResource.renameDelete exampleClient oldGroup).url
        = "https://example.atlassian.net"
          ++ ("/rest/api/3/group?groupname=" ++ QueryEscape "old-team")
    ∧ (∀ fuel, GroupResource.Update deletedThenFailing exampleClient newGroup oldGroup
          (fuel + 1) Net.start
        = some (.failed "Error creating new group during rename" "JIRA API error (HTTP 500)",
            { sent := [GroupResource.renameDelete exampleClient oldGroup,
                       GroupResource.renamePost exampleClient newGroup],
              slept := [] })) :=
  have h := group_update_rename deletedThenFailing exampleClient newGroup oldGroup 1 Net.start
    (.failed "Error creating new group during rename" "JIRA API error (HTTP 500)",
      { sent := [GroupResource.renameDelete exampleClient oldGroup,
                 GroupResource.renamePost exampleClient newGroup],
        slept := [] }) rfl
  ⟨rfl, h.1.2.1, h.2.2.2.2 (fun sent _ => by
    show (([Reply.answered (plainResponse 204 "" (.error "unexpected end of JSON input"))]).getD
      sent.length (.answered (plainResponse 500 "" (.error "unexpected end of JSON input")))).retried
      = false
    cases sent with
    | nil => rfl
    | cons q rest => rfl)⟩

/-! ### Group memberships -/

/-- C21: `Update` of a group membership fails fast for every input: whatever
the world, the client, the plan, the state, the fuel and the requests made so
far, it returns at once with the error diagnostic `Unexpected update`, stores
nothing and leaves the requests sent and the sleeps as they were. -/
theorem groupMembership_update_fails_fast (w : World) (c : Client)
    (plan state : GroupMembershipResourceModel) (fuel : Nat) (net : Net) :
    ∃ r : Result GroupMembershipResourceModel × Net,
      GroupMembershipResource.Update w c plan state fuel net = some r
      ∧ r.1.diagnostic = some ("Unexpected update",
          "Group membership does not support in-place updates. Both group_name and account_id require replacement.")
      ∧ r.1.stored? = none
      ∧ r.2 = net
      ∧ r.2.sent = net.sent :=
  ⟨_, rfl, rfl, rfl, rfl, rfl⟩

/-- Two lists that agree once a separator is put after a prefix without the
separator have the same prefix and the same rest. -/
theorem append_sep_inj {α : Type} (x : α) :
    ∀ (l1 l2 r1 r2 : List α), x ∉ l1 → x ∉ l2 → l1 ++ x :: r1 = l2 ++ x :: r2 →
      l1 = l2 ∧ r1 = r2
  | [], [], _, _, _, _, h => ⟨rfl, (List.cons.inj h).2⟩
  | [], b :: l2, _, _, _, h2, h =>
    absurd (List.mem_cons.mpr (Or.inl (List.cons.inj h).1)) h2
  | a :: l1, [], _, _, h1, _, h =>
    absurd (List.mem_cons.mpr (Or.inl (List.cons.inj h).1.symm)) h1
  | a :: l1, b :: l2, r1, r2, h1, h2, h => by
    have hh := List.cons.inj h
    have ih := append_sep_inj x l1 l2 r1 r2
      (fun hm => h1 (List.mem_cons_of_mem _ hm)) (fun hm => h2 (List.mem_cons_of_mem _ hm)) hh.2
    exact ⟨by rw [hh.1, ih.1], ih.2⟩

/-- The same with the separator absent from the rests instead. -/
theorem append_sep_inj_right {α : Type} (x : α) (l1 l2 r1 r2 : List α)
    (h1 : x ∉ r1) (h2 : x ∉ r2) (h : l1 ++ x :: r1 = l2 ++ x :: r2) :
    l1 = l2 ∧ r1 = r2 := by
  have hrev : r1.reverse ++ x :: l1.reverse = r2.reverse ++ x :: l2.reverse := by
    have := congrArg List.reverse h
    simpa [List.reverse_append, List.reverse_cons, List.append_assoc] using this
  have := append_sep_inj x r1.reverse r2.reverse l1.reverse l2.reverse
    (fun hm => h1 (List.mem_reverse.mp hm)) (fun hm => h2 (List.mem_reverse.mp hm)) hrev
  exact ⟨List.reverse_injective this.2, List.reverse_injective this.1⟩

/-- The characters of a composite id. -/
theorem composite_data (g a : String) : (g ++ "/" ++ a).data = g.data ++ '/' :: a.data := by
  simp only [String.data_append, List.append_assoc]
  rfl

/-- C27 (counterexample): the memberships of the account `c` in the group
`a/b` and of the account `b/c` in the group `a` are created with the same
id, `a/b/c`. -/
theorem groupMembership_composite_id_collision :
    (GroupMembershipResource.Create noContentWorld exampleClient (membership "a/b" "c") 1
        Net.start).map (fun r => r.1.stored?.map (fun st => st.ID.ValueString))
      = some (some "a/b/c")
    ∧ (GroupMembershipResource.Create noContentWorld exampleClient (membership "a" "b/c") 1
        Net.start).map (fun r => r.1.stored?.map (fun st => st.ID.ValueString))
      = some (some "a/b/c")
    ∧ ("a/b" ≠ "a" ∧ "c" ≠ "b/c") := by
  refine ⟨?_, ?_, ?_, ?_⟩ <;> decide

/-- C27 (amended): the id that `Create` stores for a membership is the group
name, a `/` and the account id. When no group name holds a `/`, or no
account id holds one, the id identifies the membership: two memberships
stored with the same id have the same group name and the same account id. -/
theorem groupMembership_composite_id_injective (w1 w2 : World) (c1 c2 : Client)
    (p1 p2 s1 s2 : GroupMembershipResourceModel) (fuel1 fuel2 : Nat) (net1 net2 net1' net2' : Net)
    (h1 : GroupMembershipResource.Create w1 c1 p1 fuel1 net1 = some (.stored s1, net1'))
    (h2 : GroupMembershipResource.Create w2 c2 p2 fuel2 net2 = some (.stored s2, net2'))
    (hsep : ('/' ∉ p1.GroupName.ValueString.data ∧ '/' ∉ p2.GroupName.ValueString.data)
      ∨ ('/' ∉ p1.AccountID.ValueString.data ∧ '/' ∉ p2.AccountID.ValueString.data))
    (hid : s1.ID = s2.ID) :
    s1.ID = .value (p1.GroupName.ValueString ++ "/" ++ p1.AccountID.ValueString)
    ∧ p1.GroupName.ValueString = p2.GroupName.ValueString
    ∧ p1.AccountID.ValueString = p2.AccountID.ValueString := by
  have key : ∀ (w : World) (c : Client) (p s : GroupMembershipResourceModel) (fuel : Nat)
      (net net' : Net),
      GroupMembershipResource.Create w c p fuel net = some (.stored s, net') →
      s.ID = .value (p.GroupName.ValueString ++ "/" ++ p.AccountID.ValueString) := by
    intro w c p s fuel net net' h
    simp only [GroupMembershipResource.Create] at h
    cases hpost : Client.Post w c
        ("/rest/api/3/group/user?" ++ encodeValues [("groupname", p.GroupName.ValueString)])
        (some (.obj [("accountId", .str p.AccountID.ValueString)])) (none : Option (Dest Unit))
        fuel net with
    | none => rw [hpost] at h; cases h
    | some out =>
      rw [hpost] at h
      cases herr : out.err with
      | some err => simp only [herr] at h; cases h
      | none => simp only [herr] at h; cases h; rfl
  have e1 := key w1 c1 p1 s1 fuel1 net1 net1' h1
  have e2 := key w2 c2 p2 s2 fuel2 net2 net2' h2
  rw [e1, e2] at hid
  have hdata := congrArg String.data (Tf.value.inj hid)
  rw [composite_data, composite_data] at hdata
  refine ⟨e1, ?_⟩
  rcases hsep with ⟨hg1, hg2⟩ | ⟨ha1, ha2⟩
  · have := append_sep_inj '/' _ _ _ _ hg1 hg2 hdata
    exact ⟨String.ext this.1, String.ext this.2⟩
  · have := append_sep_inj_right '/' _ _ _ _ ha1 ha2 hdata
    exact ⟨String.ext this.1, String.ext this.2⟩

/-- C27 (witness): the membership of `acc-1` in `jira-admins`, created twice,
has one id, `jira-admins/acc-1`. -/
theorem groupMembership_composite_id_injective_witness :
    GroupMembershipResource.Create noContentWorld exampleClient
        (membership "jira-admins" "acc-1") 1 Net.start
      = some (.stored { membership "jira-admins" "acc-1" with
            ID := .value "jira-admins/acc-1" },
          { sent := [exampleClient.request "POST" "/rest/api/3/group/user?groupname=jira-admins"
                      (some (.obj [("accountId", .str "acc-1")]))],
            slept := [] })
    ∧ ({ membership "jira-admins" "acc-1" with
          ID := .value "jira-admins/acc-1" } : GroupMembershipResourceModel).ID
        = .value ((membership "jira-admins" "acc-1").GroupName.ValueString ++ "/"
            ++ (membership "jira-admins" "acc-1").AccountID.ValueString) :=
  ⟨rfl, (groupMembership_composite_id_injective noContentWorld noContentWorld exampleClient
    exampleClient (membership "jira-admins" "acc-1") (membership "jira-admins" "acc-1")
    { membership "jira-admins" "acc-1" with ID := .value "jira-admins/acc-1" }
    { membership "jira-admins" "acc-1" with ID := .value "jira-admins/acc-1" }
    1 1 Net.start Net.start _ _ rfl rfl (Or.inl ⟨by decide, by decide⟩) rfl).1⟩

/-! ### Update of a project -/

/-- The run of a PUT step that is not decoded, followed by other steps. -/
theorem runSteps_put (w : World) (c : Client) (summary path : String) (body : JVal)
    (rest : List UpdateStep) (fuel : Nat) (net : Net) :
    runSteps w c (.put summary path body false :: rest) fuel net
      = match Client.Put w c path (some body) (none : Option (Dest Unit)) fuel net with
        | none => none
        | some out =>
          match out.err with
          | some err => some (some (summary, err.Error w.pick), out.net)
          | none => runSteps w c rest fuel out.net := by
  simp only [runSteps]
  cases Client.Put w c path (some body) (none : Option (Dest Unit)) fuel net with
  | none => rfl
  | some out =>
    cases h : out.err with
    | none => simp [h]
    | some err => simp [h]

/-- The run of a PUT step that is decoded into a map, followed by other steps. -/
theorem runSteps_put_decoded (w : World) (c : Client) (summary path : String) (body : JVal)
    (rest : List UpdateStep) (fuel : Nat) (net : Net) :
    runSteps w c (.put summary path body true :: rest) fuel net
      = match Client.Put w c path (some body) (some mapDest) fuel net with
        | none => none
        | some out =>
          match out.err with
          | some err => some (some (summary, err.Error w.pick), out.net)
          | none => runSteps w c rest fuel out.net := by
  simp only [runSteps]
  cases Client.Put w c path (some body) (some mapDest) fuel net with
  | none => rfl
  | some out =>
    cases h : out.err with
    | none => simp [h]
    | some err => simp [h]

/-- The workflow scheme block of `ProjectResource.Update` is the run of its
step. -/
theorem ProjectResource.Update.workflowScheme_eq (w : World) (c : Client)
    (plan : ProjectResourceModel) (fuel : Nat) (net : Net) :
    ProjectResource.Update.workflowScheme w c plan fuel net
      = (runSteps w c (ProjectResource.workflowSchemeSteps plan) fuel net).map
          (finishUpdate plan) := by
  unfold ProjectResource.Update.workflowScheme ProjectResource.workflowSchemeSteps
  split
  · rw [runSteps_put]
    cases Client.Put w c "/rest/api/3/workflowscheme/project"
        (some (.obj [("projectId", .str plan.ID.ValueString),
                     ("workflowSchemeId", .str plan.WorkflowSchemeID.ValueString)]))
        (none : Option (Dest Unit)) fuel net with
    | none => rfl
    | some out =>
      cases h : out.err with
      | none => simp [h, runSteps, finishUpdate]
      | some err => simp [h, finishUpdate]
  · rfl

/-- From the permission scheme block on, `ProjectResource.Update` is the run
of the last two steps. -/
theorem ProjectResource.Update.permissionScheme_eq (w : World) (c : Client)
    (plan : ProjectResourceModel) (fuel : Nat) (net : Net) :
    ProjectResource.Update.permissionScheme w c plan fuel net
      = (runSteps w c
          (ProjectResource.permissionSchemeSteps plan ++ ProjectResource.workflowSchemeSteps plan)
          fuel net).map (finishUpdate plan) := by
  unfold ProjectResource.Update.permissionScheme ProjectResource.permissionSchemeSteps
  split
  · cases hparse : ParseInt64 plan.PermissionSchemeID.ValueString with
    | none => simp [runSteps, finishUpdate]
    | some id =>
      simp only [List.singleton_append]
      rw [runSteps_put]
      cases Client.Put w c
          ("/rest/api/3/project/" ++ plan.Key.ValueString ++ "/permissionscheme")
          (some (.obj [("id", .num (some id) (fmtD id))])) (none : Option (Dest Unit))
          fuel net with
      | none => rfl
      | some out =>
        cases h : out.err with
        | none => simp [h, ProjectResource.Update.workflowScheme_eq]
        | some err => simp [h, finishUpdate]
  · simp only [List.nil_append]
    exact ProjectResource.Update.workflowScheme_eq w c plan fuel net

/-- From the issue type scheme block on, `ProjectResource.Update` is the run
of the last three steps. -/
theorem ProjectResource.Update.issueTypeScheme_eq (w : World) (c : Client)
    (plan : ProjectResourceModel) (fuel : Nat) (net : Net) :
    ProjectResource.Update.issueTypeScheme w c plan fuel net
      = (runSteps w c
          (ProjectResource.issueTypeSchemeSteps plan
            ++ (ProjectResource.permissionSchemeSteps plan
              ++ ProjectResource.workflowSchemeSteps plan))
          fuel net).map (finishUpdate plan) := by
  unfold ProjectResource.Update.issueTypeScheme ProjectResource.issueTypeSchemeSteps
  split
  · simp only [List.singleton_append]
    rw [runSteps_put]
    cases Client.Put w c "/rest/api/3/issuetypescheme/project"
        (some (.obj [("issueTypeSchemeId", .str plan.IssueTypeSchemeID.ValueString),
                     ("projectId", .str plan.ID.ValueString)]))
        (none : Option (Dest Unit)) fuel net with
    | none => rfl
    | some out =>
      cases h : out.err with
      | none => simp [h, ProjectResource.Update.permissionScheme_eq]
      | some err => simp [h, finishUpdate]
  · simp only [List.nil_append]
    exact ProjectResource.Update.permissionScheme_eq w c plan fuel net

/-- The method `ProjectResource.Update` is the run of `updateSteps`: the plan
is stored when every step succeeds, and the diagnostic of the first step that
fails is the result otherwise. -/
theorem ProjectResource.Update_eq_runSteps (w : World) (c : Client)
    (plan : ProjectResourceModel) (fuel : Nat) (net : Net) :
    ProjectResource.Update w c plan fuel net
      = (runSteps w c (ProjectResource.updateSteps plan) fuel net).map (finishUpdate plan) := by
  unfold ProjectResource.Update ProjectResource.updateSteps
  rw [runSteps_put_decoded]
  cases Client.Put w c ("/rest/api/3/project/" ++ plan.Key.ValueString)
      (some (ProjectResource.updateBody plan)) (some mapDest) fuel net with
  | none => rfl
  | some out =>
    cases h : out.err with
    | none => simp [h, ProjectResource.Update.issueTypeScheme_eq]
    | some err => simp [h, finishUpdate]

/-- The requests of a run of steps: the steps up to the one that ended the run
are `done`, each PUT among them sent its request once per attempt, in order,
and the steps after it sent nothing. When a step failed, it is the last of
`done` and the diagnostic carries its summary. -/
theorem runSteps_trace (w : World) (c : Client) (steps : List UpdateStep) (fuel : Nat) :
    ∀ (net : Net) (d : Option (String × String)) (net' : Net),
      runSteps w c steps fuel net = some (d, net') →
      ∃ done rest reqs, steps = done ++ rest ∧ Trace c done reqs
        ∧ net'.sent = net.sent ++ reqs
        ∧ (d = none → rest = [])
        ∧ (∀ diag, d = some diag → ∃ s, done.getLast? = some s ∧ diag.1 = s.summary) := by
  induction steps with
  | nil =>
    intro net d net' h
    simp only [runSteps] at h
    cases h
    exact ⟨[], [], [], rfl, Trace.nil, (List.append_nil _).symm, fun _ => rfl,
      fun diag hd => by cases hd⟩
  | cons step rest ih =>
    intro net d net' h
    cases step with
    | reject summary detail =>
      simp only [runSteps] at h
      cases h
      exact ⟨[.reject summary detail], rest, [], rfl, Trace.reject _ _ _ _ Trace.nil,
        (List.append_nil _).symm, fun hd => (by cases hd),
        fun diag hd => ⟨_, rfl, (by cases hd; rfl)⟩⟩
    | put summary path body decodes =>
      have hcall : ∃ (err : Option GoError) (net1 : Net) (k : Nat),
          net1.sent = net.sent ++ List.replicate k (c.request "PUT" path (some body))
          ∧ (match err with
             | some e => some (some (summary, e.Error w.pick), net1)
             | none => runSteps w c rest fuel net1) = some (d, net') := by
        cases decodes with
        | false =>
          rw [runSteps_put] at h
          cases hput : Client.Put w c path (some body) (none : Option (Dest Unit)) fuel net with
          | none => rw [hput] at h; cases h
          | some out =>
            rw [hput] at h
            obtain ⟨k, hk⟩ := doRequest_sent w c "PUT" path (some body) _ fuel net out hput
            exact ⟨out.err, out.net, k, hk, h⟩
        | true =>
          rw [runSteps_put_decoded] at h
          cases hput : Client.Put w c path (some body) (some mapDest) fuel net with
          | none => rw [hput] at h; cases h
          | some out =>
            rw [hput] at h
            obtain ⟨k, hk⟩ := doRequest_sent w c "PUT" path (some body) _ fuel net out hput
            exact ⟨out.err, out.net, k, hk, h⟩
      obtain ⟨err, net1, k, hk, hrest⟩ := hcall
      cases err with
      | some e =>
        simp only [Option.some.injEq, Prod.mk.injEq] at hrest
        obtain ⟨hd, hnet⟩ := hrest
        subst hd hnet
        refine ⟨[.put summary path body decodes], rest, _, rfl,
          Trace.put summary path body decodes k [] [] Trace.nil, ?_, fun hd => (by cases hd),
          fun diag hd => ⟨_, rfl, (by cases hd; rfl)⟩⟩
        rw [hk, List.append_nil]
      | none =>
        obtain ⟨done, rest', reqs, hsplit, htrace, hsent, hnone, hsome⟩ := ih net1 d net' hrest
        refine ⟨.put summary path body decodes :: done, rest', _, by rw [hsplit]; rfl,
          Trace.put summary path body decodes k done reqs htrace, ?_, hnone, fun diag hd => ?_⟩
        · rw [hsent, hk, List.append_assoc]
        · obtain ⟨s, hlast, hsum⟩ := hsome diag hd
          refine ⟨s, ?_, hsum⟩
          cases done with
          | nil => cases hlast
          | cons b l => rw [List.getLast?_cons_cons]; exact hlast

/-- In a world that never asks for a retry, a run of steps gives the same
outcome for every positive fuel. -/
theorem runSteps_fuel (w : World) (c : Client)
    (hnever : ∀ sent req, (w.server sent req).retried = false) (steps : List UpdateStep)
    (n m : Nat) :
    ∀ net, runSteps w c steps (n + 1) net = runSteps w c steps (m + 1) net := by
  induction steps with
  | nil => intro net; rfl
  | cons step rest ih =>
    intro net
    cases step with
    | reject summary detail => rfl
    | put summary path body decodes =>
      cases decodes with
      | false =>
        rw [runSteps_put, runSteps_put]
        have hput : Client.Put w c path (some body) (none : Option (Dest Unit)) (n + 1) net
            = Client.Put w c path (some body) (none : Option (Dest Unit)) (m + 1) net :=
          doRequest_fuel_irrelevant w c "PUT" _ _ _ net (hnever _ _) n m
        rw [hput]
        cases Client.Put w c path (some body) (none : Option (Dest Unit)) (m + 1) net with
        | none => rfl
        | some out =>
          cases h : out.err with
          | none => simp only [h]; exact ih out.net
          | some err => simp only [h]
      | true =>
        rw [runSteps_put_decoded, runSteps_put_decoded]
        have hput : Client.Put w c path (some body) (some mapDest) (n + 1) net
            = Client.Put w c path (some body) (some mapDest) (m + 1) net :=
          doRequest_fuel_irrelevant w c "PUT" _ _ _ net (hnever _ _) n m
        rw [hput]
        cases Client.Put w c path (some body) (some mapDest) (m + 1) net with
        | none => rfl
        | some out =>
          cases h : out.err with
          | none => simp only [h]; exact ih out.net
          | some err => simp only [h]

/-- C22: `Update` of a project is the run, in order, of the PUT of the base
attributes and of the assignments of the issue type scheme, the permission
scheme and the workflow scheme, each present only when its id is set
(`updateSteps`). Whatever it returns, the steps split into those run and
those not run: the requests sent are those of the steps run, in their order,
and nothing was sent for a later step. Either every step was run and the plan
is stored, or the last step run failed: then the result is the error
diagnostic with the summary of that step and no state is stored. In a world
that never asks for a retry, `Update` returns this result for every positive
fuel. -/
theorem project_update_ordered_halting (w : World) (c : Client) (plan : ProjectResourceModel)
    (fuel : Nat) (net : Net) (r : Result ProjectResourceModel × Net)
    (h : ProjectResource.Update w c plan fuel net = some r) :
    ProjectResource.Update w c plan fuel net
      = (runSteps w c (ProjectResource.updateSteps plan) fuel net).map (finishUpdate plan)
    ∧ (∃ done rest reqs, ProjectResource.updateSteps plan = done ++ rest ∧ Trace c done reqs
        ∧ r.2.sent = net.sent ++ reqs
        ∧ ((r.1 = .stored plan ∧ rest = [])
          ∨ (∃ s detail, done.getLast? = some s ∧ r.1 = .failed s.summary detail
              ∧ r.1.stored? = none)))
    ∧ ((∀ sent req, (w.server sent req).retried = false) →
        ∀ fuel', ProjectResource.Update w c plan (fuel' + 1) net = some r) := by
  have heq := ProjectResource.Update_eq_runSteps w c plan fuel net
  refine ⟨heq, ?_, fun hnever fuel' => ?_⟩
  · rw [heq] at h
    cases hrun : runSteps w c (ProjectResource.updateSteps plan) fuel net with
    | none => rw [hrun] at h; cases h
    | some res =>
      rw [hrun] at h
      obtain ⟨d, net'⟩ := res
      obtain ⟨done, rest, reqs, hsplit, htrace, hsent, hnone, hsome⟩ :=
        runSteps_trace w c _ fuel net d net' hrun
      simp only [Option.map_some', Option.some.injEq] at h
      subst h
      refine ⟨done, rest, reqs, hsplit, htrace, ?_, ?_⟩
      · cases d <;> exact hsent
      · cases d with
        | none => exact Or.inl ⟨rfl, hnone rfl⟩
        | some diag =>
          obtain ⟨s, hlast, hsum⟩ := hsome diag rfl
          refine Or.inr ⟨s, diag.2, hlast, ?_, rfl⟩
          simp only [finishUpdate, hsum]
  · have hfuel : ∃ n, fuel = n + 1 := by
      cases fuel with
      | zero =>
        have h0 : ProjectResource.Update w c plan 0 net = none := rfl
        rw [h0] at h
        cases h
      | succ n => exact ⟨n, rfl⟩
    obtain ⟨n, rfl⟩ := hfuel
    rw [ProjectResource.Update_eq_runSteps, runSteps_fuel w c hnever _ fuel' n,
      ← ProjectResource.Update_eq_runSteps]
    exact h

/-- C22 (witness): the PUT of the base attributes and the assignment of the
issue type scheme succeed and the assignment of the permission scheme is
answered with an HTTP 500: `Update` reports that failure after these three
requests and sends nothing for the workflow scheme. -/
theorem project_update_ordered_halting_witness :
    ProjectResource.Update twoThenFailing exampleClient projectPlan 1 Net.start
      = some (.failed "Error assigning permission scheme to project" "JIRA API error (HTTP 500)",
          { sent := [exampleClient.request "PUT" "/rest/api/3/project/OPS"
                      (some (ProjectResource.updateBody projectPlan)),
                     exampleClient.request "PUT" "/rest/api/3/issuetypescheme/project"
                      (some (.obj [("issueTypeSchemeId", .str "10100"),
                                   ("projectId", .str "10000")])),
                     exampleClient.request "PUT" "/rest/api/3/project/OPS/permissionscheme"
                      (some (.obj [("id", .num (some 10001) "10001")]))],
            slept := [] })
    ∧ (∀ fuel, ProjectResource.Update twoThenFailing exampleClient projectPlan (fuel + 1)
          Net.start
        = some (.failed "Error assigning permission scheme to project"
            "JIRA API error (HTTP 500)",
            { sent := [exampleClient.request "PUT" "/rest/api/3/project/OPS"
                        (some (ProjectResource.updateBody projectPlan)),
                       exampleClient.request "PUT" "/rest/api/3/issuetypescheme/project"
                        (some (.obj [("issueTypeSchemeId", .str "10100"),
                                     ("projectId", .str "10000")])),
                       exampleClient.request "PUT" "/rest/api/3/project/OPS/permissionscheme"
                        (some (.obj [("id", .num (some 10001) "10001")]))],
              slept := [] })) :=
  ⟨rfl, (project_update_ordered_halting twoThenFailing exampleClient projectPlan 1 Net.start
    _ rfl).2.2 (fun sent _ => by
      show (([Reply.answered (plainResponse 204 "" (.error "unexpected end of JSON input")),
              Reply.answered (plainResponse 204 "" (.error "unexpected end of JSON input"))]).getD
        sent.length
        (.answered (plainResponse 500 "" (.error "unexpected end of JSON input")))).retried
        = false
      cases sent with
      | nil => rfl
      | cons q rest =>
        cases rest with
        | nil => rfl
        | cons q2 rest2 => rfl)⟩

/-! ### Errors of the fetches of Read -/

/-- C23 (counterexample): the fetch of the issue type scheme 10000 succeeds
and the fetch of its mapping is answered with an HTTP 500. `Read` adds no
diagnostic: it stores the record, with the issue type ids it had, after the
two requests. -/
theorem issueTypeScheme_read_mapping_error_ignored :
    (Client.Get schemeThenFailing exampleClient
        "/rest/api/3/issuetypescheme/mapping?issueTypeSchemeId=10000" (some mapDest) 1
        { sent := [exampleClient.request "GET" "/rest/api/3/issuetypescheme?id=10000" none],
          slept := [] }).map (fun out => out.report 0)
      = some (some "JIRA API error (HTTP 500)", false)
    ∧ (ResourceKind.Read ResourceKind.issueTypeScheme schemeThenFailing exampleClient
        storedScheme 1 Net.start).map
        (fun r => (r.1.diagnostic, r.1.isRemoved,
          r.1.stored?.map (fun st => elementsAsStrings st.IssueTypeIDs),
          r.2.sent.map (fun q => (q.method, q.url))))
      = some (none, false, some (some ["10001"]),
          [("GET", "https://example.atlassian.net/rest/api/3/issuetypescheme?id=10000"),
           ("GET", "https://example.atlassian.net/rest/api/3/issuetypescheme/mapping?issueTypeSchemeId=10000")]) :=
  ⟨by decide, rfl⟩

/-- An error of the first fetch of `Read` that `IsNotFound` does not take for
a 404 is reported, for every kind. -/
theorem ResourceKind.Read_first_fetch_error (k : ResourceKind) (w : World) (c : Client)
    (state : k.Model) (fuel : Nat) (net : Net) (err : GoError) (net1 : Net)
    (hfetch : k.firstFetch w c state fuel net = some (some err, net1))
    (hnot : IsNotFound (some err) = false) :
    k.Read w c state fuel net = some (.failed k.readSummary (err.Error w.pick), net1) := by
  cases k with
  | automationRule =>
    simp only [ResourceKind.firstFetch, ResourceKind.readPath, Option.map_eq_some'] at hfetch
    obtain ⟨out, hget, hpair⟩ := hfetch
    simp only [Prod.mk.injEq] at hpair
    obtain ⟨herr, hnet⟩ := hpair
    subst hnet
    simp only [ResourceKind.Read, AutomationRuleResource.Read, hget, herr, hnot,
      ResourceKind.readSummary, Bool.false_eq_true, if_false]
  | customField =>
    simp only [ResourceKind.firstFetch, ResourceKind.readPath, Option.map_eq_some'] at hfetch
    obtain ⟨out, hget, hpair⟩ := hfetch
    simp only [Prod.mk.injEq] at hpair
    obtain ⟨herr, hnet⟩ := hpair
    subst hnet
    simp only [ResourceKind.Read, CustomFieldResource.Read, hget, herr, hnot,
      ResourceKind.readSummary, Bool.false_eq_true, if_false]
  | group =>
    simp only [ResourceKind.firstFetch, ResourceKind.readPath, Option.map_eq_some'] at hfetch
    obtain ⟨out, hget, hpair⟩ := hfetch
    simp only [Prod.mk.injEq] at hpair
    obtain ⟨herr, hnet⟩ := hpair
    subst hnet
    simp only [ResourceKind.Read, GroupResource.Read, hget, herr, hnot,
      ResourceKind.readSummary, Bool.false_eq_true, if_false]
  | groupMembership =>
    simp only [ResourceKind.firstFetch, ResourceKind.readPath, Option.map_eq_some'] at hfetch
    obtain ⟨out, hget, hpair⟩ := hfetch
    simp only [Prod.mk.injEq] at hpair
    obtain ⟨herr, hnet⟩ := hpair
    subst hnet
    simp only [ResourceKind.Read, GroupMembershipResource.Read, hget, herr, hnot,
      ResourceKind.readSummary, Bool.false_eq_true, if_false]
  | issueType =>
    simp only [ResourceKind.firstFetch, ResourceKind.readPath, Option.map_eq_some'] at hfetch
    obtain ⟨out, hget, hpair⟩ := hfetch
    simp only [Prod.mk.injEq] at hpair
    obtain ⟨herr, hnet⟩ := hpair
    subst hnet
    simp only [ResourceKind.Read, IssueTypeResource.Read, hget, herr, hnot,
      ResourceKind.readSummary, Bool.false_eq_true, if_false]
  | issueTypeScheme =>
    simp only [ResourceKind.firstFetch, ResourceKind.readPath, Option.map_eq_some'] at hfetch
    obtain ⟨out, hget, hpair⟩ := hfetch
    simp only [Prod.mk.injEq] at hpair
    obtain ⟨herr, hnet⟩ := hpair
    subst hnet
    simp only [ResourceKind.Read, IssueTypeSchemeResource.Read, hget, herr, hnot,
      ResourceKind.readSummary, Bool.false_eq_true, if_false]
  | permissionScheme =>
    simp only [ResourceKind.firstFetch, ResourceKind.readPath, Option.map_eq_some'] at hfetch
    obtain ⟨out, hget, hpair⟩ := hfetch
    simp only [Prod.mk.injEq] at hpair
    obtain ⟨herr, hnet⟩ := hpair
    subst hnet
    simp only [ResourceKind.Read, PermissionSchemeResource.Read, hget, herr, hnot,
      ResourceKind.readSummary, Bool.false_eq_true, if_false]
  | project =>
    simp only [ResourceKind.firstFetch, ResourceKind.readPath, Option.map_eq_some'] at hfetch
    obtain ⟨out, hget, hpair⟩ := hfetch
    simp only [Prod.mk.injEq] at hpair
    obtain ⟨herr, hnet⟩ := hpair
    subst hnet
    simp only [ResourceKind.Read, ProjectResource.Read, hget, herr, hnot,
      ResourceKind.readSummary, Bool.false_eq_true, if_false]
  | projectComponent =>
    simp only [ResourceKind.firstFetch, ResourceKind.readPath, Option.map_eq_some'] at hfetch
    obtain ⟨out, hget, hpair⟩ := hfetch
    simp only [Prod.mk.injEq] at hpair
    obtain ⟨herr, hnet⟩ := hpair
    subst hnet
    simp only [ResourceKind.Read, ProjectComponentResource.Read, hget, herr, hnot,
      ResourceKind.readSummary, Bool.false_eq_true, if_false]
  | workflowScheme =>
    simp only [ResourceKind.firstFetch, ResourceKind.readPath, Option.map_eq_some'] at hfetch
    obtain ⟨out, hget, hpair⟩ := hfetch
    simp only [Prod.mk.injEq] at hpair
    obtain ⟨herr, hnet⟩ := hpair
    subst hnet
    simp only [ResourceKind.Read, WorkflowSchemeResource.Read, hget, herr, hnot,
      ResourceKind.readSummary, Bool.false_eq_true, if_false]

/-- The error of the mapping fetch of `IssueTypeSchemeResource.Read` is
dropped: when the first fetch succeeds and the second returns an error,
whatever it is, `Read` stores the record with the issue type ids it had
(unless the first entry of `values` is not an object). -/
theorem IssueTypeSchemeResource.Read_mapping_error (w : World) (c : Client)
    (state : IssueTypeSchemeResourceModel) (fuel : Nat) (net : Net)
    (out out2 : Outcome GoMap) (err : GoError)
    (hget : Client.Get w c ("/rest/api/3/issuetypescheme?id=" ++ state.ID.ValueString)
      (some mapDest) fuel net = some out)
    (hok : out.err = none)
    (hget2 : Client.Get w c
      ("/rest/api/3/issuetypescheme/mapping?issueTypeSchemeId=" ++ state.ID.ValueString)
      (some mapDest) fuel out.net = some out2)
    (herr2 : out2.err = some err) :
    (∃ state' : IssueTypeSchemeResourceModel,
        IssueTypeSchemeResource.Read w c state fuel net = some (.stored state', out2.net)
        ∧ state'.ID = state.ID ∧ state'.IssueTypeIDs = state.IssueTypeIDs)
    ∨ IssueTypeSchemeResource.Read w c state fuel net = some (.panicked, out.net) := by
  simp only [IssueTypeSchemeResource.Read, hget, hok]
  cases hv : asSlice ((out.value.getD mapDest.zero).get? "values") with
  | none =>
    left
    simp only [hget2, herr2]
    exact ⟨state, rfl, rfl, rfl⟩
  | some vs =>
    cases vs with
    | nil =>
      left
      simp only [hget2, herr2]
      exact ⟨state, rfl, rfl, rfl⟩
    | cons first rest =>
      simp only []
      cases hm : asMap (some first) with
      | none => right; rfl
      | some scheme =>
        left
        simp only []
        cases hdesc : asString (Members.get? scheme "description") with
        | none =>
          cases hdit : asString (Members.get? scheme "defaultIssueTypeId") with
          | none =>
            simp only [hget2, herr2]
            exact ⟨_, rfl, rfl, rfl⟩
          | some ditID =>
            by_cases hne : ditID ≠ ""
            · simp only [if_pos hne, hget2, herr2]
              exact ⟨_, rfl, rfl, rfl⟩
            · simp only [if_neg hne, hget2, herr2]
              exact ⟨_, rfl, rfl, rfl⟩
        | some desc =>
          by_cases hd : desc ≠ ""
          · cases hdit : asString (Members.get? scheme "defaultIssueTypeId") with
            | none =>
              simp only [if_pos hd, hget2, herr2]
              exact ⟨_, rfl, rfl, rfl⟩
            | some ditID =>
              by_cases hne : ditID ≠ ""
              · simp only [if_pos hd, if_pos hne, hget2, herr2]
                exact ⟨_, rfl, rfl, rfl⟩
              · simp only [if_pos hd, if_neg hne, hget2, herr2]
                exact ⟨_, rfl, rfl, rfl⟩
          · cases hdit : asString (Members.get? scheme "defaultIssueTypeId") with
            | none =>
              simp only [if_neg hd, hget2, herr2]
              exact ⟨_, rfl, rfl, rfl⟩
            | some ditID =>
              by_cases hne : ditID ≠ ""
              · simp only [if_neg hd, if_pos hne, hget2, herr2]
                exact ⟨_, rfl, rfl, rfl⟩
              · simp only [if_neg hd, if_neg hne, hget2, herr2]
                exact ⟨_, rfl, rfl, rfl⟩

/-- C23 (amended): for every resource kind, when the first fetch of `Read`
fails with an error that `IsNotFound` does not take for a 404, `Read` reports
it: the result is the error diagnostic of the kind with the text of that
error, and nothing is stored. The second fetch of the issue type scheme
`Read`, the one of the mapping, is made on a best-effort basis: when it fails,
with any error, `Read` adds no diagnostic and stores the record with the issue
type ids it had. -/
theorem read_reports_first_fetch_error (k : ResourceKind) (w : World) (c : Client)
    (state : k.Model) (fuel : Nat) (net : Net) (err : GoError) (net1 : Net)
    (hfetch : k.firstFetch w c state fuel net = some (some err, net1))
    (hnot : IsNotFound (some err) = false) :
    k.Read w c state fuel net = some (.failed k.readSummary (err.Error w.pick), net1)
    ∧ (∀ (scheme : IssueTypeSchemeResourceModel) (net0 : Net) (out out2 : Outcome GoMap)
        (err2 : GoError),
        Client.Get w c ("/rest/api/3/issuetypescheme?id=" ++ scheme.ID.ValueString)
          (some mapDest) fuel net0 = some out →
        out.err = none →
        Client.Get w c
          ("/rest/api/3/issuetypescheme/mapping?issueTypeSchemeId=" ++ scheme.ID.ValueString)
          (some mapDest) fuel out.net = some out2 →
        out2.err = some err2 →
        (∃ state' : IssueTypeSchemeResourceModel,
            IssueTypeSchemeResource.Read w c scheme fuel net0 = some (.stored state', out2.net)
            ∧ state'.ID = scheme.ID ∧ state'.IssueTypeIDs = scheme.IssueTypeIDs)
        ∨ IssueTypeSchemeResource.Read w c scheme fuel net0 = some (.panicked, out.net)) :=
  ⟨ResourceKind.Read_first_fetch_error k w c state fuel net err net1 hfetch hnot,
    fun scheme net0 out out2 err2 hget hok hget2 herr2 =>
      IssueTypeSchemeResource.Read_mapping_error w c scheme fuel net0 out out2 err2 hget hok
        hget2 herr2⟩

/-- C23 (witness): the fetch of the project `OPS` is answered with an HTTP
500, and `Read` reports `Error reading project`. -/
theorem read_reports_first_fetch_error_witness :
    ResourceKind.Read ResourceKind.project failingWorld exampleClient storedProject 1 Net.start
      = some (.failed "Error reading project" "JIRA API error (HTTP 500)",
          { sent := [exampleClient.request "GET" "/rest/api/3/project/OPS" none],
            slept := [] }) :=
  (read_reports_first_fetch_error ResourceKind.project failingWorld exampleClient storedProject
    1 Net.start (.api { StatusCode := 500, ErrorMessages := [], Errors := [] })
    { sent := [exampleClient.request "GET" "/rest/api/3/project/OPS" none], slept := [] }
    rfl rfl).1

/-! ### Read of a custom field -/

/-- The scan of the listed fields misses exactly when no field has the stored
id. -/
theorem CustomFieldResource.scan_eq_none_iff (state : CustomFieldResourceModel)
    (fields : List GoMap) :
    CustomFieldResource.scan state fields = none
      ↔ ∀ f ∈ fields, fmtV (GoMap.get? f "id") ≠ state.ID.ValueString := by
  induction fields with
  | nil => simp [CustomFieldResource.scan]
  | cons f rest ih =>
    by_cases h : fmtV (GoMap.get? f "id") = state.ID.ValueString
    · simp [CustomFieldResource.scan, h]
    · simp [CustomFieldResource.scan, h, ih]

/-- The scan stops at the first field that has the stored id, and takes the
name from it. -/
theorem CustomFieldResource.scan_first (state : CustomFieldResourceModel)
    (pre : List GoMap) (f : GoMap) (post : List GoMap)
    (hpre : ∀ g ∈ pre, fmtV (GoMap.get? g "id") ≠ state.ID.ValueString)
    (hf : fmtV (GoMap.get? f "id") = state.ID.ValueString) :
    ∃ state', CustomFieldResource.scan state (pre ++ f :: post) = some state'
      ∧ state'.Name = .value (fmtV (GoMap.get? f "name")) ∧ state'.ID = state.ID := by
  induction pre with
  | nil =>
    simp only [List.nil_append, CustomFieldResource.scan, if_pos hf]
    refine ⟨_, rfl, ?_, ?_⟩
    · repeat' split
      all_goals rfl
    · repeat' split
      all_goals rfl
  | cons g pre ih =>
    have hg : fmtV (GoMap.get? g "id") ≠ state.ID.ValueString := hpre g (List.mem_cons_self _ _)
    simp only [List.cons_append, CustomFieldResource.scan, if_neg hg]
    exact ih (fun g' hg' => hpre g' (List.mem_cons_of_mem _ hg'))

/-- C24: given a successful listing of the fields, the custom field `Read`
yields the absent signal if and only if no listed field has an id that, as
`%v` prints it, is the stored id; otherwise it stores the record with the
name of the first listed field that has it. It ends in the absent signal or
in a stored record, never in an error diagnostic; the id of a field that is a
JSON string is printed as it is. -/
theorem customField_read_scans_by_id (w : World) (c : Client) (state : CustomFieldResourceModel)
    (fuel : Nat) (net : Net) (out : Outcome (List GoMap))
    (hget : Client.Get w c "/rest/api/3/field" (some mapsDest) fuel net = some out)
    (hok : out.err = none) :
    (CustomFieldResource.Read w c state fuel net = some (.removed, out.net)
      ↔ ∀ f ∈ out.value.getD mapsDest.zero, fmtV (GoMap.get? f "id") ≠ state.ID.ValueString)
    ∧ (∀ (pre : List GoMap) (f : GoMap) (post : List GoMap),
        out.value.getD mapsDest.zero = pre ++ f :: post →
        (∀ g ∈ pre, fmtV (GoMap.get? g "id") ≠ state.ID.ValueString) →
        fmtV (GoMap.get? f "id") = state.ID.ValueString →
        ∃ state', CustomFieldResource.Read w c state fuel net = some (.stored state', out.net)
          ∧ state'.Name = .value (fmtV (GoMap.get? f "name")) ∧ state'.ID = state.ID)
    ∧ (∃ r, CustomFieldResource.Read w c state fuel net = some (r, out.net)
        ∧ r.diagnostic = none ∧ (r.isRemoved = true ∨ r.stored?.isSome = true))
    ∧ (∀ s : String, fmtV (some (.str s)) = s) := by
  have hread : CustomFieldResource.Read w c state fuel net
      = match CustomFieldResource.scan state (out.value.getD mapsDest.zero) with
        | none => some (.removed, out.net)
        | some st => some (.stored st, out.net) := by
    simp only [CustomFieldResource.Read, hget, hok]
  refine ⟨?_, fun pre f post hsplit hpre hf => ?_, ?_, fun s => rfl⟩
  · rw [hread, ← CustomFieldResource.scan_eq_none_iff]
    cases CustomFieldResource.scan state (out.value.getD mapsDest.zero) with
    | none => simp
    | some st => simp
  · obtain ⟨state', hscan, hname, hid⟩ :=
      CustomFieldResource.scan_first state pre f post hpre hf
    rw [hread, hsplit, hscan]
    exact ⟨state', rfl, hname, hid⟩
  · rw [hread]
    cases CustomFieldResource.scan state (out.value.getD mapsDest.zero) with
    | none => exact ⟨_, rfl, rfl, Or.inl rfl⟩
    | some st => exact ⟨_, rfl, rfl, Or.inr rfl⟩

/-- C24 (witness): of the two listed fields the second has the stored id
`customfield_10001`; `Read` stores the record with its name, `Squad`. -/
theorem customField_read_scans_by_id_witness :
    Client.Get (constWorld (.answered (plainResponse 200 fieldListingBody (.ok fieldListingJSON))))
        exampleClient "/rest/api/3/field" (some mapsDest) 1 Net.start = some fieldListing
    ∧ ∃ state', CustomFieldResource.Read
          (constWorld (.answered (plainResponse 200 fieldListingBody (.ok fieldListingJSON))))
          exampleClient exampleCustomField 1 Net.start = some (.stored state', fieldListing.net)
        ∧ state'.Name = .value (fmtV (some (.str "Squad")))
        ∧ state'.ID = exampleCustomField.ID :=
  ⟨rfl, (customField_read_scans_by_id
    (constWorld (.answered (plainResponse 200 fieldListingBody (.ok fieldListingJSON))))
    exampleClient exampleCustomField 1 Net.start fieldListing rfl rfl).2.1
    [some [("id", .str "customfield_10000"), ("name", .str "Sprint")]]
    (some [("id", .str "customfield_10001"), ("name", .str "Squad")]) [] rfl
    (fun g hg => by rw [List.mem_singleton.mp hg]; decide) rfl⟩

/-! ### Read of an issue type scheme -/

/-- C25: the listing filtered by the stored id 10000 is answered with an HTTP
200 whose `values` is empty, or with the empty object: the scheme is not
there. `IssueTypeSchemeResource.Read` does not yield the absent signal: it
goes on to the mapping fetch and stores the record. On an HTTP 404 it does
yield the absent signal, and `GroupResource.Read`, which reads through a
listing too, yields it on the empty page. -/
theorem issueTypeScheme_read_keeps_missing_scheme :
    (IssueTypeSchemeResource.Read emptyPageWorld exampleClient storedScheme 1 Net.start).map
        (fun r => (r.1.isRemoved, r.1.diagnostic, r.1.stored?.map (fun st => st.Name.ValueString),
          r.2.sent.map (fun q => q.url)))
      = some (false, none, some "Default Issue Type Scheme",
          ["https://example.atlassian.net/rest/api/3/issuetypescheme?id=10000",
           "https://example.atlassian.net/rest/api/3/issuetypescheme/mapping?issueTypeSchemeId=10000"])
    ∧ (IssueTypeSchemeResource.Read emptyObjectWorld exampleClient storedScheme 1 Net.start).map
        (fun r => (r.1.isRemoved, r.1.diagnostic, r.1.stored?.map (fun st => st.Name.ValueString),
          r.2.sent.length))
      = some (false, none, some "Default Issue Type Scheme", 2)
    ∧ (IssueTypeSchemeResource.Read notFoundWorld exampleClient storedScheme 1 Net.start).map
        (fun r => (r.1.isRemoved, r.2.sent.length))
      = some (true, 1)
    ∧ (GroupResource.Read emptyPageWorld exampleClient oldGroup 1 Net.start).map
        (fun r => (r.1.isRemoved, r.2.sent.length))
      = some (true, 1) :=
  ⟨rfl, rfl, rfl, rfl⟩

/-! ### Read of a group membership -/

/-- Over entries that are objects the scan of `GroupMembershipResource.Read`
finds the account exactly when some entry has it. -/
theorem GroupMembershipResource.scan_objects (accountID : String) (entries : List Members) :
    GroupMembershipResource.scan accountID (entries.map JVal.obj)
      = some (decide (∃ m ∈ entries, fmtV (Members.get? m "accountId") = accountID)) := by
  induction entries with
  | nil => simp [GroupMembershipResource.scan]
  | cons m rest ih =>
    by_cases h : fmtV (Members.get? m "accountId") = accountID
    · simp [GroupMembershipResource.scan, asMap, h]
    · simp [GroupMembershipResource.scan, asMap, h, ih]

/-- Given a successful member listing whose `values` holds objects only, the
group membership `Read` keeps the record exactly when some entry has the
stored account id, yields the absent signal otherwise, and makes no further
request in either case. -/
theorem GroupMembershipResource.Read_first_page (w : World) (c : Client)
    (state : GroupMembershipResourceModel) (fuel : Nat) (net : Net) (out : Outcome GoMap)
    (entries : List Members)
    (hget : Client.Get w c
      ("/rest/api/3/group/member?" ++ encodeQuery "groupname" state.GroupName.ValueString)
      (some mapDest) fuel net = some out)
    (hok : out.err = none)
    (hvalues : asSlice ((out.value.getD mapDest.zero).get? "values")
      = some (entries.map JVal.obj)) :
    GroupMembershipResource.Read w c state fuel net
      = some (if ∃ m ∈ entries, fmtV (Members.get? m "accountId") = state.AccountID.ValueString
          then .stored state else .removed, out.net) := by
  simp only [GroupMembershipResource.Read, hget, hok, hvalues,
    GroupMembershipResource.scan_objects]
  by_cases h : ∃ m ∈ entries, fmtV (Members.get? m "accountId") = state.AccountID.ValueString
  · simp only [h, decide_True, if_true]
  · simp only [h, decide_False, if_false]

/-- C26: the member listing is answered with an HTTP 200 whose `values` holds
the text `acc-1` and no member object. No entry has an `accountId`, yet the
group membership `Read` neither keeps the record nor yields the absent
signal: the type assertion on the entry fails and the call panics. -/
theorem groupMembership_read_panics_on_entry :
    (Client.Get textMembersWorld exampleClient "/rest/api/3/group/member?groupname=jira-admins"
        (some mapDest) 1 Net.start).map (fun out => out.err.isNone)
      = some true
    ∧ (GroupMembershipResource.Read textMembersWorld exampleClient
        { membership "jira-admins" "acc-1" with ID := .value "jira-admins/acc-1" } 1
        Net.start).map
        (fun r => (r.1.isRemoved, r.1.stored?.isSome, r.1.diagnostic,
          r.2.sent.map (fun q => q.url)))
      = some (false, false, none,
          ["https://example.atlassian.net/rest/api/3/group/member?groupname=jira-admins"])
    ∧ GroupMembershipResource.Read textMembersWorld exampleClient
        { membership "jira-admins" "acc-1" with ID := .value "jira-admins/acc-1" } 1 Net.start
      = some (.panicked,
          { sent := [exampleClient.request "GET"
                      "/rest/api/3/group/member?groupname=jira-admins" none],
            slept := [] }) :=
  ⟨rfl, rfl, rfl⟩

/-! ### The ids validated by `findProjectScopedIssueTypeIDs` -/

/-- The first occurrences of a list with one more element at its end. -/
theorem firstOccurrences_concat (l : List String) (x : String) :
    firstOccurrences (l ++ [x])
      = if x ∈ l then firstOccurrences l else firstOccurrences l ++ [x] := by
  unfold firstOccurrences
  rw [List.reverse_append, List.reverse_singleton, List.singleton_append]
  by_cases h : x ∈ l
  · rw [if_pos h, List.dedup_cons_of_mem (List.mem_reverse.mpr h)]
  · rw [if_neg h, List.dedup_cons_of_not_mem (fun hm => h (List.mem_reverse.mp hm)),
      List.reverse_cons]

/-- The members of the first occurrences are those of the list. -/
theorem mem_firstOccurrences (l : List String) (x : String) :
    x ∈ firstOccurrences l ↔ x ∈ l := by
  unfold firstOccurrences
  rw [List.mem_reverse, List.mem_dedup, List.mem_reverse]

/-- The first occurrences hold no element twice. -/
theorem nodup_firstOccurrences (l : List String) : (firstOccurrences l).Nodup := by
  unfold firstOccurrences
  exact List.nodup_reverse.mpr (List.nodup_dedup _)

/-- The first loop of `findProjectScopedIssueTypeIDs` over two lists in a row. -/
theorem collectIDs_append (l1 l2 : List String) :
    ∀ acc : List String × List String,
      collectIDs (l1 ++ l2) acc = collectIDs l2 (collectIDs l1 acc) := by
  induction l1 with
  | nil => intro acc; rfl
  | cons x rest ih =>
    intro acc
    obtain ⟨ids, seen⟩ := acc
    simp only [List.cons_append, collectIDs]
    split
    · exact ih _
    · exact ih _

/-- The first loop of `findProjectScopedIssueTypeIDs` collects the first
occurrences of the list, and `seen` holds the elements of the list. -/
theorem collectIDs_eq (l : List String) :
    (collectIDs l ([], [])).1 = firstOccurrences l
    ∧ ∀ x, x ∈ (collectIDs l ([], [])).2 ↔ x ∈ l := by
  induction l using List.reverseRecOn with
  | nil => exact ⟨rfl, fun x => Iff.rfl⟩
  | append_singleton l x ih =>
    rw [collectIDs_append, firstOccurrences_concat]
    obtain ⟨hids, hseen⟩ := ih
    cases hc : collectIDs l ([], []) with
    | mk ids seen =>
      rw [hc] at hids hseen
      simp only at hids hseen
      by_cases hx : x ∈ l
      · have hx' : x ∈ seen := (hseen x).mpr hx
        simp only [collectIDs, if_pos hx', if_pos hx]
        refine ⟨hids, fun y => ?_⟩
        rw [hseen y, List.mem_append, List.mem_singleton]
        constructor
        · exact fun h => Or.inl h
        · rintro (h | h)
          · exact h
          · rw [h]; exact hx
      · have hx' : x ∉ seen := fun h => hx ((hseen x).mp h)
        simp only [collectIDs, if_neg hx', if_neg hx]
        refine ⟨by rw [hids], fun y => ?_⟩
        rw [List.mem_cons, hseen y, List.mem_append, List.mem_singleton]
        exact Or.comm

/-- The ids that `findProjectScopedIssueTypeIDs` validates: the first
occurrences of the list, then the default id when it is known, not empty and
not in the list. -/
theorem idsToValidate_eq (l : List String) (d : TfString) :
    idsToValidate l d
      = firstOccurrences l
        ++ (if d.IsNull = false ∧ d.IsUnknown = false ∧ d.ValueString ≠ "" ∧ d.ValueString ∉ l
            then [d.ValueString] else []) := by
  obtain ⟨hids, hseen⟩ := collectIDs_eq l
  unfold idsToValidate
  simp only [hids, hseen]
  cases d with
  | null => simp [Tf.IsNull]
  | unknown => simp [Tf.IsNull, Tf.IsUnknown]
  | value v =>
    by_cases h : v ∉ l ∧ v ≠ ""
    · simp [Tf.IsNull, Tf.IsUnknown, Tf.ValueString, h]
    · simp only [Tf.IsNull, Tf.IsUnknown, Tf.ValueString, Bool.not_false, Bool.and_self, if_true,
        if_neg h]
      have h' : ¬ (v ≠ "" ∧ v ∉ l) := fun hh => h ⟨hh.2, hh.1⟩
      simp [h']

/-- The ids validated hold no id twice. -/
theorem nodup_idsToValidate (l : List String) (d : TfString) : (idsToValidate l d).Nodup := by
  rw [idsToValidate_eq]
  split
  · rename_i h
    refine List.Nodup.append (nodup_firstOccurrences l) (List.nodup_singleton _) ?_
    intro x hx hd
    rw [List.mem_singleton] at hd
    rw [mem_firstOccurrences, hd] at hx
    exact h.2.2.2 hx
  · rw [List.append_nil]
    exact nodup_firstOccurrences l

/-- The scoped ids are picked from the ids in their order. -/
theorem scopedIDs_sublist (ids : List String) :
    ∀ payloads : List GoMap, (scopedIDs ids payloads).Sublist ids := by
  induction ids with
  | nil => intro payloads; cases payloads <;> exact List.Sublist.slnil
  | cons id rest ih =>
    intro payloads
    cases payloads with
    | nil => exact List.nil_sublist _
    | cons p ps =>
      simp only [scopedIDs]
      split
      · exact (ih ps).cons₂ id
      · exact (ih ps).cons id

/-- Among ids that are all different, an id is a scoped id exactly when the
payload at its position is project-scoped. -/
theorem mem_scopedIDs_iff (ids : List String) (hnodup : ids.Nodup) :
    ∀ (payloads : List GoMap) (id : String) (p : GoMap), (id, p) ∈ ids.zip payloads →
      (id ∈ scopedIDs ids payloads ↔ IsProjectScoped p = true) := by
  induction ids with
  | nil => intro payloads id p h; simp at h
  | cons id0 rest ih =>
    intro payloads id p h
    cases payloads with
    | nil => simp at h
    | cons p0 ps =>
      have hnot : id0 ∉ rest := (List.nodup_cons.mp hnodup).1
      have hrest : rest.Nodup := (List.nodup_cons.mp hnodup).2
      rw [List.zip_cons_cons, List.mem_cons] at h
      rcases h with h | h
      · obtain ⟨rfl, rfl⟩ := Prod.mk.inj h
        simp only [scopedIDs]
        by_cases hs : IsProjectScoped p = true
        · simp [hs]
        · rw [if_neg hs]
          constructor
          · intro hm
            exact absurd ((scopedIDs_sublist rest ps).subset hm) hnot
          · intro hp
            exact absurd hp hs
      · have hid : id ∈ rest := (List.of_mem_zip h).1
        have hne : id ≠ id0 := fun he => hnot (he ▸ hid)
        simp only [scopedIDs]
        split
        · rw [List.mem_cons]
          constructor
          · rintro (he | hm)
            · exact absurd he hne
            · exact (ih hrest ps id p h).mp hm
          · exact fun hp => Or.inr ((ih hrest ps id p h).mpr hp)
        · exact ih hrest ps id p h

/-- As many payloads are fetched as there are ids. -/
theorem Fetched_length (w : World) (c : Client) (fuel : Nat) (ids : List String) (net : Net)
    (payloads : List GoMap) (net' : Net) (hf : Fetched w c fuel ids net payloads net') :
    payloads.length = ids.length := by
  induction hf with
  | nil net => rfl
  | cons id rest net out payloads net' _ _ _ ih => simp only [List.length_cons, ih]

/-- What the second loop of `findProjectScopedIssueTypeIDs` did when it
returns: either every id was fetched without error and the scoped ones were
appended, or the ids before some id were, and the fetch of that id returned
the error. -/
theorem validateIDs_inv (w : World) (c : Client) (fuel : Nat) (ids : List String) :
    ∀ (invalid : List String) (net : Net) (res : Except GoError (List String)) (net' : Net),
      validateIDs w c ids invalid fuel net = some (res, net') →
      (∃ payloads, Fetched w c fuel ids net payloads net'
          ∧ res = .ok (invalid ++ scopedIDs ids payloads))
      ∨ (∃ pre id rest payloads net1 out err, ids = pre ++ id :: rest
          ∧ Fetched w c fuel pre net payloads net1
          ∧ Client.Get w c ("/rest/api/3/issuetype/" ++ id) (some mapDest) fuel net1 = some out
          ∧ out.err = some err ∧ res = .error err ∧ net' = out.net) := by
  induction ids with
  | nil =>
    intro invalid net res net' h
    simp only [validateIDs, Option.some.injEq, Prod.mk.injEq] at h
    obtain ⟨hres, hnet⟩ := h
    subst hres hnet
    exact Or.inl ⟨[], Fetched.nil net, by simp [scopedIDs]⟩
  | cons id rest ih =>
    intro invalid net res net' h
    unfold validateIDs at h
    cases hget : Client.Get w c ("/rest/api/3/issuetype/" ++ id) (some mapDest) fuel net with
    | none => rw [hget] at h; cases h
    | some out =>
      rw [hget] at h
      cases herr : out.err with
      | some err =>
        simp only [herr, Option.some.injEq, Prod.mk.injEq] at h
        obtain ⟨hres, hnet⟩ := h
        exact Or.inr ⟨[], id, rest, [], net, out, err, rfl, Fetched.nil net, hget, herr,
          hres.symm, hnet.symm⟩
      | none =>
        simp only [herr] at h
        have hstep : ∃ invalid', validateIDs w c rest invalid' fuel out.net = some (res, net')
            ∧ invalid' = invalid
              ++ scopedIDs [id] [out.value.getD mapDest.zero] := by
          by_cases hs : IsProjectScoped (out.value.getD mapDest.zero) = true
          · rw [if_pos hs] at h
            exact ⟨_, h, by simp [scopedIDs, hs]⟩
          · rw [if_neg hs] at h
            exact ⟨_, h, by simp [scopedIDs, hs]⟩
        obtain ⟨invalid', hrun, hinv⟩ := hstep
        rcases ih invalid' out.net res net' hrun with
          ⟨payloads, hf, hres⟩ | ⟨pre, id', rest', payloads, net1, out', err, hsplit, hf, hg, he,
            hres, hnet⟩
        · refine Or.inl ⟨out.value.getD mapDest.zero :: payloads,
            Fetched.cons id rest net out payloads net' hget herr hf, ?_⟩
          rw [hres, hinv, List.append_assoc]
          congr 2
          simp only [scopedIDs]
          split <;> simp
        · exact Or.inr ⟨id :: pre, id', rest', out.value.getD mapDest.zero :: payloads, net1,
            out', err, by rw [hsplit]; rfl,
            Fetched.cons id pre net out payloads net1 hget herr hf, hg, he, hres, hnet⟩

/-- In a world that never asks for a retry, the second loop of
`findProjectScopedIssueTypeIDs` gives what it returned for every positive
fuel. -/
theorem validateIDs_fuel (w : World) (c : Client)
    (hnever : ∀ sent req, (w.server sent req).retried = false) (ids : List String) :
    ∀ (invalid : List String) (fuel : Nat) (net : Net)
      (r : Except GoError (List String) × Net),
      validateIDs w c ids invalid fuel net = some r →
      ∀ fuel', validateIDs w c ids invalid (fuel' + 1) net = some r := by
  induction ids with
  | nil =>
    intro invalid fuel net r h fuel'
    simp only [validateIDs] at h ⊢
    exact h
  | cons id rest ih =>
    intro invalid fuel net r h fuel'
    cases fuel with
    | zero =>
      unfold validateIDs at h
      have h0 : Client.Get w c ("/rest/api/3/issuetype/" ++ id) (some mapDest) 0 net = none := rfl
      rw [h0] at h
      cases h
    | succ n =>
      unfold validateIDs at h ⊢
      have hget : Client.Get w c ("/rest/api/3/issuetype/" ++ id) (some mapDest) (fuel' + 1) net
          = Client.Get w c ("/rest/api/3/issuetype/" ++ id) (some mapDest) (n + 1) net :=
        doRequest_fuel_irrelevant w c "GET" _ _ _ net (hnever _ _) fuel' n
      rw [hget]
      cases hg : Client.Get w c ("/rest/api/3/issuetype/" ++ id) (some mapDest) (n + 1) net with
      | none => rw [hg] at h; cases h
      | some out =>
        rw [hg] at h
        cases herr : out.err with
        | some err => simp only [herr] at h ⊢; exact h
        | none =>
          simp only [herr] at h ⊢
          split
          · rename_i hs
            rw [if_pos hs] at h
            exact ih _ _ _ _ h fuel'
          · rename_i hs
            rw [if_neg hs] at h
            exact ih _ _ _ _ h fuel'

/-- C28: `findProjectScopedIssueTypeIDs` validates each distinct id once. The
ids it fetches are the distinct elements of the list in the order of their
first occurrence, followed by the default id when that one is known, not
empty and not in the list; no id is among them twice. When it returns a list,
every one of these ids was fetched in turn without error, and the list holds
no id twice, is picked in order from the ids fetched, and holds an id exactly
when the payload fetched for it is project-scoped. When it returns an error,
the ids before some id were fetched without error, the fetch of that id
returned this error, and nothing after it was fetched. In a world that never
asks for a retry, it returns the same for every positive fuel. -/
theorem findProjectScopedIssueTypeIDs_validates_once (w : World) (c : Client)
    (issueTypeIDs : List String) (defaultIssueTypeID : TfString) (fuel : Nat) (net : Net)
    (res : Except GoError (List String)) (net' : Net)
    (h : IssueTypeSchemeResource.findProjectScopedIssueTypeIDs w c issueTypeIDs
      defaultIssueTypeID fuel net = some (res, net')) :
    idsToValidate issueTypeIDs defaultIssueTypeID
      = firstOccurrences issueTypeIDs
        ++ (if defaultIssueTypeID.IsNull = false ∧ defaultIssueTypeID.IsUnknown = false
              ∧ defaultIssueTypeID.ValueString ≠ ""
              ∧ defaultIssueTypeID.ValueString ∉ issueTypeIDs
            then [defaultIssueTypeID.ValueString] else [])
    ∧ (idsToValidate issueTypeIDs defaultIssueTypeID).Nodup
    ∧ (∀ result, res = .ok result →
        ∃ payloads,
          Fetched w c fuel (idsToValidate issueTypeIDs defaultIssueTypeID) net payloads net'
          ∧ payloads.length = (idsToValidate issueTypeIDs defaultIssueTypeID).length
          ∧ result = scopedIDs (idsToValidate issueTypeIDs defaultIssueTypeID) payloads
          ∧ result.Nodup
          ∧ result.Sublist (idsToValidate issueTypeIDs defaultIssueTypeID)
          ∧ ∀ id p, (id, p) ∈ (idsToValidate issueTypeIDs defaultIssueTypeID).zip payloads →
              (id ∈ result ↔ IsProjectScoped p = true))
    ∧ (∀ err, res = .error err →
        ∃ pre id rest payloads net1 out,
          idsToValidate issueTypeIDs defaultIssueTypeID = pre ++ id :: rest
          ∧ Fetched w c fuel pre net payloads net1
          ∧ Client.Get w c ("/rest/api/3/issuetype/" ++ id) (some mapDest) fuel net1 = some out
          ∧ out.err = some err ∧ net' = out.net)
    ∧ ((∀ sent req, (w.server sent req).retried = false) →
        ∀ fuel', IssueTypeSchemeResource.findProjectScopedIssueTypeIDs w c issueTypeIDs
          defaultIssueTypeID (fuel' + 1) net = some (res, net')) := by
  have hnodup := nodup_idsToValidate issueTypeIDs defaultIssueTypeID
  unfold IssueTypeSchemeResource.findProjectScopedIssueTypeIDs at h ⊢
  refine ⟨idsToValidate_eq _ _, hnodup, fun result hres => ?_, fun err hres => ?_,
    fun hnever fuel' => validateIDs_fuel w c hnever _ _ _ _ _ h fuel'⟩
  · rcases validateIDs_inv w c fuel _ [] net res net' h with
      ⟨payloads, hf, hok⟩ | ⟨_, _, _, _, _, _, _, _, _, _, _, herr, _⟩
    · rw [hres, List.nil_append] at hok
      have hresult : result = scopedIDs (idsToValidate issueTypeIDs defaultIssueTypeID) payloads :=
        Except.ok.inj hok
      refine ⟨payloads, hf, Fetched_length w c fuel _ net payloads net' hf, hresult, ?_, ?_, ?_⟩
      · rw [hresult]
        exact hnodup.sublist (scopedIDs_sublist _ _)
      · rw [hresult]
        exact scopedIDs_sublist _ _
      · rw [hresult]
        exact mem_scopedIDs_iff _ hnodup payloads
    · rw [hres] at herr
      cases herr
  · rcases validateIDs_inv w c fuel _ [] net res net' h with
      ⟨_, _, hok⟩ | ⟨pre, id, rest, payloads, net1, out, err', hsplit, hf, hget, he, herr, hnet⟩
    · rw [hres] at hok
      cases hok
    · rw [hres] at herr
      have : err = err' := Except.error.inj herr
      subst this
      exact ⟨pre, id, rest, payloads, net1, out, hsplit, hf, hget, he, hnet⟩

/-- C28 (witness): the list names 10001, 10002 and 10001 again, the default
id is 10003, and every detail fetched is project-scoped: the three distinct
ids are fetched once each and all three are returned. -/
theorem findProjectScopedIssueTypeIDs_validates_once_witness :
    IssueTypeSchemeResource.findProjectScopedIssueTypeIDs
        (constWorld (.answered (plainResponse 200 scopedDetailBody (.ok scopedDetailJSON))))
        exampleClient ["10001", "10002", "10001"] (.value "10003") 1 Net.start
      = some (.ok ["10001", "10002", "10003"],
          { sent := [exampleClient.request "GET" "/rest/api/3/issuetype/10001" none,
                     exampleClient.request "GET" "/rest/api/3/issuetype/10002" none,
                     exampleClient.request "GET" "/rest/api/3/issuetype/10003" none],
            slept := [] })
    ∧ idsToValidate ["10001", "10002", "10001"] (.value "10003")
      = firstOccurrences ["10001", "10002", "10001"]
        ++ (if (Tf.value "10003" : TfString).IsNull = false
              ∧ (Tf.value "10003" : TfString).IsUnknown = false
              ∧ (Tf.value "10003" : TfString).ValueString ≠ ""
              ∧ (Tf.value "10003" : TfString).ValueString ∉ ["10001", "10002", "10001"]
            then [(Tf.value "10003" : TfString).ValueString] else [])
    ∧ idsToValidate ["10001", "10002", "10001"] (.value "10003") = ["10001", "10002", "10003"] :=
  ⟨rfl, (findProjectScopedIssueTypeIDs_validates_once
    (constWorld (.answered (plainResponse 200 scopedDetailBody (.ok scopedDetailJSON))))
    exampleClient ["10001", "10002", "10001"] (.value "10003") 1 Net.start
    (.ok ["10001", "10002", "10003"])
    { sent := [exampleClient.request "GET" "/rest/api/3/issuetype/10001" none,
               exampleClient.request "GET" "/rest/api/3/issuetype/10002" none,
               exampleClient.request "GET" "/rest/api/3/issuetype/10003" none],
      slept := [] } rfl).1, by decide⟩

/-! ### Permission grants -/

/-- Grants whose values are known are read into structs as they are. -/
theorem grantsAsStructs_ofStrings (triples : List (String × String × String)) :
    grantsAsStructs (triples.map PermissionGrant.ofStrings) = some triples := by
  induction triples with
  | nil => rfl
  | cons g rest ih =>
    simp only [List.map_cons, grantsAsStructs, PermissionGrant.ofStrings, ih]

/-- The grant-parsing loop of `PermissionSchemeResource.Read` inverts the maps
that `buildPermissions` builds. -/
theorem parseGrants_grantPayload (triples : List (String × String × String)) :
    PermissionSchemeResource.parseGrants ((triples.map grantPayload).map JVal.obj)
      = some (triples.map PermissionGrant.ofStrings) := by
  induction triples with
  | nil => rfl
  | cons g rest ih =>
    simp only [List.map_cons, PermissionSchemeResource.parseGrants, ih]
    rfl

/-- C29: permission grants round-trip. For every non-empty list of grants
whose permission, holder type and holder parameter are known strings,
`buildPermissions` returns one map per grant, in order, and the grant-parsing
loop of the permission scheme `Read` over that payload yields the same grants,
in the same order and of the same length; a `Read` whose answer carries the
payload under `permissions` stores exactly these grants. -/
theorem permission_grants_round_trip (plan : PermissionSchemeResourceModel)
    (triples : List (String × String × String)) (hne : triples ≠ []) :
    ∃ payload : List Members,
      PermissionSchemeResource.buildPermissions
          { plan with Permissions := .value (triples.map PermissionGrant.ofStrings) }
        = .ok (some payload)
      ∧ payload = triples.map grantPayload
      ∧ payload.length = (triples.map PermissionGrant.ofStrings).length
      ∧ PermissionSchemeResource.parseGrants (payload.map JVal.obj)
        = some (triples.map PermissionGrant.ofStrings)
      ∧ (∀ (w : World) (c : Client) (state : PermissionSchemeResourceModel) (fuel : Nat)
          (net : Net) (out : Outcome GoMap),
          Client.Get w c
            ("/rest/api/3/permissionscheme/" ++ state.ID.ValueString ++ "?expand=permissions")
            (some mapDest) fuel net = some out →
          out.err = none →
          asSlice ((out.value.getD mapDest.zero).get? "permissions")
            = some (payload.map JVal.obj) →
          ∃ st, PermissionSchemeResource.Read w c state fuel net = some (.stored st, out.net)
            ∧ st.Permissions = .value (triples.map PermissionGrant.ofStrings)) := by
  refine ⟨triples.map grantPayload, ?_, rfl, by simp, parseGrants_grantPayload triples,
    fun w c state fuel net out hget hok hperms => ?_⟩
  · simp only [PermissionSchemeResource.buildPermissions, grantsAsStructs_ofStrings, if_neg hne]
    rfl
  · cases triples with
    | nil => exact absurd rfl hne
    | cons g rest =>
      have hparse := parseGrants_grantPayload (g :: rest)
      simp only [List.map_cons] at hperms hparse
      simp only [PermissionSchemeResource.Read, hget, hok, hperms, hparse]
      exact ⟨_, rfl, rfl⟩

/-- C29 (witness): two grants, the second with an empty holder parameter, are
built into two maps and parsed back. -/
theorem permission_grants_round_trip_witness :
    ∃ payload : List Members,
      PermissionSchemeResource.buildPermissions
          { storedPermissionScheme with
            Permissions := .value ([("BROWSE_PROJECTS", "group", "jira-users"),
              ("ADMINISTER_PROJECTS", "projectLead", "")].map PermissionGrant.ofStrings) }
        = .ok (some payload)
      ∧ payload = [("BROWSE_PROJECTS", "group", "jira-users"),
          ("ADMINISTER_PROJECTS", "projectLead", "")].map grantPayload
      ∧ payload.length = ([("BROWSE_PROJECTS", "group", "jira-users"),
          ("ADMINISTER_PROJECTS", "projectLead", "")].map PermissionGrant.ofStrings).length
      ∧ PermissionSchemeResource.parseGrants (payload.map JVal.obj)
        = some ([("BROWSE_PROJECTS", "group", "jira-users"),
          ("ADMINISTER_PROJECTS", "projectLead", "")].map PermissionGrant.ofStrings) :=
  (permission_grants_round_trip storedPermissionScheme
    [("BROWSE_PROJECTS", "group", "jira-users"), ("ADMINISTER_PROJECTS", "projectLead", "")]
    (fun h => absurd (congrArg List.length h) (by decide))).imp
    (fun _ h => ⟨h.1, h.2.1, h.2.2.1, h.2.2.2.1⟩)

/-! ### Read of the workflow data source -/

/-- C30: three answers with an HTTP 200 and a JSON object on which the workflow
data source `Read` ends neither with a stored result nor with an error
diagnostic, because an unchecked type assertion fails: the first element of
`values` is a number; the first element is an object without `id`; the first
element is an object whose `id` is a string. On an answer whose first element
has an object as `id` it stores a result, and on one without elements it
reports `Workflow not found`. -/
theorem workflow_read_panics_on_unchecked_assertion :
    (WorkflowDataSource.Read
        (jsonWorld "\x7b\"values\":[5]\x7d" (.obj [("values", .arr [.num (some 5) "5"])]))
        exampleClient workflowByName 1 Net.start).map (fun r => r.1.brief)
      = some (false, none, true)
    ∧ (WorkflowDataSource.Read
        (jsonWorld "\x7b\"values\":[\x7b\"description\":\"The classic workflow\"\x7d]\x7d"
          (.obj [("values", .arr [.obj [("description", .str "The classic workflow")]])]))
        exampleClient workflowByName 1 Net.start).map (fun r => r.1.brief)
      = some (false, none, true)
    ∧ (WorkflowDataSource.Read
        (jsonWorld "\x7b\"values\":[\x7b\"id\":\"classic\"\x7d]\x7d"
          (.obj [("values", .arr [.obj [("id", .str "classic")]])]))
        exampleClient workflowByName 1 Net.start).map (fun r => r.1.brief)
      = some (false, none, true)
    ∧ (WorkflowDataSource.Read
        (jsonWorld "\x7b\"values\":[\x7b\"id\":\x7b\"name\":\"classic\"\x7d\x7d]\x7d"
          (.obj [("values", .arr [.obj [("id", .obj [("name", .str "classic")])]])]))
        exampleClient workflowByName 1 Net.start).map (fun r => r.1.brief)
      = some (true, none, false)
    ∧ (WorkflowDataSource.Read (jsonWorld "\x7b\"values\":[]\x7d" (.obj [("values", .arr [])]))
        exampleClient workflowByName 1 Net.start).map (fun r => r.1.brief)
      = some (false, some ("Workflow not found", "No workflow with name 'classic' found."),
          false) := by
  refine ⟨?_, ?_, ?_, ?_, ?_⟩ <;> decide

end Jira



